import Mathlib

/-! enDjinn: the per-frame draw algorithm of `GraphicsManager::Draw`, the
fixed-timestep scheduler of `Engine::RunGameLoop`, the texture cache of
`ResourceManager` and the start-up sequence.

A shallow embedding of `src/enDjinn/engine/managers/GraphicsManager.cpp`
(`GraphicsManager::Startup`, `Draw`, `ShouldClose`), `GraphicsManager.h`
(`InstanceData`), `assets/Sprite.h` (`Sprite`), `assets/ResourceManager.{h,cpp}`
(`Texture`, `LoadTexture`, `GetTexture`), `managers/ScriptManager.cpp`
(`LoadScript`, `GetScript`), `Engine.cpp` (`Startup`, `RunGameLoop`, `QuitGame`)
and the callback of `demo/helloworld.cpp`.

Conventions of the embedding.

* `float` values that are only copied or multiplied (`glm::vec2`, the first two
  components of a `glm::vec3`) are exact rationals, and the quotient of two texture
  dimensions is the exact quotient.  The depth `Sprite::z`, the one `float` the code
  compares, is a `CFloat`: a rational or NaN.
* `std::sort` is a library routine whose tie order is unspecified; it enters
  as a parameter `StdSort` carrying its contract: the result is a permutation of
  the input, and when no depth is NaN no later element compares before an earlier
  one.  `libstdcxxStdSort` is the insertion sort libstdc++ runs on short ranges.
* The `double` seconds of the scheduler come twice: as exact rationals, for the
  statements worded in exact arithmetic, and rounded to the nearest double after
  every sum and difference, as the code computes.
* A call into WebGPU becomes one `Event` of the frame's trace.  Object creation is
  taken to succeed and to return a fresh non-null handle; bind-group handles are
  numbered in creation order.
* `size_t` arithmetic is exact on `Nat` (a `std::vector<Sprite>` cannot hold so
  many elements that `20 * size()` wraps); the explicit `static_cast<uint32_t>`
  of the loop index is kept as `% 2^32`.
* What the file system, GLFW, WebGPU and the Lua runtime answer during a texture
  load or during start-up is an input of the embedding (`LoadEnv`, `GraphicsEnv`,
  `EngineEnv`); the waits for the adapter and the device are loops on fuel.
-/

namespace enDjinn

/-! ## Data model -/

/-- The `glm::vec2` of the source. -/
structure Vec2 where
  x : ℚ
  y : ℚ
deriving DecidableEq

/-- A `float` whose value the code compares: a number or NaN.  Rounding and the
infinities are not modelled; an infinity orders like a number. -/
inductive CFloat where
  | nan
  | val (q : ℚ)
deriving DecidableEq

/-- The comparison `a > b` of two floats: false as soon as one of them is NaN. -/
def CFloat.gt : CFloat → CFloat → Bool
  | CFloat.val a, CFloat.val b => decide (a > b)
  | _, _ => false

/-- The comparison `a >= b` of two floats: false as soon as one of them is NaN. -/
def CFloat.ge : CFloat → CFloat → Bool
  | CFloat.val a, CFloat.val b => decide (a ≥ b)
  | _, _ => false

/-- The `glm::vec3` of the source, as `InstanceData::translation` uses it: the third
component is a copy of `Sprite::z`. -/
structure Vec3 where
  x : ℚ
  y : ℚ
  z : CFloat
deriving DecidableEq

/-- Component-wise product `glm::vec2 * glm::vec2`. -/
def Vec2.mul (a b : Vec2) : Vec2 := ⟨a.x * b.x, a.y * b.y⟩

/-- The struct `Sprite` of `assets/Sprite.h`. -/
structure Sprite where
  textureName : String
  position : Vec2
  scale : Vec2
  z : CFloat
deriving DecidableEq

/-- The struct `InstanceData` of `GraphicsManager.h`: a `vec3` and a `vec2`. -/
structure InstanceData where
  translation : Vec3
  scale : Vec2
deriving DecidableEq

/-- The value of `sizeof(InstanceData)`: five 4-byte floats. -/
def sizeofInstanceData : Nat := 20

/-- The struct `Texture` of `assets/ResourceManager.h`; `texture = none` is the
null `WGPUTexture`. -/
structure Texture where
  width : Int
  height : Int
  texture : Option Nat
deriving DecidableEq

/-- The texture cache `m_textures` of `ResourceManager`, as an association list
searched from the front. -/
structure ResourceManager where
  m_textures : List (String × Texture)

/-- The method `ResourceManager::GetTexture`: a pointer to the cached entry, or
`nullptr` (`none`) when the name is absent. -/
def ResourceManager.GetTexture (rm : ResourceManager) (name : String) : Option Texture :=
  rm.m_textures.lookup name

/-! ## `std::sort` -/

/-- The comparator handed to `std::sort` in `Draw`: `lhs.z > rhs.z`. -/
def zGreater (lhs rhs : Sprite) : Bool := CFloat.gt lhs.z rhs.z

/-- The contract of `std::sort(first, last, comp)` with `comp = zGreater`.  The
result is a rearrangement of the input.  When no `z` is NaN the comparator is a
strict weak ordering and the result is sorted: no later element compares before an
earlier one.  With a NaN among the keys the comparator is no strict weak ordering
and nothing is promised about the order; the result is still taken to be a
rearrangement of the input, as the insertion sort of a short range gives. -/
structure StdSort where
  sort : List Sprite → List Sprite
  perm : ∀ l, (sort l).Perm l
  sorted : ∀ l, (∀ s ∈ l, s.z ≠ CFloat.nan) →
    (sort l).Pairwise (fun a b => zGreater b a = false)

/-- Insert `s` before the first element it does not have to follow. -/
def insertByZ (s : Sprite) : List Sprite → List Sprite
  | [] => [s]
  | t :: rest => if zGreater t s then t :: insertByZ s rest else s :: t :: rest

/-- Insertion sort by descending `z`. -/
def insertionSortByZ : List Sprite → List Sprite
  | [] => []
  | s :: rest => insertByZ s (insertionSortByZ rest)

/-- One admissible `std::sort`: insertion sort by descending `z` (it happens to be
stable; the contract does not ask for that). -/
def insertionStdSort : StdSort where
  sort := insertionSortByZ
  perm := by
    have ins : ∀ (s : Sprite) (l : List Sprite), (insertByZ s l).Perm (s :: l) := by
      intro s l
      induction l with
      | nil => exact List.Perm.refl _
      | cons t rest ih =>
        unfold insertByZ
        split
        · exact (List.Perm.cons t ih).trans (List.Perm.swap s t rest)
        · exact List.Perm.refl _
    intro l
    induction l with
    | nil => exact List.Perm.refl _
    | cons s rest ih => exact (ins s _).trans (List.Perm.cons s ih)
  sorted := by
    have insP : ∀ (s : Sprite) (l : List Sprite), (insertByZ s l).Perm (s :: l) := by
      intro s l
      induction l with
      | nil => exact List.Perm.refl _
      | cons t rest ih =>
        unfold insertByZ
        split
        · exact (List.Perm.cons t ih).trans (List.Perm.swap s t rest)
        · exact List.Perm.refl _
    have asym : ∀ a b : Sprite, zGreater a b = true → zGreater b a = false := by
      intro a b
      unfold zGreater
      cases a.z <;> cases b.z <;> simp [CFloat.gt]
      intro h
      exact le_of_lt h
    have trans : ∀ a b c : Sprite, a.z ≠ CFloat.nan → b.z ≠ CFloat.nan → c.z ≠ CFloat.nan →
        zGreater a b = false → zGreater b c = false → zGreater a c = false := by
      intro a b c
      unfold zGreater
      cases a.z <;> cases b.z <;> cases c.z <;> simp [CFloat.gt]
      intro h1 h2
      exact le_trans h1 h2
    have insS : ∀ (s : Sprite) (l : List Sprite), s.z ≠ CFloat.nan →
        (∀ x ∈ l, x.z ≠ CFloat.nan) →
        l.Pairwise (fun a b => zGreater b a = false) →
        (insertByZ s l).Pairwise (fun a b => zGreater b a = false) := by
      intro s l hs
      induction l with
      | nil => intro _ _; simp [insertByZ]
      | cons t rest ih =>
        intro hl h
        rw [List.pairwise_cons] at h
        have ht : t.z ≠ CFloat.nan := hl t (List.mem_cons_self _ _)
        have hrest : ∀ x ∈ rest, x.z ≠ CFloat.nan :=
          fun x hx => hl x (List.mem_cons_of_mem _ hx)
        unfold insertByZ
        split
        · rename_i hts
          rw [List.pairwise_cons]
          refine ⟨?_, ih hrest h.2⟩
          intro x hx
          rcases List.mem_cons.1 ((insP s rest).subset hx) with hxs | hxr
          · subst hxs
            exact asym t x hts
          · exact h.1 x hxr
        · rename_i hts
          have hts2 : zGreater t s = false := by simpa using hts
          rw [List.pairwise_cons]
          refine ⟨?_, List.pairwise_cons.2 h⟩
          intro x hx
          rcases List.mem_cons.1 hx with hxt | hxr
          · subst hxt
            exact hts2
          · exact trans x t s (hrest x hxr) ht hs (h.1 x hxr) hts2
    intro l
    induction l with
    | nil => intro _; simp [insertionSortByZ]
    | cons s rest ih =>
      intro hl
      have hrest : ∀ x ∈ rest, x.z ≠ CFloat.nan :=
        fun x hx => hl x (List.mem_cons_of_mem _ hx)
      have hperm : ∀ (l : List Sprite), (insertionSortByZ l).Perm l := by
        intro l
        induction l with
        | nil => exact List.Perm.refl _
        | cons s rest ih => exact (insP s _).trans (List.Perm.cons s ih)
      exact insS s _ (hl s (List.mem_cons_self _ _))
        (fun x hx => hrest x ((hperm rest).subset hx)) (ih hrest)

/-- The loop of `std::__unguarded_linear_insert` of libstdc++, on the elements before
`val` held back to front: `val` moves towards the front past each element it
compares before, and stops at the first one it does not. -/
def unguardedLinearInsert (val : Sprite) : List Sprite → List Sprite
  | [] => [val]
  | next :: rest =>
    if zGreater val next then next :: unguardedLinearInsert val rest
    else val :: next :: rest

/-- One round of `std::__insertion_sort` of libstdc++: `val` is the element at `i`,
`sortedPart` the range before it.  When `val` compares before the first element it
is moved to the front; otherwise it is inserted by `__unguarded_linear_insert`. -/
def insertionRound (sortedPart : List Sprite) (val : Sprite) : List Sprite :=
  match sortedPart with
  | [] => [val]
  | first :: _ =>
    if zGreater val first then val :: sortedPart
    else (unguardedLinearInsert val sortedPart.reverse).reverse

/-- The routine `std::__insertion_sort` of libstdc++, which is all `std::sort` runs on
a range of at most 16 elements. -/
def libstdcxxInsertionSort (l : List Sprite) : List Sprite :=
  l.foldl insertionRound []

/-- The `std::sort` of libstdc++ on short ranges, as one admissible `std::sort`. -/
def libstdcxxStdSort : StdSort where
  sort := libstdcxxInsertionSort
  perm := by
    have uliP : ∀ (val : Sprite) (l : List Sprite),
        (unguardedLinearInsert val l).Perm (val :: l) := by
      intro val l
      induction l with
      | nil => exact List.Perm.refl _
      | cons t rest ih =>
        unfold unguardedLinearInsert
        split
        · exact (List.Perm.cons t ih).trans (List.Perm.swap val t rest)
        · exact List.Perm.refl _
    have roundP : ∀ (sp : List Sprite) (val : Sprite),
        (insertionRound sp val).Perm (val :: sp) := by
      intro sp val
      cases sp with
      | nil => exact List.Perm.refl _
      | cons first tail =>
        simp only [insertionRound]
        split
        · exact List.Perm.refl _
        · exact (List.reverse_perm _).trans
            ((uliP val _).trans (List.Perm.cons val (List.reverse_perm _)))
    have foldP : ∀ (l sp : List Sprite), (l.foldl insertionRound sp).Perm (sp ++ l) := by
      intro l
      induction l with
      | nil => intro sp; simp
      | cons val rest ih =>
        intro sp
        rw [List.foldl_cons]
        refine (ih _).trans ?_
        refine ((roundP sp val).append_right rest).trans ?_
        exact (List.perm_middle : (sp ++ val :: rest).Perm (val :: (sp ++ rest))).symm
    intro l
    simpa using foldP l []
  sorted := by
    have uliP : ∀ (val : Sprite) (l : List Sprite),
        (unguardedLinearInsert val l).Perm (val :: l) := by
      intro val l
      induction l with
      | nil => exact List.Perm.refl _
      | cons t rest ih =>
        unfold unguardedLinearInsert
        split
        · exact (List.Perm.cons t ih).trans (List.Perm.swap val t rest)
        · exact List.Perm.refl _
    have roundP : ∀ (sp : List Sprite) (val : Sprite),
        (insertionRound sp val).Perm (val :: sp) := by
      intro sp val
      cases sp with
      | nil => exact List.Perm.refl _
      | cons first tail =>
        simp only [insertionRound]
        split
        · exact List.Perm.refl _
        · exact (List.reverse_perm _).trans
            ((uliP val _).trans (List.Perm.cons val (List.reverse_perm _)))
    have asym : ∀ a b : Sprite, zGreater a b = true → zGreater b a = false := by
      intro a b
      unfold zGreater
      cases a.z <;> cases b.z <;> simp [CFloat.gt]
      intro h
      exact le_of_lt h
    have trans : ∀ a b c : Sprite, a.z ≠ CFloat.nan → b.z ≠ CFloat.nan → c.z ≠ CFloat.nan →
        zGreater a b = false → zGreater b c = false → zGreater a c = false := by
      intro a b c
      unfold zGreater
      cases a.z <;> cases b.z <;> cases c.z <;> simp [CFloat.gt]
      intro h1 h2
      exact le_trans h1 h2
    have below : ∀ x f v : Sprite, zGreater x f = false → zGreater v f = true →
        zGreater x v = false := by
      intro x f v
      unfold zGreater
      cases x.z <;> cases f.z <;> cases v.z <;> simp [CFloat.gt]
      intro h1 h2
      exact le_trans h1 (le_of_lt h2)
    have uliS : ∀ (val : Sprite) (l : List Sprite), val.z ≠ CFloat.nan →
        (∀ x ∈ l, x.z ≠ CFloat.nan) →
        l.Pairwise (fun a b => zGreater a b = false) →
        (unguardedLinearInsert val l).Pairwise (fun a b => zGreater a b = false) := by
      intro val l hv
      induction l with
      | nil => intro _ _; simp [unguardedLinearInsert]
      | cons next rest ih =>
        intro hl h
        rw [List.pairwise_cons] at h
        have hn : next.z ≠ CFloat.nan := hl next (List.mem_cons_self _ _)
        have hrest : ∀ x ∈ rest, x.z ≠ CFloat.nan :=
          fun x hx => hl x (List.mem_cons_of_mem _ hx)
        unfold unguardedLinearInsert
        split
        · rename_i hvn
          rw [List.pairwise_cons]
          refine ⟨?_, ih hrest h.2⟩
          intro x hx
          rcases List.mem_cons.1 ((uliP val rest).subset hx) with hxv | hxr
          · subst hxv
            exact asym x next hvn
          · exact h.1 x hxr
        · rename_i hvn
          have hvn2 : zGreater val next = false := by simpa using hvn
          rw [List.pairwise_cons]
          refine ⟨?_, List.pairwise_cons.2 h⟩
          intro x hx
          rcases List.mem_cons.1 hx with hxn | hxr
          · subst hxn
            exact hvn2
          · exact trans val next x hv hn (hrest x hxr) hvn2 (h.1 x hxr)
    have roundS : ∀ (sp : List Sprite) (val : Sprite), val.z ≠ CFloat.nan →
        (∀ x ∈ sp, x.z ≠ CFloat.nan) →
        sp.Pairwise (fun a b => zGreater b a = false) →
        (insertionRound sp val).Pairwise (fun a b => zGreater b a = false) := by
      intro sp val hv hsp h
      cases sp with
      | nil => simp [insertionRound]
      | cons first tail =>
        simp only [insertionRound]
        split
        · rename_i hvf
          rw [List.pairwise_cons]
          refine ⟨?_, h⟩
          intro x hx
          rcases List.mem_cons.1 hx with hxf | hxt
          · subst hxf
            exact asym val x hvf
          · exact below x first val ((List.pairwise_cons.1 h).1 x hxt) hvf
        · rw [List.pairwise_reverse]
          apply uliS val _ hv
          · intro x hx
            exact hsp x (List.mem_reverse.1 hx)
          · exact List.pairwise_reverse.2 h
    have foldS : ∀ (l sp : List Sprite), (∀ x ∈ l, x.z ≠ CFloat.nan) →
        (∀ x ∈ sp, x.z ≠ CFloat.nan) →
        sp.Pairwise (fun a b => zGreater b a = false) →
        (l.foldl insertionRound sp).Pairwise (fun a b => zGreater b a = false) := by
      intro l
      induction l with
      | nil => intro sp _ _ h; exact h
      | cons val rest ih =>
        intro sp hl hsp h
        rw [List.foldl_cons]
        have hv : val.z ≠ CFloat.nan := hl val (List.mem_cons_self _ _)
        apply ih
        · exact fun x hx => hl x (List.mem_cons_of_mem _ hx)
        · intro x hx
          rcases List.mem_cons.1 ((roundP sp val).subset hx) with hxv | hxs
          · subst hxv
            exact hv
          · exact hsp x hxs
        · exact roundS sp val hv hsp h
    intro l hl
    exact foldS l [] hl (fun x hx => absurd hx (List.not_mem_nil x)) List.Pairwise.nil

/-! ## The frame trace -/

/-- One observable step of `Draw`: a log line or a call into WebGPU.  The first
field of `renderPassEncoderDraw` records the `sprite` of the loop iteration that
issues the call; it is not an argument of the WebGPU call, whose arguments are
the four numbers. -/
inductive Event where
  | warnNoScriptManager
  | warnNoForEach
  | deviceCreateCommandEncoder
  | surfaceGetCurrentTexture
  | surfaceTextureCreateView
  | commandEncoderBeginRenderPass
  | deviceCreateBuffer (size : Nat)
  | renderPassEncoderSetPipeline
  | renderPassEncoderSetVertexBuffer (slot : Nat) (offset : Nat) (size : Nat)
  | warnMissingTexture (textureName : String)
  | queueWriteBuffer (offset : Nat) (data : InstanceData) (size : Nat)
  | bindGroupRelease (bindGroup : Nat)
  | renderPipelineGetBindGroupLayout
  | textureCreateView (tex : Nat)
  | deviceCreateBindGroup (bindGroup : Nat) (tex : Nat)
  | textureViewRelease (tex : Nat)
  | bindGroupLayoutRelease
  | renderPassEncoderSetBindGroup (bindGroup : Nat)
  | renderPassEncoderDraw (sprite : Sprite)
      (vertexCount instanceCount firstVertex firstInstance : Nat)
  | bufferRelease
  | renderPassEncoderEnd
  | commandEncoderFinish
  | queueSubmit
  | surfacePresent
  | surfaceTextureViewRelease
  | surfaceTextureRelease
  | commandEncoderRelease
  | commandBufferRelease
deriving DecidableEq

/-! ## `GraphicsManager::Draw` -/

/-- The corrective scale of step A of the draw loop: `aspect_scale` starts as
`(1, 1)`; when `width < height` its `x` becomes `width / height`, otherwise its
`y` becomes `height / width`.  The quotient is exact; for a zero divisor (a
texture of width 0, which `stbi_load` never yields) it is 0 here and not a
number in the source. -/
def aspectScale (loadedTexture : Texture) : Vec2 :=
  if loadedTexture.width < loadedTexture.height then
    ⟨(loadedTexture.width : ℚ) / (loadedTexture.height : ℚ), 1⟩
  else
    ⟨1, (loadedTexture.height : ℚ) / (loadedTexture.width : ℚ)⟩

/-- The `instance_data` of one loop iteration. -/
def instanceData (sprite : Sprite) (loadedTexture : Texture) : InstanceData :=
  { translation := ⟨sprite.position.x, sprite.position.y, sprite.z⟩
    scale := sprite.scale.mul (aspectScale loadedTexture) }

/-- The variables that live across iterations of the draw loop.  `created` counts
the bind groups the device has handed out in this pass and names the next one. -/
structure LoopState where
  currentTextureName : String
  currentBindGroup : Option Nat
  created : Nat
deriving DecidableEq

/-- The loop state on entry: `currentTextureName = ""`, `currentBindGroup = nullptr`. -/
def LoopState.init : LoopState := ⟨"", none, 0⟩

/-- The release of the old bind group, guarded by `if (currentBindGroup)`. -/
def releaseCurrent : Option Nat → List Event
  | some bg => [Event.bindGroupRelease bg]
  | none => []

/-- The body of the draw loop at index `i`. -/
def loopBody (rm : ResourceManager) (i : Nat) (sprite : Sprite) (st : LoopState) :
    List Event × LoopState :=
  match rm.GetTexture sprite.textureName with
  | none => ([Event.warnMissingTexture sprite.textureName], st)
  | some loadedTexture =>
    match loadedTexture.texture with
    | none => ([Event.warnMissingTexture sprite.textureName], st)
    | some tex =>
      let write := Event.queueWriteBuffer (i * sizeofInstanceData)
        (instanceData sprite loadedTexture) sizeofInstanceData
      let draw := Event.renderPassEncoderDraw sprite 4 1 0 (i % 2 ^ 32)
      if sprite.textureName ≠ st.currentTextureName then
        let bg := st.created
        ([write] ++ releaseCurrent st.currentBindGroup ++
          [Event.renderPipelineGetBindGroupLayout, Event.textureCreateView tex,
           Event.deviceCreateBindGroup bg tex, Event.textureViewRelease tex,
           Event.bindGroupLayoutRelease, Event.renderPassEncoderSetBindGroup bg, draw],
         ⟨sprite.textureName, some bg, bg + 1⟩)
      else
        ([write, draw], st)

/-- The draw loop `for (i = ...; i < instanceCount; ++i)` from index `i` on, over
the sprites that remain. -/
def mainDrawLoop (rm : ResourceManager) : Nat → List Sprite → LoopState →
    List Event × LoopState
  | _, [], st => ([], st)
  | i, sprite :: rest, st =>
    let r := loopBody rm i sprite st
    let r2 := mainDrawLoop rm (i + 1) rest r.2
    (r.1 ++ r2.1, r2.2)

/-- Steps 3 to 8 of `Draw`, from the sort of the collected sprites to the release
of the temporaries. -/
def DrawSprites (S : StdSort) (rm : ResourceManager) (sprites_from_ecs : List Sprite) :
    List Event :=
  let sorted := S.sort sprites_from_ecs
  let instanceCount := sorted.length
  [Event.deviceCreateCommandEncoder, Event.surfaceGetCurrentTexture,
   Event.surfaceTextureCreateView, Event.commandEncoderBeginRenderPass] ++
  (if instanceCount > 0 then
    let r := mainDrawLoop rm 0 sorted LoopState.init
    [Event.deviceCreateBuffer (sizeofInstanceData * instanceCount),
     Event.renderPassEncoderSetPipeline,
     Event.renderPassEncoderSetVertexBuffer 0 0 (4 * 4 * 4),
     Event.renderPassEncoderSetVertexBuffer 1 0 (sizeofInstanceData * instanceCount)] ++
    r.1 ++ releaseCurrent r.2.currentBindGroup ++ [Event.bufferRelease]
  else []) ++
  [Event.renderPassEncoderEnd, Event.commandEncoderFinish, Event.queueSubmit,
   Event.surfacePresent, Event.surfaceTextureViewRelease, Event.surfaceTextureRelease,
   Event.commandEncoderRelease, Event.commandBufferRelease]

/-- What `Draw` reads from Lua: `ecsForEach` is `none` when `ECS.ForEach` is not a
valid function, else the entity ids it visits for the query `{"Sprite"}`, in
order; `spriteComponent id` is `ECS.Components.Sprite[id]` read as a `Sprite`. -/
structure ScriptManager where
  ecsForEach : Option (List Int)
  spriteComponent : Int → Option Sprite

/-- The members of `GraphicsManager` that `Draw` reads. -/
structure GraphicsManager where
  m_scriptManager : Option ScriptManager
  m_resourceManager : ResourceManager

/-- Step 2 of `Draw`: the callback pushes the sprite of every visited entity that
has one. -/
def collectSprites (sm : ScriptManager) (ids : List Int) : List Sprite :=
  ids.filterMap sm.spriteComponent

/-- The method `GraphicsManager::Draw`. -/
def Draw (S : StdSort) (gm : GraphicsManager) : List Event :=
  match gm.m_scriptManager with
  | none => [Event.warnNoScriptManager]
  | some sm =>
    match sm.ecsForEach with
    | none => [Event.warnNoForEach]
    | some ids => DrawSprites S gm.m_resourceManager (collectSprites sm ids)

/-! ## Reading a trace -/

/-- The sprites of the draw calls of a trace, in the order of the calls. -/
def drawnSprites (trace : List Event) : List Sprite :=
  trace.filterMap fun e =>
    match e with
    | Event.renderPassEncoderDraw sprite _ _ _ _ => some sprite
    | _ => none

/-- The arguments `(vertexCount, instanceCount, firstVertex, firstInstance)` of the
draw calls of a trace, in order. -/
def drawCalls (trace : List Event) : List (Nat × Nat × Nat × Nat) :=
  trace.filterMap fun e =>
    match e with
    | Event.renderPassEncoderDraw _ vc ic fv fi => some (vc, ic, fv, fi)
    | _ => none

/-- The `(offset, data, size)` of the instance-buffer writes of a trace, in order. -/
def bufferWrites (trace : List Event) : List (Nat × InstanceData × Nat) :=
  trace.filterMap fun e =>
    match e with
    | Event.queueWriteBuffer offset data size => some (offset, data, size)
    | _ => none

/-- The sizes in bytes of the buffers a trace creates, in order. -/
def createdBuffers (trace : List Event) : List Nat :=
  trace.filterMap fun e =>
    match e with
    | Event.deviceCreateBuffer size => some size
    | _ => none

/-- The `(handle, texture)` of the bind groups a trace creates, in order. -/
def createdBindGroups (trace : List Event) : List (Nat × Nat) :=
  trace.filterMap fun e =>
    match e with
    | Event.deviceCreateBindGroup bg tex => some (bg, tex)
    | _ => none

/-- The bind groups a trace binds with `SetBindGroup`, in order. -/
def boundBindGroups (trace : List Event) : List Nat :=
  trace.filterMap fun e =>
    match e with
    | Event.renderPassEncoderSetBindGroup bg => some bg
    | _ => none

/-- The bind groups a trace releases, in order. -/
def releasedBindGroups (trace : List Event) : List Nat :=
  trace.filterMap fun e =>
    match e with
    | Event.bindGroupRelease bg => some bg
    | _ => none

/-- The cache entry and the GPU handle a texture name resolves to: `none` when
the name is absent or the entry's handle is null. -/
def resolveTexture (rm : ResourceManager) (name : String) : Option (Texture × Nat) :=
  match rm.GetTexture name with
  | none => none
  | some t =>
    match t.texture with
    | none => none
    | some tex => some (t, tex)

/-- Whether the texture name of a sprite resolves. -/
def resolvable (rm : ResourceManager) (s : Sprite) : Bool :=
  (resolveTexture rm s.textureName).isSome

/-- The number of maximal runs of consecutive equal names. -/
def countRuns : List String → Nat
  | [] => 0
  | [_] => 1
  | a :: b :: rest => (if a = b then 0 else 1) + countRuns (b :: rest)

/-- The number of entries of a name sequence that differ from their predecessor,
the first one being compared with `cur`. -/
def countChanges (cur : String) : List String → Nat
  | [] => 0
  | a :: rest => (if a = cur then 0 else 1) + countChanges a rest

/-- The effect of one event on the bind groups that are live (created and not yet
released); `none` when the event releases a bind group that is not live. -/
def liveStep (live : List Nat) : Event → Option (List Nat)
  | Event.deviceCreateBindGroup bg _ => some (bg :: live)
  | Event.bindGroupRelease bg => if bg ∈ live then some (live.erase bg) else none
  | _ => some live

/-- The live bind groups after a trace that starts with `live`. -/
def liveAfter : List Event → List Nat → Option (List Nat)
  | [], live => some live
  | e :: rest, live =>
    match liveStep live e with
    | none => none
    | some live2 => liveAfter rest live2

/-- Whether at most one bind group is live before and after every event of a
trace that starts with `live`, and no release is of a bind group that is not live. -/
def liveBounded : List Event → List Nat → Bool
  | [], live => decide (live.length ≤ 1)
  | e :: rest, live =>
    decide (live.length ≤ 1) &&
      (match liveStep live e with
       | none => false
       | some live2 => liveBounded rest live2)

/-- The sprites drawn from the head of a trace up to the next `SetBindGroup`. -/
def drawnUnderCurrent : List Event → List Sprite
  | [] => []
  | Event.renderPassEncoderSetBindGroup _ :: _ => []
  | Event.renderPassEncoderDraw sprite _ _ _ _ :: rest => sprite :: drawnUnderCurrent rest
  | _ :: rest => drawnUnderCurrent rest

/-- The bind-group activations of a trace: each `SetBindGroup`, in order, with the
sprites drawn while that bind group stays bound. -/
def activations : List Event → List (Nat × List Sprite)
  | [] => []
  | Event.renderPassEncoderSetBindGroup bg :: rest =>
    (bg, drawnUnderCurrent rest) :: activations rest
  | _ :: rest => activations rest

/-- Whether every draw call of a trace finds bound a bind group created earlier
in the trace from the texture of the drawn sprite.  `created` lists the
`(handle, texture)` pairs created so far, `bound` is the last bind group set. -/
def drawsBound (rm : ResourceManager) : List Event → List (Nat × Nat) → Option Nat → Bool
  | [], _, _ => true
  | Event.deviceCreateBindGroup bg tex :: rest, created, bound =>
    drawsBound rm rest ((bg, tex) :: created) bound
  | Event.renderPassEncoderSetBindGroup bg :: rest, created, _ =>
    drawsBound rm rest created (some bg)
  | Event.renderPassEncoderDraw sprite _ _ _ _ :: rest, created, bound =>
    (match bound, resolveTexture rm sprite.textureName with
     | some bg, some (_, tex) => decide ((bg, tex) ∈ created)
     | _, _ => false) && drawsBound rm rest created bound
  | _ :: rest, created, bound => drawsBound rm rest created bound

/-- The kinds of event the body of the draw loop can emit. -/
def Event.inLoop : Event → Bool
  | Event.warnMissingTexture _ => true
  | Event.queueWriteBuffer _ _ _ => true
  | Event.bindGroupRelease _ => true
  | Event.renderPipelineGetBindGroupLayout => true
  | Event.textureCreateView _ => true
  | Event.deviceCreateBindGroup _ _ => true
  | Event.textureViewRelease _ => true
  | Event.bindGroupLayoutRelease => true
  | Event.renderPassEncoderSetBindGroup _ => true
  | Event.renderPassEncoderDraw _ _ _ _ _ => true
  | _ => false

/-- The events that create or bind a bind group or draw. -/
def Event.isBindOrDraw : Event → Bool
  | Event.deviceCreateBindGroup _ _ => true
  | Event.renderPassEncoderSetBindGroup _ => true
  | Event.renderPassEncoderDraw _ _ _ _ _ => true
  | _ => false

/-! ## The scenario of the specification -/

/-- Entity A: texture "t1", depth 0.5. -/
def spriteA : Sprite := ⟨"t1", ⟨0, 0⟩, ⟨1, 1⟩, CFloat.val (1 / 2)⟩

/-- Entity B: texture "t2", depth 0.1. -/
def spriteB : Sprite := ⟨"t2", ⟨0, 0⟩, ⟨1, 1⟩, CFloat.val (1 / 10)⟩

/-- Entity C: texture "t1", depth 0.9. -/
def spriteC : Sprite := ⟨"t1", ⟨0, 0⟩, ⟨1, 1⟩, CFloat.val (9 / 10)⟩

/-- A cache with both textures loaded: "t1" is 2:1, "t2" is 1:2. -/
def cacheT1T2 : ResourceManager :=
  ⟨[("t1", ⟨2, 1, some 1⟩), ("t2", ⟨1, 2, some 2⟩)]⟩

/-- A second sprite of texture "t1", in front at depth 0.1. -/
def spriteFront : Sprite := ⟨"t1", ⟨0, 0⟩, ⟨1, 1⟩, CFloat.val (1 / 10)⟩

/-- A sprite whose texture "gone" is in no cache used here. -/
def spriteGone (z : ℚ) : Sprite := ⟨"gone", ⟨0, 0⟩, ⟨1, 1⟩, CFloat.val z⟩

/-- A sprite whose texture name is the empty string. -/
def spriteNoName : Sprite := ⟨"", ⟨0, 0⟩, ⟨1, 1⟩, CFloat.val 0⟩

/-- A cache with one texture registered under the empty string. -/
def cacheNoName : ResourceManager := ⟨[("", ⟨1, 1, some 7⟩)]⟩

/-! ## The frame scheduler: `Engine::RunGameLoop`

In this section time is exact: `double` seconds are rationals, without rounding.
The readings of `std::chrono::steady_clock` enter as the list of the elapsed times
`delta_time_s` the successive iterations observe.  The world `σ` is whatever the
callback, `glfwPollEvents` and `ShouldClose` act on. -/

/-- The constant `SECONDS_PER_TICK = 1.0 / 60.0`, in exact arithmetic. -/
def SECONDS_PER_TICK : ℚ := 1 / 60

/-- What the inner loop leaves: the accumulator, the world, and how many times it
invoked the callback. -/
structure DrainResult (σ : Type) where
  accumulated_time_s : ℚ
  world : σ
  callbacks : Nat
deriving DecidableEq

/-- The inner loop `while (accumulated_time_s >= SECONDS_PER_TICK)` of
`RunGameLoop`: each pass invokes the callback and subtracts one tick.  `fuel`
bounds the number of passes; the result is `none` when the fuel is used up with
the condition still true. -/
def drain {σ : Type} (update_callback : σ → σ) : Nat → ℚ → σ → Option (DrainResult σ)
  | 0, accumulated_time_s, w =>
    if accumulated_time_s ≥ SECONDS_PER_TICK then none
    else some ⟨accumulated_time_s, w, 0⟩
  | fuel + 1, accumulated_time_s, w =>
    if accumulated_time_s ≥ SECONDS_PER_TICK then
      match drain update_callback fuel (accumulated_time_s - SECONDS_PER_TICK)
          (update_callback w) with
      | none => none
      | some r => some ⟨r.accumulated_time_s, r.world, r.callbacks + 1⟩
    else some ⟨accumulated_time_s, w, 0⟩

/-- The platform calls of `RunGameLoop`: `m_graphicsManager->ShouldClose()` and
`glfwPollEvents()`. -/
structure Platform (σ : Type) where
  ShouldClose : σ → Bool
  glfwPollEvents : σ → σ

/-- What a run of the game loop leaves.  `iterations` counts the iterations of
the outer loop that were entered; `exited` says that the loop condition was
seen false (the loop ended), as opposed to the clock readings ending with the
loop still running. -/
structure LoopResult (σ : Type) where
  accumulated_time_s : ℚ
  world : σ
  callbacks : Nat
  iterations : Nat
  exited : Bool
deriving DecidableEq

/-- The outer loop `while (!m_graphicsManager->ShouldClose())` of `RunGameLoop`,
from a given accumulator: each iteration adds the elapsed time, polls the events
and drains the accumulator.  The iterations run as long as elapsed times are
given; `none` when an inner loop runs out of fuel. -/
def RunGameLoopFrom {σ : Type} (P : Platform σ) (update_callback : σ → σ) (fuel : Nat) :
    List ℚ → ℚ → σ → Option (LoopResult σ)
  | [], accumulated_time_s, w => some ⟨accumulated_time_s, w, 0, 0, P.ShouldClose w⟩
  | delta_time_s :: rest, accumulated_time_s, w =>
    if P.ShouldClose w then some ⟨accumulated_time_s, w, 0, 0, true⟩
    else
      match drain update_callback fuel (accumulated_time_s + delta_time_s)
          (P.glfwPollEvents w) with
      | none => none
      | some d =>
        match RunGameLoopFrom P update_callback fuel rest d.accumulated_time_s d.world with
        | none => none
        | some r =>
          some ⟨r.accumulated_time_s, r.world, d.callbacks + r.callbacks,
            r.iterations + 1, r.exited⟩

/-- The method `Engine::RunGameLoop`: the accumulator starts at `0.0`. -/
def RunGameLoop {σ : Type} (P : Platform σ) (update_callback : σ → σ) (fuel : Nat)
    (deltas : List ℚ) (w : σ) : Option (LoopResult σ) :=
  RunGameLoopFrom P update_callback fuel deltas 0 w

/-- The method `GraphicsManager::ShouldClose` on the window `m_window`: `none` is
the null window, `some flag` a window with its GLFW close flag. -/
def ShouldClose (m_window : Option Bool) : Bool :=
  match m_window with
  | none => true
  | some flag => flag

/-- The method `Engine::QuitGame`: sets the close flag when there is a window. -/
def QuitGame (m_window : Option Bool) : Option Bool :=
  match m_window with
  | some _ => some true
  | none => none

/-- The world of the demo `helloworld.cpp`: the window, and counters of the calls
of `UpdateAllSystems` and of `Draw` made so far. -/
structure DemoWorld where
  m_window : Option Bool
  updates : Nat
  frames : Nat
deriving DecidableEq

/-- The callback the demo passes to `RunGameLoop`: it calls the Lua function
`UpdateAllSystems(dt_fixed)` and then `Draw()`.  Of the script only this is
modelled: `quits n` says whether its call number `n` calls `QuitGame`. -/
def demoCallback (quits : Nat → Bool) (w : DemoWorld) : DemoWorld :=
  { m_window := if quits w.updates then QuitGame w.m_window else w.m_window
    updates := w.updates + 1
    frames := w.frames + 1 }

/-- The platform of the demo, with no close request coming from the OS events. -/
def demoPlatform : Platform DemoWorld :=
  { ShouldClose := fun w => ShouldClose w.m_window
    glfwPollEvents := fun w => w }

/-- The demo world at loop entry, with an open window. -/
def demoStart : DemoWorld := ⟨some false, 0, 0⟩

/-! ## The scheduler in `double` arithmetic

`accumulated_time_s`, `delta_time_s` and `SECONDS_PER_TICK` are IEEE 754 doubles.
The definitions above compute with exact rationals, which is what the statements
worded "in exact arithmetic" are about.  The definitions below are the same loops
with the arithmetic of the code: every sum and difference is rounded to the nearest
double, a tie going to the even significand.  A finite double is the rational it
stands for.  Overflow to infinity is not modelled: a result is rounded as if the
exponent range had no upper end. -/

/-- The integer nearest to `y`; of two equally near ones, the even one. -/
def roundHalfEven (y : ℚ) : ℤ :=
  if y - ⌊y⌋ < 1 / 2 then ⌊y⌋
  else if 1 / 2 < y - ⌊y⌋ then ⌊y⌋ + 1
  else if ⌊y⌋ % 2 = 0 then ⌊y⌋ else ⌊y⌋ + 1

/-- The number of binary digits of `n`, by halving at most `fuel` times. -/
def bitLengthFuel : Nat → Nat → Nat
  | 0, _ => 0
  | fuel + 1, n => if n = 0 then 0 else bitLengthFuel fuel (n / 2) + 1

/-- The number of binary digits of `n`. -/
def bitLength (n : Nat) : Nat := bitLengthFuel n n

/-- The binary exponent of a rational `x ≠ 0`: the `e` with `2^e ≤ |x| < 2^(e+1)`. -/
def binaryExponent (x : ℚ) : ℤ :=
  let d : ℤ := (bitLength x.num.natAbs : ℤ) - (bitLength x.den : ℤ)
  if (2 : ℚ) ^ d ≤ |x| then d else d - 1

/-- Rounding to `double`: the nearest number with a significand of 53 binary digits,
or, below `2^(-1022)`, the nearest multiple of `2^(-1074)`. -/
def roundToDouble (x : ℚ) : ℚ :=
  if x = 0 then 0
  else
    let e := max (binaryExponent x) (-1022)
    (roundHalfEven (x / 2 ^ (e - 52)) : ℚ) * 2 ^ (e - 52)

/-- The constant `SECONDS_PER_TICK = 1.0 / 60.0` as the code has it: the double
nearest to 1/60, which is `4803839602528529 / 2^58`. -/
def SECONDS_PER_TICK_double : ℚ := roundToDouble (1 / 60)

/-- What the inner loop has done when it ends or when the fuel is used up: the
accumulator, the world, how many times it invoked the callback, and whether the loop
condition was seen false. -/
structure DrainRun (σ : Type) where
  accumulated_time_s : ℚ
  world : σ
  callbacks : Nat
  finished : Bool
deriving DecidableEq

/-- The inner loop `while (accumulated_time_s >= SECONDS_PER_TICK)` of `RunGameLoop`
in `double` arithmetic: each pass invokes the callback and replaces the accumulator
by the double nearest to the difference.  `fuel` bounds the number of passes. -/
def drainDouble {σ : Type} (update_callback : σ → σ) : Nat → ℚ → σ → DrainRun σ
  | 0, accumulated_time_s, w =>
    ⟨accumulated_time_s, w, 0, !decide (accumulated_time_s ≥ SECONDS_PER_TICK_double)⟩
  | fuel + 1, accumulated_time_s, w =>
    if accumulated_time_s ≥ SECONDS_PER_TICK_double then
      let r := drainDouble update_callback fuel
        (roundToDouble (accumulated_time_s - SECONDS_PER_TICK_double)) (update_callback w)
      ⟨r.accumulated_time_s, r.world, r.callbacks + 1, r.finished⟩
    else ⟨accumulated_time_s, w, 0, true⟩

/-- The outer loop of `RunGameLoop` in `double` arithmetic, from a given accumulator:
`accumulated_time_s += delta_time_s` is rounded, then the events are polled and the
accumulator drained.  The elapsed times are the doubles the iterations observe;
`none` when an inner loop runs out of fuel. -/
def RunGameLoopFromDouble {σ : Type} (P : Platform σ) (update_callback : σ → σ)
    (fuel : Nat) : List ℚ → ℚ → σ → Option (LoopResult σ)
  | [], accumulated_time_s, w => some ⟨accumulated_time_s, w, 0, 0, P.ShouldClose w⟩
  | delta_time_s :: rest, accumulated_time_s, w =>
    if P.ShouldClose w then some ⟨accumulated_time_s, w, 0, 0, true⟩
    else
      let d := drainDouble update_callback fuel
        (roundToDouble (accumulated_time_s + delta_time_s)) (P.glfwPollEvents w)
      if d.finished then
        match RunGameLoopFromDouble P update_callback fuel rest d.accumulated_time_s
            d.world with
        | none => none
        | some r =>
          some ⟨r.accumulated_time_s, r.world, d.callbacks + r.callbacks,
            r.iterations + 1, r.exited⟩
      else none

/-- The method `Engine::RunGameLoop` in `double` arithmetic: the accumulator starts
at `0.0`. -/
def RunGameLoopDouble {σ : Type} (P : Platform σ) (update_callback : σ → σ) (fuel : Nat)
    (deltas : List ℚ) (w : σ) : Option (LoopResult σ) :=
  RunGameLoopFromDouble P update_callback fuel deltas 0 w

/-! ## More readings of a trace, and the naive draw algorithm -/

/-- The sizes with which a trace binds the instance buffer, that is the vertex
buffer of slot 1, in order. -/
def boundInstanceBuffers (trace : List Event) : List Nat :=
  trace.filterMap fun e =>
    match e with
    | Event.renderPassEncoderSetVertexBuffer 1 _ size => some size
    | _ => none

/-- The loop body of the naive algorithm the specification compares the draw
loop with, "activating a fresh bind group per draw": as `loopBody`, except that
the bind group is released, created anew and bound before every draw call,
whatever the current texture name is. -/
def naiveLoopBody (rm : ResourceManager) (i : Nat) (sprite : Sprite) (st : LoopState) :
    List Event × LoopState :=
  match rm.GetTexture sprite.textureName with
  | none => ([Event.warnMissingTexture sprite.textureName], st)
  | some loadedTexture =>
    match loadedTexture.texture with
    | none => ([Event.warnMissingTexture sprite.textureName], st)
    | some tex =>
      ([Event.queueWriteBuffer (i * sizeofInstanceData) (instanceData sprite loadedTexture)
          sizeofInstanceData] ++ releaseCurrent st.currentBindGroup ++
        [Event.renderPipelineGetBindGroupLayout, Event.textureCreateView tex,
         Event.deviceCreateBindGroup st.created tex, Event.textureViewRelease tex,
         Event.bindGroupLayoutRelease, Event.renderPassEncoderSetBindGroup st.created,
         Event.renderPassEncoderDraw sprite 4 1 0 (i % 2 ^ 32)],
       ⟨sprite.textureName, some st.created, st.created + 1⟩)

/-- The draw loop of the naive algorithm. -/
def naiveDrawLoop (rm : ResourceManager) : Nat → List Sprite → LoopState →
    List Event × LoopState
  | _, [], st => ([], st)
  | i, sprite :: rest, st =>
    let r := naiveLoopBody rm i sprite st
    let r2 := naiveDrawLoop rm (i + 1) rest r.2
    (r.1 ++ r2.1, r2.2)

/-- The frame of the naive algorithm: `DrawSprites` with the naive draw loop. -/
def DrawSpritesNaive (S : StdSort) (rm : ResourceManager) (sprites_from_ecs : List Sprite) :
    List Event :=
  let sorted := S.sort sprites_from_ecs
  let instanceCount := sorted.length
  [Event.deviceCreateCommandEncoder, Event.surfaceGetCurrentTexture,
   Event.surfaceTextureCreateView, Event.commandEncoderBeginRenderPass] ++
  (if instanceCount > 0 then
    let r := naiveDrawLoop rm 0 sorted LoopState.init
    [Event.deviceCreateBuffer (sizeofInstanceData * instanceCount),
     Event.renderPassEncoderSetPipeline,
     Event.renderPassEncoderSetVertexBuffer 0 0 (4 * 4 * 4),
     Event.renderPassEncoderSetVertexBuffer 1 0 (sizeofInstanceData * instanceCount)] ++
    r.1 ++ releaseCurrent r.2.currentBindGroup ++ [Event.bufferRelease]
  else []) ++
  [Event.renderPassEncoderEnd, Event.commandEncoderFinish, Event.queueSubmit,
   Event.surfacePresent, Event.surfaceTextureViewRelease, Event.surfaceTextureRelease,
   Event.commandEncoderRelease, Event.commandBufferRelease]

/-- What one draw call puts on screen: its four arguments, the instance record
that the instance buffer holds for its instance index when the call is issued,
and the texture of the bind group that is bound. -/
structure DrawObservation where
  vertexCount : Nat
  instanceCount : Nat
  firstVertex : Nat
  firstInstance : Nat
  record : Option InstanceData
  texture : Option Nat
deriving DecidableEq

/-- The observations of the draw calls of a trace, in order.  `written` lists the
`(offset, record)` writes so far, latest first; `created` the `(handle, texture)`
of the bind groups created so far, latest first; `bound` is the bind group set
last. -/
def observeDraws : List Event → List (Nat × InstanceData) → List (Nat × Nat) → Option Nat →
    List DrawObservation
  | [], _, _, _ => []
  | Event.queueWriteBuffer offset data _ :: rest, written, created, bound =>
    observeDraws rest ((offset, data) :: written) created bound
  | Event.deviceCreateBindGroup bg tex :: rest, written, created, bound =>
    observeDraws rest written ((bg, tex) :: created) bound
  | Event.renderPassEncoderSetBindGroup bg :: rest, written, created, _ =>
    observeDraws rest written created (some bg)
  | Event.renderPassEncoderDraw _ vc ic fv fi :: rest, written, created, bound =>
    ⟨vc, ic, fv, fi, written.lookup (fi * sizeofInstanceData),
      bound.bind (fun bg => created.lookup bg)⟩ :: observeDraws rest written created bound
  | _ :: rest, written, created, bound => observeDraws rest written created bound

/-- The events that `observeDraws` reads. -/
def Event.isObserved : Event → Bool
  | Event.queueWriteBuffer _ _ _ => true
  | Event.deviceCreateBindGroup _ _ => true
  | Event.renderPassEncoderSetBindGroup _ => true
  | Event.renderPassEncoderDraw _ _ _ _ _ => true
  | _ => false

/-- A script manager whose `ECS.ForEach` is valid and visits no entity. -/
def scriptNoEntity : ScriptManager := ⟨some [], fun _ => none⟩

/-- A script manager whose `ECS.ForEach` visits entities 1 and 2, neither of which
has a `Sprite` component that reads as a sprite. -/
def scriptNoSprite : ScriptManager := ⟨some [1, 2], fun _ => none⟩

/-- A script manager in whose Lua state `ECS.ForEach` is not a valid function. -/
def scriptNoForEach : ScriptManager := ⟨none, fun _ => none⟩

/-- A sprite of texture "t1" at the origin with the given depth, which may be NaN. -/
def spriteDepth (z : CFloat) : Sprite := ⟨"t1", ⟨0, 0⟩, ⟨1, 1⟩, z⟩

/-- Four collected sprites, in query order, of depths 3, 1, NaN, 2. -/
def spritesWithNaN : List Sprite :=
  [spriteDepth (CFloat.val 3), spriteDepth (CFloat.val 1), spriteDepth CFloat.nan,
   spriteDepth (CFloat.val 2)]

/-! ## Ordering inside a frame -/

/-- The `(sprite, firstInstance)` of the draw calls of a trace, in order. -/
def drawnAt (trace : List Event) : List (Sprite × Nat) :=
  trace.filterMap fun e =>
    match e with
    | Event.renderPassEncoderDraw sprite _ _ _ fi => some (sprite, fi)
    | _ => none

/-- For every draw call of a trace, in order: its sprite, and the record that the
instance buffer holds in the slot of its instance index when the call is issued.
`written` lists the `(offset, record)` writes so far, latest first. -/
def recordsRead : List Event → List (Nat × InstanceData) → List (Sprite × Option InstanceData)
  | [], _ => []
  | Event.queueWriteBuffer offset data _ :: rest, written =>
    recordsRead rest ((offset, data) :: written)
  | Event.renderPassEncoderDraw sprite _ _ _ fi :: rest, written =>
    (sprite, written.lookup (fi * sizeofInstanceData)) :: recordsRead rest written
  | _ :: rest, written => recordsRead rest written

/-- Whether a write `p` made earlier is a write of the record of `sprite`, with
texture `t`, to the slot of a loop index that the cast to 32 bits sends to the
instance index `fi`. -/
def isOwnWrite (sprite : Sprite) (t : Texture) (fi : Nat) (p : Nat × InstanceData) : Bool :=
  decide (p.2 = instanceData sprite t) && decide (p.1 % sizeofInstanceData = 0) &&
    decide (p.1 / sizeofInstanceData % 2 ^ 32 = fi)

/-- Whether a trace respects the order of a frame: every instance write comes
before the submission of the command buffer, and every draw call comes after the
render pass was begun and after a write of the record of its own sprite.
`begun` and `submitted` say whether the render pass was begun and the command
buffer submitted so far; `written` lists the writes so far. -/
def frameOrdered (rm : ResourceManager) :
    List Event → Bool → Bool → List (Nat × InstanceData) → Bool
  | [], _, _, _ => true
  | Event.commandEncoderBeginRenderPass :: rest, _, submitted, written =>
    frameOrdered rm rest true submitted written
  | Event.queueSubmit :: rest, begun, _, written => frameOrdered rm rest begun true written
  | Event.queueWriteBuffer offset data _ :: rest, begun, submitted, written =>
    !submitted && frameOrdered rm rest begun submitted ((offset, data) :: written)
  | Event.renderPassEncoderDraw sprite _ _ _ fi :: rest, begun, submitted, written =>
    begun &&
      (match resolveTexture rm sprite.textureName with
       | some (t, _) => written.any (isOwnWrite sprite t fi)
       | none => false) &&
      frameOrdered rm rest begun submitted written
  | _ :: rest, begun, submitted, written => frameOrdered rm rest begun submitted written

/-- The events that `frameOrdered` and `recordsRead` read. -/
def Event.isOrdered : Event → Bool
  | Event.commandEncoderBeginRenderPass => true
  | Event.queueSubmit => true
  | Event.queueWriteBuffer _ _ _ => true
  | Event.renderPassEncoderDraw _ _ _ _ _ => true
  | _ => false

/-! ## `ResourceManager::LoadTexture` -/

/-- The handles that `GraphicsManager` holds; `none` is a null pointer. -/
structure GraphicsState where
  m_window : Option Nat
  m_instance : Option Nat
  m_surface : Option Nat
  m_adapter : Option Nat
  m_device : Option Nat
  m_queue : Option Nat
  m_uniformBuffer : Option Nat
  m_sampler : Option Nat
  m_vertexBuffer : Option Nat
  m_renderPipeline : Option Nat
deriving DecidableEq

/-- The `GraphicsManager` as constructed: every handle null. -/
def GraphicsState.init : GraphicsState :=
  ⟨none, none, none, none, none, none, none, none, none, none⟩

/-- What one call of `LoadTexture` gets from outside: the full path that
`ResolvePath` gives, the `(width, height)` that `stbi_load` decodes from a path
(`none` when it returns no data), and the handles that `wgpuDeviceCreateTexture`
and `wgpuTextureCreateView` return (`none` for null). -/
structure LoadEnv where
  ResolvePath : String → String
  stbi_load : String → Option (Int × Int)
  createTexture : Option Nat
  createView : Option Nat

/-- One observable step of `LoadTexture`. -/
inductive LoadEvent where
  | errorNoContext
  | warnAlreadyLoaded (name : String)
  | stbiLoad (path : String)
  | errorLoadFailed (path : String)
  | deviceCreateTexture (width height : Int)
  | errorCreateTexture (name : String)
  | imageFree
  | queueWriteTexture (tex : Nat) (width height : Int)
  | textureCreateView (tex : Nat)
  | errorCreateView (name : String)
  | textureRelease (tex : Nat)
  | emplace (name : String) (width height : Int) (tex : Nat)
deriving DecidableEq

/-- What `LoadTexture` leaves: its return value, the resource manager, its steps. -/
structure LoadResult where
  ok : Bool
  rm : ResourceManager
  events : List LoadEvent

/-- The method `ResourceManager::LoadTexture`.  `gm` is the graphics manager that
`m_graphicsManager` points to, `none` for a null pointer.  On success the temporary
`Texture` handed to `emplace` is destroyed once it has been moved from; the defaulted
move leaves its handle in place, so its destructor calls `wgpuTextureRelease` on the
handle the new cache entry holds. -/
def LoadTexture (gm : Option GraphicsState) (env : LoadEnv) (rm : ResourceManager)
    (name partialPath : String) : LoadResult :=
  match gm with
  | none => ⟨false, rm, [LoadEvent.errorNoContext]⟩
  | some g =>
    if g.m_device.isNone || g.m_queue.isNone then
      ⟨false, rm, [LoadEvent.errorNoContext]⟩
    else if (rm.m_textures.lookup name).isSome then
      ⟨true, rm, [LoadEvent.warnAlreadyLoaded name]⟩
    else
      let fullPath := env.ResolvePath partialPath
      match env.stbi_load fullPath with
      | none => ⟨false, rm, [LoadEvent.stbiLoad fullPath, LoadEvent.errorLoadFailed fullPath]⟩
      | some (width, height) =>
        match env.createTexture with
        | none =>
          ⟨false, rm, [LoadEvent.stbiLoad fullPath, LoadEvent.deviceCreateTexture width height,
            LoadEvent.errorCreateTexture name, LoadEvent.imageFree]⟩
        | some tex =>
          match env.createView with
          | none =>
            ⟨false, rm, [LoadEvent.stbiLoad fullPath,
              LoadEvent.deviceCreateTexture width height,
              LoadEvent.queueWriteTexture tex width height, LoadEvent.textureCreateView tex,
              LoadEvent.errorCreateView name, LoadEvent.textureRelease tex,
              LoadEvent.imageFree]⟩
          | some _ =>
            ⟨true, ⟨(name, ⟨width, height, some tex⟩) :: rm.m_textures⟩,
              [LoadEvent.stbiLoad fullPath, LoadEvent.deviceCreateTexture width height,
               LoadEvent.queueWriteTexture tex width height, LoadEvent.textureCreateView tex,
               LoadEvent.imageFree, LoadEvent.emplace name width height tex,
               LoadEvent.textureRelease tex]⟩

/-- An operation on the texture cache: a `LoadTexture` with what it gets from
outside, a `GetTexture`, or a `Draw` with the sort and the script manager it
runs with. -/
inductive CacheOp where
  | load (gm : Option GraphicsState) (env : LoadEnv) (name partialPath : String)
  | get (name : String)
  | draw (S : StdSort) (sm : Option ScriptManager)

/-- The resource manager after an operation.  `GetTexture` is a `const` method,
and `Draw` reaches the resource manager through `GetTexture` only. -/
def CacheOp.apply (rm : ResourceManager) : CacheOp → ResourceManager
  | CacheOp.load gm env name partialPath => (LoadTexture gm env rm name partialPath).rm
  | CacheOp.get _ => rm
  | CacheOp.draw _ _ => rm

/-- The resource manager after a sequence of operations. -/
def runOps : List CacheOp → ResourceManager → ResourceManager
  | [], rm => rm
  | op :: rest, rm => runOps rest (op.apply rm)

/-- A graphics manager with a device and a queue. -/
def graphicsReady : GraphicsState :=
  ⟨some 1, some 2, some 3, some 4, some 5, some 6, some 7, some 8, some 9, some 10⟩

/-- An environment in which "a.png" decodes to 64 by 32 pixels and "b.png" to
16 by 16, no other file decodes, and the GPU calls succeed. -/
def envFiles : LoadEnv :=
  { ResolvePath := fun p => "assets/" ++ p
    stbi_load := fun p =>
      if p = "assets/a.png" then some (64, 32)
      else if p = "assets/b.png" then some (16, 16) else none
    createTexture := some 11
    createView := some 12 }

/-- An environment in which the GPU texture cannot be created. -/
def envNoTexture : LoadEnv := { envFiles with createTexture := none }

/-- An environment in which the texture view cannot be created. -/
def envNoView : LoadEnv := { envFiles with createView := none }

/-- A session on the cache: a first load of "hero", a lookup, a frame, a second load
of the same name from another file, and a load whose file is missing. -/
def opsSession : List CacheOp :=
  [CacheOp.load (some graphicsReady) envFiles "hero" "a.png",
   CacheOp.get "hero",
   CacheOp.draw insertionStdSort (some scriptNoSprite),
   CacheOp.load (some graphicsReady) envFiles "hero" "b.png",
   CacheOp.load (some graphicsReady) envFiles "ghost" "missing.png"]

/-! ## `GraphicsManager::Startup`

Start-up is embedded as the list of library calls it makes, together with the
handles it leaves in the graphics manager and a flag telling whether the method
returned. What GLFW and WebGPU answer is an input (`GraphicsEnv`). The adapter
and the device arrive through a callback that fires exactly once, either inside
the request call or inside a later `wgpuInstanceProcessEvents` call; the waits
`while (!m_adapter) wgpuInstanceProcessEvents(m_instance)` are loops on fuel. -/

/-- A column of a `glm::mat4`. -/
structure Vec4 where
  x : ℚ
  y : ℚ
  z : ℚ
  w : ℚ
deriving DecidableEq

/-- A `glm::mat4`, column by column: `m[i]` is the field `ci`, `m[i][j]` its j-th
component. -/
structure Mat4 where
  c0 : Vec4
  c1 : Vec4
  c2 : Vec4
  c3 : Vec4
deriving DecidableEq

/-- The matrix `glm::mat4(1.0f)`. -/
def Mat4.identity : Mat4 :=
  ⟨⟨1, 0, 0, 0⟩, ⟨0, 1, 0, 0⟩, ⟨0, 0, 1, 0⟩, ⟨0, 0, 0, 1⟩⟩

/-- The projection computed by `Startup` from the framebuffer size: identity, then
`projection[0][0] = projection[1][1] = 1.0f / 100.0f`, then the entry of the longer
side multiplied by the quotient of the sizes. -/
def projectionMatrix (windowWidth windowHeight : Int) : Mat4 :=
  let p0 := Mat4.identity
  let p1 : Mat4 := { p0 with c0 := { p0.c0 with x := 1 / 100 }, c1 := { p0.c1 with y := 1 / 100 } }
  if windowWidth < windowHeight then
    { p1 with c1 := { p1.c1 with y := p1.c1.y * ((windowWidth : ℚ) / (windowHeight : ℚ)) } }
  else
    { p1 with c0 := { p1.c0 with x := p1.c0.x * ((windowHeight : ℚ) / (windowWidth : ℚ)) } }

/-- What GLFW and WebGPU answer during start-up. `adapterPolls` is the number of
`wgpuInstanceProcessEvents` calls after which the adapter callback fires (0: inside
the request call); `adapter` is the handle the callback receives, `adapterSuccess`
whether its status is `WGPURequestAdapterStatus_Success`; likewise for the device.
The sampler is a handle, not an optional one: `assert(m_sampler)` follows its
creation. -/
structure GraphicsEnv where
  glfwInit : Bool
  glfwCreateWindow : Option Nat
  wgpuCreateInstance : Option Nat
  glfwCreateWindowWGPUSurface : Option Nat
  adapterSuccess : Bool
  adapter : Option Nat
  adapterPolls : Nat
  deviceSuccess : Bool
  device : Option Nat
  devicePolls : Nat
  wgpuDeviceGetQueue : Option Nat
  uniformBuffer : Option Nat
  framebufferSize : Int × Int
  sampler : Nat
  shaderModule : Option Nat
  vertexBuffer : Option Nat
  renderPipeline : Option Nat

/-- One library call or log line of `GraphicsManager::Startup`. -/
inductive StartupEvent where
  | glfwInit
  | logError (message : String)
  | logInfo (message : String)
  | cerr (message : String)
  | glfwWindowHints
  | glfwCreateWindow (width height : Int) (fullscreen : Bool)
  | glfwTerminate
  | glfwShowWindow
  | glfwSetWindowAspectRatio (width height : Int)
  | wgpuCreateInstance
  | glfwCreateWindowWGPUSurface
  | wgpuInstanceRelease
  | wgpuInstanceRequestAdapter
  | wgpuInstanceProcessEvents
  | wgpuAdapterRequestDevice
  | wgpuDeviceGetQueue
  | createUniformBuffer
  | glfwGetFramebufferSize
  | writeUniforms (queue buffer : Option Nat) (projection : Mat4)
  | wgpuDeviceCreateSampler
  | wgpuDeviceCreateShaderModule
  | createVertexBuffer
  | writeVertices (queue buffer : Option Nat)
  | wgpuSurfaceConfigure (width height : Int)
  | wgpuDeviceCreateRenderPipeline
  | wgpuShaderModuleRelease
deriving DecidableEq

/-- The outcome of a request followed by its wait: the calls made and the handle
stored; `none` means the wait was still going on when the fuel ran out. -/
structure WaitResult where
  events : List StartupEvent
  handle : Option Nat

/-- The body of the request callbacks: on a status other than success, a line on
`std::cerr` and `glfwTerminate()`; the handle is stored in either case. -/
def requestCallback (success : Bool) (what : String) : List StartupEvent :=
  if success then [] else [StartupEvent.cerr what, StartupEvent.glfwTerminate]

/-- The loop `while (!handle) wgpuInstanceProcessEvents(m_instance);`. The second
argument is the handle, the third tells after how many further calls the callback
fires (`none` once it has fired); the callback stores `delivered`. -/
def spinWait (onFire : List StartupEvent) (delivered : Option Nat) :
    Nat → Option Nat → Option Nat → WaitResult
  | _, some h, _ => ⟨[], some h⟩
  | 0, none, _ => ⟨[], none⟩
  | fuel + 1, none, some 0 =>
    let r := spinWait onFire delivered fuel delivered none
    ⟨StartupEvent.wgpuInstanceProcessEvents :: (onFire ++ r.events), r.handle⟩
  | fuel + 1, none, some (k + 1) =>
    let r := spinWait onFire delivered fuel none (some k)
    ⟨StartupEvent.wgpuInstanceProcessEvents :: r.events, r.handle⟩
  | fuel + 1, none, none =>
    let r := spinWait onFire delivered fuel none none
    ⟨StartupEvent.wgpuInstanceProcessEvents :: r.events, r.handle⟩

/-- A request (`wgpuInstanceRequestAdapter`, `wgpuAdapterRequestDevice`) and the wait
that follows it. -/
def requestAndWait (request : StartupEvent) (success : Bool) (what : String)
    (delivered : Option Nat) (polls fuel : Nat) : WaitResult :=
  match polls with
  | 0 =>
    let r := spinWait (requestCallback success what) delivered fuel delivered none
    ⟨request :: (requestCallback success what ++ r.events), r.handle⟩
  | k + 1 =>
    let r := spinWait (requestCallback success what) delivered fuel none (some k)
    ⟨request :: r.events, r.handle⟩

/-- The outcome of `GraphicsManager::Startup`. -/
structure StartupResult where
  events : List StartupEvent
  state : GraphicsState
  returned : Bool

/-- The steps of `Startup` before the adapter request, when window, instance and
surface are created. -/
def startupPrefix (width height : Int) (fullscreen : Bool) : List StartupEvent :=
  [StartupEvent.glfwInit, StartupEvent.glfwWindowHints,
   StartupEvent.glfwCreateWindow width height fullscreen, StartupEvent.glfwShowWindow,
   StartupEvent.glfwSetWindowAspectRatio width height, StartupEvent.wgpuCreateInstance,
   StartupEvent.glfwCreateWindowWGPUSurface]

/-- The steps of `Startup` after the device has arrived. -/
def startupTail (env : GraphicsEnv) : List StartupEvent :=
  [StartupEvent.wgpuDeviceGetQueue, StartupEvent.createUniformBuffer,
   StartupEvent.glfwGetFramebufferSize,
   StartupEvent.writeUniforms env.wgpuDeviceGetQueue env.uniformBuffer
     (projectionMatrix env.framebufferSize.1 env.framebufferSize.2),
   StartupEvent.wgpuDeviceCreateSampler, StartupEvent.wgpuDeviceCreateShaderModule,
   StartupEvent.createVertexBuffer] ++
  (if env.vertexBuffer.isNone then [StartupEvent.logError "Failed to create vertex buffer!"]
   else []) ++
  [StartupEvent.writeVertices env.wgpuDeviceGetQueue env.vertexBuffer,
   StartupEvent.glfwGetFramebufferSize,
   StartupEvent.wgpuSurfaceConfigure env.framebufferSize.1 env.framebufferSize.2,
   StartupEvent.wgpuDeviceCreateRenderPipeline, StartupEvent.wgpuShaderModuleRelease,
   StartupEvent.logInfo "Window created successfully.",
   StartupEvent.logInfo "WebGPU initialized and pipeline created.",
   StartupEvent.logInfo "Graphics manager started up."]

/-- The method `GraphicsManager::Startup(width, height, title, fullscreen)`. -/
def GraphicsManager.Startup (fuel : Nat) (env : GraphicsEnv) (width height : Int)
    (fullscreen : Bool) : StartupResult :=
  if !env.glfwInit then
    ⟨[StartupEvent.glfwInit, StartupEvent.logError "Failed to initialize GLFW."],
      GraphicsState.init, true⟩
  else
    match env.glfwCreateWindow with
    | none =>
      ⟨[StartupEvent.glfwInit, StartupEvent.glfwWindowHints,
        StartupEvent.glfwCreateWindow width height fullscreen,
        StartupEvent.logError "Failed to create a window.", StartupEvent.glfwTerminate],
        GraphicsState.init, true⟩
    | some window =>
      let s1 : GraphicsState := { GraphicsState.init with m_window := some window }
      match env.wgpuCreateInstance with
      | none =>
        ⟨[StartupEvent.glfwInit, StartupEvent.glfwWindowHints,
          StartupEvent.glfwCreateWindow width height fullscreen, StartupEvent.glfwShowWindow,
          StartupEvent.glfwSetWindowAspectRatio width height, StartupEvent.wgpuCreateInstance,
          StartupEvent.logError "Failed to create WebGPU instance.",
          StartupEvent.glfwTerminate], s1, true⟩
      | some inst =>
        let s2 : GraphicsState := { s1 with m_instance := some inst }
        match env.glfwCreateWindowWGPUSurface with
        | none =>
          ⟨startupPrefix width height fullscreen ++
            [StartupEvent.logError "Failed to create WebGPU surface.",
             StartupEvent.wgpuInstanceRelease, StartupEvent.glfwTerminate], s2, true⟩
        | some surface =>
          let s3 : GraphicsState := { s2 with m_surface := some surface }
          let wa := requestAndWait StartupEvent.wgpuInstanceRequestAdapter env.adapterSuccess
            "Failed to get a WebGPU adapter: " env.adapter env.adapterPolls fuel
          match wa.handle with
          | none => ⟨startupPrefix width height fullscreen ++ wa.events, s3, false⟩
          | some adapter =>
            let s4 : GraphicsState := { s3 with m_adapter := some adapter }
            let wd := requestAndWait StartupEvent.wgpuAdapterRequestDevice env.deviceSuccess
              "Failed to get a WebGPU device: " env.device env.devicePolls fuel
            match wd.handle with
            | none =>
              ⟨startupPrefix width height fullscreen ++ wa.events ++ wd.events, s4, false⟩
            | some device =>
              ⟨startupPrefix width height fullscreen ++ wa.events ++ wd.events ++
                  startupTail env,
                { s4 with
                  m_device := some device
                  m_queue := env.wgpuDeviceGetQueue
                  m_uniformBuffer := env.uniformBuffer
                  m_sampler := some env.sampler
                  m_vertexBuffer := env.vertexBuffer
                  m_renderPipeline := env.renderPipeline },
                true⟩

/-- The calls that create a WebGPU object or ask for one. -/
def StartupEvent.createsWebGPU : StartupEvent → Bool
  | StartupEvent.wgpuCreateInstance => true
  | StartupEvent.glfwCreateWindowWGPUSurface => true
  | StartupEvent.wgpuInstanceRequestAdapter => true
  | StartupEvent.wgpuAdapterRequestDevice => true
  | StartupEvent.wgpuDeviceGetQueue => true
  | StartupEvent.createUniformBuffer => true
  | StartupEvent.wgpuDeviceCreateSampler => true
  | StartupEvent.wgpuDeviceCreateShaderModule => true
  | StartupEvent.createVertexBuffer => true
  | StartupEvent.wgpuDeviceCreateRenderPipeline => true
  | _ => false

/-- The calls of start-up that come after the device: queue, buffers, sampler,
shader module and render pipeline. -/
def StartupEvent.afterDevice : StartupEvent → Bool
  | StartupEvent.wgpuDeviceGetQueue => true
  | StartupEvent.createUniformBuffer => true
  | StartupEvent.wgpuDeviceCreateSampler => true
  | StartupEvent.wgpuDeviceCreateShaderModule => true
  | StartupEvent.createVertexBuffer => true
  | StartupEvent.wgpuDeviceCreateRenderPipeline => true
  | _ => false

/-- The matrix an event uploads to the uniform buffer, if it is such an upload. -/
def StartupEvent.uploaded : StartupEvent → Option Mat4
  | StartupEvent.writeUniforms _ _ p => some p
  | _ => none

/-- The projection matrices uploaded to the uniform buffer during start-up. -/
def uploadedProjections (events : List StartupEvent) : List Mat4 :=
  events.filterMap StartupEvent.uploaded

/-- An environment in which every request succeeds, the adapter after two rounds of
event processing and the device after one, with the framebuffer of the given size. -/
def envGraphicsOk (w h : Int) : GraphicsEnv where
  glfwInit := true
  glfwCreateWindow := some 1
  wgpuCreateInstance := some 2
  glfwCreateWindowWGPUSurface := some 3
  adapterSuccess := true
  adapter := some 4
  adapterPolls := 2
  deviceSuccess := true
  device := some 5
  devicePolls := 1
  wgpuDeviceGetQueue := some 6
  uniformBuffer := some 7
  framebufferSize := (w, h)
  sampler := 8
  shaderModule := some 13
  vertexBuffer := some 9
  renderPipeline := some 10

/-- As `envGraphicsOk 1280 720`, but `glfwCreateWindow` returns null. -/
def envNoWindow : GraphicsEnv := { envGraphicsOk 1280 720 with glfwCreateWindow := none }

/-- As `envGraphicsOk 1280 720`, but the adapter request reports a failure: the
callback receives a status other than success and a null adapter. -/
def envAdapterFails : GraphicsEnv :=
  { envGraphicsOk 1280 720 with adapterSuccess := false, adapter := none, adapterPolls := 0 }

/-- As `envGraphicsOk 1280 720`, but the device request reports a failure. -/
def envDeviceFails : GraphicsEnv :=
  { envGraphicsOk 1280 720 with deviceSuccess := false, device := none }

/-! ## `Engine::Startup`

The engine's start-up runs the graphics start-up and then, when there is a window,
creates the input and script managers, loads the two scripts and runs their chunks.
The constructor has created the resource manager, so `m_resourceManager` is not
null here. What the Lua runtime answers is an input (`EngineEnv`). -/

/-- What the outside answers during `Engine::Startup`: the graphics libraries, the
asset path resolution, whether `lua.load_file(path)` gives a valid chunk, and whether
a call of the ECS chunk and of the main chunk gives a valid result. -/
structure EngineEnv where
  graphics : GraphicsEnv
  ResolvePath : String → String
  load_file : String → Bool
  ecsValid : Bool
  mainValid : Bool

/-- One step of `Engine::Startup`. -/
inductive EngineEvent where
  | graphics (e : StartupEvent)
  | setAssetRoot (root : String)
  | soundManagerStartup
  | setResourceManager
  | createInputManager (window : Nat)
  | scriptManagerStartup
  | setScriptManager
  | exposeInputManager
  | exposeResourceManager
  | exposeSoundManager
  | loadFile (name path : String)
  | scriptWarn (name : String)
  | scriptError (name : String)
  | scriptInfo (name : String)
  | runChunk (name : String)
  | logError (message : String)
  | logInfo (message : String)
  | bindQuitGame
  | stm_setup
deriving DecidableEq

/-- The result of `ScriptManager::LoadScript`: the returned flag, the names in
`m_loadedScripts` afterwards, and the steps taken. -/
structure LoadScriptResult where
  ok : Bool
  m_loadedScripts : List String
  events : List EngineEvent

/-- The method `ScriptManager::LoadScript(name, path)` on the names of
`m_loadedScripts`. -/
def ScriptManager.LoadScript (m_loadedScripts : List String) (load_file : String → Bool)
    (name path : String) : LoadScriptResult :=
  if name ∈ m_loadedScripts then
    ⟨true, m_loadedScripts, [EngineEvent.scriptWarn name]⟩
  else if !load_file path then
    ⟨false, m_loadedScripts, [EngineEvent.loadFile name path, EngineEvent.scriptError name]⟩
  else
    ⟨true, name :: m_loadedScripts,
      [EngineEvent.loadFile name path, EngineEvent.scriptInfo name]⟩

/-- The method `ScriptManager::GetScript(name)`: the stored chunk (here its name), or
`nullptr` with an error line. -/
def ScriptManager.GetScript (m_loadedScripts : List String) (name : String) :
    Option String × List EngineEvent :=
  if name ∈ m_loadedScripts then (some name, []) else (none, [EngineEvent.scriptError name])

/-- The managers of the engine after start-up: the graphics handles, the window the
input manager wraps (`none`: `m_inputManager` is null), the loaded script names of the
script manager (`none`: `m_scriptManager` is null), and whether the sound manager
exists. -/
structure EngineState where
  m_graphicsManager : GraphicsState
  m_inputManager : Option Nat
  m_scriptManager : Option (List String)
  m_soundManager : Bool

/-- The outcome of `Engine::Startup`. -/
structure EngineResult where
  events : List EngineEvent
  state : EngineState
  returned : Bool

/-- The method `Engine::Startup()`. -/
def Engine.Startup (fuel : Nat) (env : EngineEnv) : EngineResult :=
  let g := GraphicsManager.Startup fuel env.graphics 1280 720 false
  let ge := g.events.map EngineEvent.graphics
  if !g.returned then ⟨ge, ⟨g.state, none, none, false⟩, false⟩
  else
    let e1 := ge ++ [EngineEvent.setAssetRoot "../../../engine/assets",
      EngineEvent.soundManagerStartup, EngineEvent.setResourceManager]
    match g.state.m_window with
    | none =>
      ⟨e1 ++ [EngineEvent.logError
          "GraphicsManager failed to create a window, InputManager will be unusable.",
          EngineEvent.stm_setup, EngineEvent.logInfo "Engine started up."],
        ⟨g.state, none, none, true⟩, true⟩
    | some window =>
      let scriptLoaded := ScriptManager.LoadScript [] env.load_file "main_script"
        (env.ResolvePath "scripts/main_script.lua")
      let ECSLoaded := ScriptManager.LoadScript scriptLoaded.m_loadedScripts env.load_file "ECS"
        (env.ResolvePath "scripts/ecs.lua")
      let setup_chunk := ScriptManager.GetScript ECSLoaded.m_loadedScripts "main_script"
      let ecs_chunk := ScriptManager.GetScript ECSLoaded.m_loadedScripts "ECS"
      let e2 := e1 ++ [EngineEvent.createInputManager window, EngineEvent.scriptManagerStartup,
        EngineEvent.setScriptManager, EngineEvent.exposeInputManager,
        EngineEvent.exposeResourceManager, EngineEvent.exposeSoundManager] ++
        scriptLoaded.events ++ ECSLoaded.events ++ setup_chunk.2 ++ ecs_chunk.2
      let st : EngineState := ⟨g.state, some window, some ECSLoaded.m_loadedScripts, true⟩
      match setup_chunk.1, ecs_chunk.1 with
      | some main, some ecs =>
        if !env.ecsValid then
          ⟨e2 ++ [EngineEvent.runChunk ecs,
            EngineEvent.logError "Lua Runtime Error during ECS script execution"], st, true⟩
        else if !env.mainValid then
          ⟨e2 ++ [EngineEvent.runChunk ecs,
            EngineEvent.logInfo "ECS script executed successfully, ECS table is now defined.",
            EngineEvent.runChunk main,
            EngineEvent.logError "Lua Runtime Error during SETUP script execution"], st, true⟩
        else
          ⟨e2 ++ [EngineEvent.runChunk ecs,
            EngineEvent.logInfo "ECS script executed successfully, ECS table is now defined.",
            EngineEvent.runChunk main,
            EngineEvent.logInfo "Successfully executed setup script once.",
            EngineEvent.bindQuitGame, EngineEvent.stm_setup,
            EngineEvent.logInfo "Engine started up."], st, true⟩
      | _, _ =>
        ⟨e2 ++ [EngineEvent.bindQuitGame, EngineEvent.stm_setup,
          EngineEvent.logInfo "Engine started up."], st, true⟩

/-- The chunk an event runs, if it runs one. -/
def EngineEvent.chunk : EngineEvent → Option String
  | EngineEvent.runChunk name => some name
  | _ => none

/-- The script chunks executed during start-up, in order. -/
def chunksRun (events : List EngineEvent) : List String :=
  events.filterMap EngineEvent.chunk

/-- The steps that load or execute a script. -/
def EngineEvent.isScript : EngineEvent → Bool
  | EngineEvent.loadFile _ _ => true
  | EngineEvent.runChunk _ => true
  | _ => false

/-- An engine environment over a graphics environment in which both script files
load from the asset root and both chunks run without error. -/
def envEngine (graphics : GraphicsEnv) : EngineEnv where
  graphics := graphics
  ResolvePath := fun p => "../../../engine/assets/" ++ p
  load_file := fun p => p == "../../../engine/assets/scripts/main_script.lua" ||
    p == "../../../engine/assets/scripts/ecs.lua"
  ecsValid := true
  mainValid := true

/-! ## The loop body, by cases on the texture lookup -/

theorem loopBody_unresolved (rm : ResourceManager) (i : Nat) (sprite : Sprite) (st : LoopState)
    (h : resolveTexture rm sprite.textureName = none) :
    loopBody rm i sprite st = ([Event.warnMissingTexture sprite.textureName], st) := by
  unfold resolveTexture at h
  unfold loopBody
  cases hg : rm.GetTexture sprite.textureName with
  | none => rfl
  | some t =>
    rw [hg] at h
    cases ht : t.texture with
    | none => simp [ht]
    | some tex => simp [ht] at h

theorem loopBody_resolved (rm : ResourceManager) (i : Nat) (sprite : Sprite) (st : LoopState)
    (t : Texture) (tex : Nat) (h : resolveTexture rm sprite.textureName = some (t, tex)) :
    loopBody rm i sprite st =
      if sprite.textureName ≠ st.currentTextureName then
        ([Event.queueWriteBuffer (i * sizeofInstanceData) (instanceData sprite t)
            sizeofInstanceData] ++ releaseCurrent st.currentBindGroup ++
          [Event.renderPipelineGetBindGroupLayout, Event.textureCreateView tex,
           Event.deviceCreateBindGroup st.created tex, Event.textureViewRelease tex,
           Event.bindGroupLayoutRelease, Event.renderPassEncoderSetBindGroup st.created,
           Event.renderPassEncoderDraw sprite 4 1 0 (i % 2 ^ 32)],
         ⟨sprite.textureName, some st.created, st.created + 1⟩)
      else
        ([Event.queueWriteBuffer (i * sizeofInstanceData) (instanceData sprite t)
            sizeofInstanceData,
          Event.renderPassEncoderDraw sprite 4 1 0 (i % 2 ^ 32)], st) := by
  unfold resolveTexture at h
  unfold loopBody
  cases hg : rm.GetTexture sprite.textureName with
  | none => simp [hg] at h
  | some t0 =>
    rw [hg] at h
    cases ht : t0.texture with
    | none => simp [ht] at h
    | some tex0 =>
      simp only [ht, Option.some.injEq, Prod.mk.injEq] at h
      obtain ⟨rfl, rfl⟩ := h
      simp [ht]

/-- Past its two guards `Draw` is `DrawSprites` on the sprites the query collects. -/
theorem Draw_eq_DrawSprites (S : StdSort) (gm : GraphicsManager) (sm : ScriptManager)
    (ids : List Int) (hsm : gm.m_scriptManager = some sm) (hfe : sm.ecsForEach = some ids) :
    Draw S gm = DrawSprites S gm.m_resourceManager (collectSprites sm ids) := by
  simp [Draw, hsm, hfe]

theorem drawnSprites_releaseCurrent (bg : Option Nat) : drawnSprites (releaseCurrent bg) = [] := by
  cases bg <;> rfl

theorem drawnSprites_mainDrawLoop (rm : ResourceManager) (l : List Sprite) :
    ∀ (i : Nat) (st : LoopState),
      drawnSprites (mainDrawLoop rm i l st).1 = l.filter (resolvable rm) := by
  induction l with
  | nil => intro i st; rfl
  | cons s rest ih =>
    intro i st
    simp only [mainDrawLoop, drawnSprites, List.filterMap_append]
    have ih2 := ih (i + 1) (loopBody rm i s st).2
    simp only [drawnSprites] at ih2
    rw [ih2]
    cases hr : resolveTexture rm s.textureName with
    | none =>
      rw [loopBody_unresolved rm i s st hr]
      simp [resolvable, hr]
    | some r =>
      obtain ⟨t, tex⟩ := r
      rw [loopBody_resolved rm i s st t tex hr]
      have hres : resolvable rm s = true := by simp [resolvable, hr]
      have hrel := drawnSprites_releaseCurrent st.currentBindGroup
      simp only [drawnSprites] at hrel
      split <;> simp [hres, hrel]

theorem drawCalls_releaseCurrent (bg : Option Nat) : drawCalls (releaseCurrent bg) = [] := by
  cases bg <;> rfl

theorem drawCalls_mainDrawLoop (rm : ResourceManager) (l : List Sprite) :
    ∀ (i : Nat) (st : LoopState),
      drawCalls (mainDrawLoop rm i l st).1 =
        ((l.enumFrom i).filter (fun p => resolvable rm p.2)).map
          (fun p => (4, 1, 0, p.1 % 2 ^ 32)) := by
  induction l with
  | nil => intro i st; rfl
  | cons s rest ih =>
    intro i st
    simp only [mainDrawLoop, drawCalls, List.filterMap_append, List.enumFrom_cons]
    have ih2 := ih (i + 1) (loopBody rm i s st).2
    simp only [drawCalls] at ih2
    rw [ih2]
    cases hr : resolveTexture rm s.textureName with
    | none =>
      rw [loopBody_unresolved rm i s st hr]
      simp [resolvable, hr]
    | some r =>
      obtain ⟨t, tex⟩ := r
      rw [loopBody_resolved rm i s st t tex hr]
      have hres : resolvable rm s = true := by simp [resolvable, hr]
      have hrel := drawCalls_releaseCurrent st.currentBindGroup
      simp only [drawCalls] at hrel
      split <;> simp [hres, hrel]

theorem bufferWrites_releaseCurrent (bg : Option Nat) : bufferWrites (releaseCurrent bg) = [] := by
  cases bg <;> rfl

theorem bufferWrites_mainDrawLoop (rm : ResourceManager) (l : List Sprite) :
    ∀ (i : Nat) (st : LoopState),
      bufferWrites (mainDrawLoop rm i l st).1 =
        (l.enumFrom i).filterMap (fun p =>
          (resolveTexture rm p.2.textureName).map (fun r =>
            (p.1 * sizeofInstanceData, instanceData p.2 r.1, sizeofInstanceData))) := by
  induction l with
  | nil => intro i st; rfl
  | cons s rest ih =>
    intro i st
    simp only [mainDrawLoop, bufferWrites, List.filterMap_append, List.enumFrom_cons]
    have ih2 := ih (i + 1) (loopBody rm i s st).2
    simp only [bufferWrites] at ih2
    rw [ih2]
    cases hr : resolveTexture rm s.textureName with
    | none =>
      rw [loopBody_unresolved rm i s st hr]
      simp [hr]
    | some r =>
      obtain ⟨t, tex⟩ := r
      rw [loopBody_resolved rm i s st t tex hr]
      have hrel := bufferWrites_releaseCurrent st.currentBindGroup
      simp only [bufferWrites] at hrel
      split <;> simp [hr, hrel]

theorem createdBuffers_releaseCurrent (bg : Option Nat) :
    createdBuffers (releaseCurrent bg) = [] := by
  cases bg <;> rfl

theorem createdBuffers_mainDrawLoop (rm : ResourceManager) (l : List Sprite) :
    ∀ (i : Nat) (st : LoopState), createdBuffers (mainDrawLoop rm i l st).1 = [] := by
  induction l with
  | nil => intro i st; rfl
  | cons s rest ih =>
    intro i st
    simp only [mainDrawLoop, createdBuffers, List.filterMap_append]
    have ih2 := ih (i + 1) (loopBody rm i s st).2
    simp only [createdBuffers] at ih2
    rw [ih2]
    cases hr : resolveTexture rm s.textureName with
    | none =>
      rw [loopBody_unresolved rm i s st hr]
      simp
    | some r =>
      obtain ⟨t, tex⟩ := r
      rw [loopBody_resolved rm i s st t tex hr]
      have hrel := createdBuffers_releaseCurrent st.currentBindGroup
      simp only [createdBuffers] at hrel
      split <;> simp [hrel]

/-! ## From the loop to the whole frame -/

theorem drawnSprites_DrawSprites (S : StdSort) (rm : ResourceManager) (sprites : List Sprite) :
    drawnSprites (DrawSprites S rm sprites) = (S.sort sprites).filter (resolvable rm) := by
  have hloop := drawnSprites_mainDrawLoop rm (S.sort sprites) 0 LoopState.init
  have hrel := drawnSprites_releaseCurrent
    (mainDrawLoop rm 0 (S.sort sprites) LoopState.init).2.currentBindGroup
  simp only [drawnSprites] at hloop hrel
  simp only [DrawSprites, drawnSprites, List.filterMap_append]
  split
  · simp [hloop, hrel]
  · rename_i hlen
    have : S.sort sprites = [] := by
      cases hs : S.sort sprites with
      | nil => rfl
      | cons a l => simp [hs] at hlen
    simp [this]

theorem drawCalls_DrawSprites (S : StdSort) (rm : ResourceManager) (sprites : List Sprite) :
    drawCalls (DrawSprites S rm sprites) =
      (((S.sort sprites).enumFrom 0).filter (fun p => resolvable rm p.2)).map
        (fun p => (4, 1, 0, p.1 % 2 ^ 32)) := by
  have hloop := drawCalls_mainDrawLoop rm (S.sort sprites) 0 LoopState.init
  have hrel := drawCalls_releaseCurrent
    (mainDrawLoop rm 0 (S.sort sprites) LoopState.init).2.currentBindGroup
  simp only [drawCalls] at hloop hrel
  simp only [DrawSprites, drawCalls, List.filterMap_append]
  split
  · simp [hloop, hrel]
  · rename_i hlen
    have : S.sort sprites = [] := by
      cases hs : S.sort sprites with
      | nil => rfl
      | cons a l => simp [hs] at hlen
    simp [this]

theorem bufferWrites_DrawSprites (S : StdSort) (rm : ResourceManager) (sprites : List Sprite) :
    bufferWrites (DrawSprites S rm sprites) =
      ((S.sort sprites).enumFrom 0).filterMap (fun p =>
        (resolveTexture rm p.2.textureName).map (fun r =>
          (p.1 * sizeofInstanceData, instanceData p.2 r.1, sizeofInstanceData))) := by
  have hloop := bufferWrites_mainDrawLoop rm (S.sort sprites) 0 LoopState.init
  have hrel := bufferWrites_releaseCurrent
    (mainDrawLoop rm 0 (S.sort sprites) LoopState.init).2.currentBindGroup
  simp only [bufferWrites] at hloop hrel
  simp only [DrawSprites, bufferWrites, List.filterMap_append]
  split
  · simp [hloop, hrel]
  · rename_i hlen
    have : S.sort sprites = [] := by
      cases hs : S.sort sprites with
      | nil => rfl
      | cons a l => simp [hs] at hlen
    simp [this]

theorem createdBuffers_DrawSprites (S : StdSort) (rm : ResourceManager) (sprites : List Sprite) :
    createdBuffers (DrawSprites S rm sprites) =
      if sprites.length > 0 then [sizeofInstanceData * sprites.length] else [] := by
  have hloop := createdBuffers_mainDrawLoop rm (S.sort sprites) 0 LoopState.init
  have hrel := createdBuffers_releaseCurrent
    (mainDrawLoop rm 0 (S.sort sprites) LoopState.init).2.currentBindGroup
  have hlen : (S.sort sprites).length = sprites.length := (S.perm sprites).length_eq
  simp only [createdBuffers] at hloop hrel
  simp only [DrawSprites, createdBuffers, List.filterMap_append, hlen]
  split
  · simp [hloop, hrel]
  · simp

theorem inLoop_releaseCurrent (bg : Option Nat) :
    ∀ e ∈ releaseCurrent bg, Event.inLoop e = true := by
  cases bg <;> simp [releaseCurrent, Event.inLoop]

theorem inLoop_mainDrawLoop (rm : ResourceManager) (l : List Sprite) :
    ∀ (i : Nat) (st : LoopState), ∀ e ∈ (mainDrawLoop rm i l st).1, Event.inLoop e = true := by
  induction l with
  | nil => intro i st e he; simp [mainDrawLoop] at he
  | cons s rest ih =>
    intro i st e he
    simp only [mainDrawLoop, List.mem_append] at he
    rcases he with he | he
    · cases hr : resolveTexture rm s.textureName with
      | none =>
        rw [loopBody_unresolved rm i s st hr] at he
        simp only [List.mem_singleton] at he
        subst he
        rfl
      | some r =>
        obtain ⟨t, tex⟩ := r
        rw [loopBody_resolved rm i s st t tex hr] at he
        have hrel := inLoop_releaseCurrent st.currentBindGroup
        split at he
        · simp only [List.mem_append, List.mem_cons, List.mem_singleton, List.not_mem_nil,
            or_false] at he
          rcases he with (he | he) | he
          · subst he; rfl
          · exact hrel e he
          · rcases he with he | he | he | he | he | he | he <;> subst he <;> rfl
        · simp only [List.mem_cons, List.mem_singleton, List.not_mem_nil, or_false] at he
          rcases he with he | he <;> subst he <;> rfl
    · exact ih _ _ e he

theorem count_DrawSprites_of_not_inLoop (S : StdSort) (rm : ResourceManager)
    (sprites : List Sprite) (e : Event) (he : Event.inLoop e = false) :
    (DrawSprites S rm sprites).count e =
      ([Event.deviceCreateCommandEncoder, Event.surfaceGetCurrentTexture,
        Event.surfaceTextureCreateView, Event.commandEncoderBeginRenderPass] ++
       (if sprites.length > 0 then
         [Event.deviceCreateBuffer (sizeofInstanceData * sprites.length),
          Event.renderPassEncoderSetPipeline,
          Event.renderPassEncoderSetVertexBuffer 0 0 (4 * 4 * 4),
          Event.renderPassEncoderSetVertexBuffer 1 0 (sizeofInstanceData * sprites.length),
          Event.bufferRelease]
        else []) ++
       [Event.renderPassEncoderEnd, Event.commandEncoderFinish, Event.queueSubmit,
        Event.surfacePresent, Event.surfaceTextureViewRelease, Event.surfaceTextureRelease,
        Event.commandEncoderRelease, Event.commandBufferRelease]).count e := by
  have hlen : (S.sort sprites).length = sprites.length := (S.perm sprites).length_eq
  have h1 : (mainDrawLoop rm 0 (S.sort sprites) LoopState.init).1.count e = 0 := by
    rw [List.count_eq_zero]
    intro hmem
    have := inLoop_mainDrawLoop rm (S.sort sprites) 0 LoopState.init e hmem
    rw [he] at this
    exact Bool.noConfusion this
  have h2 : (releaseCurrent
      (mainDrawLoop rm 0 (S.sort sprites) LoopState.init).2.currentBindGroup).count e = 0 := by
    rw [List.count_eq_zero]
    intro hmem
    have := inLoop_releaseCurrent _ e hmem
    rw [he] at this
    exact Bool.noConfusion this
  simp only [DrawSprites, hlen]
  split
  · simp only [List.count_append, h1, h2]
    simp [List.count_cons]
    ring
  · rfl

/-! ## Uniqueness of the sort on tie-free input -/

theorem CFloat.eq_of_not_gt (a b : CFloat) (ha : a ≠ CFloat.nan) (hb : b ≠ CFloat.nan)
    (hab : CFloat.gt b a = false) (hba : CFloat.gt a b = false) : a = b := by
  cases a with
  | nan => exact absurd rfl ha
  | val p =>
    cases b with
    | nan => exact absurd rfl hb
    | val q =>
      simp only [CFloat.gt, decide_eq_false_iff_not, not_lt] at hab hba
      rw [le_antisymm hba hab]

theorem CFloat.ge_of_not_gt (a b : CFloat) (ha : a ≠ CFloat.nan) (hb : b ≠ CFloat.nan)
    (hba : CFloat.gt b a = false) : CFloat.ge a b = true := by
  cases a with
  | nan => exact absurd rfl ha
  | val p =>
    cases b with
    | nan => exact absurd rfl hb
    | val q =>
      simp only [CFloat.gt, decide_eq_false_iff_not, not_lt] at hba
      simpa [CFloat.ge] using hba

theorem CFloat.not_gt_of_ge (a b : CFloat) (h : CFloat.ge a b = true) :
    CFloat.gt b a = false := by
  cases a with
  | nan => cases b <;> rfl
  | val p =>
    cases b with
    | nan => rfl
    | val q =>
      simp only [CFloat.ge, decide_eq_true_eq] at h
      simpa [CFloat.gt] using h

theorem CFloat.gt_irrefl (a : CFloat) : CFloat.gt a a = false := by
  cases a with
  | nan => rfl
  | val p => simp [CFloat.gt]

theorem StdSort.sort_eq_of_sorted (S : StdSort) (l sorted : List Sprite)
    (hperm : sorted.Perm l)
    (hsorted : sorted.Pairwise (fun a b => zGreater b a = false))
    (hnan : ∀ a ∈ l, a.z ≠ CFloat.nan)
    (hinj : ∀ a ∈ l, ∀ b ∈ l, a.z = b.z → a = b) : S.sort l = sorted := by
  refine List.Perm.eq_of_sorted ?_ (S.sorted l hnan) hsorted ((S.perm l).trans hperm.symm)
  intro a b ha hb hab hba
  have ha2 : a ∈ l := (S.perm l).subset ha
  have hb2 : b ∈ l := hperm.subset hb
  exact hinj a ha2 b hb2 (CFloat.eq_of_not_gt a.z b.z (hnan a ha2) (hnan b hb2) hab hba)

theorem sort_scenario (S : StdSort) :
    S.sort [spriteA, spriteB, spriteC] = [spriteC, spriteA, spriteB] := by
  apply StdSort.sort_eq_of_sorted
  · exact (List.perm_append_comm :
      ([spriteC] ++ [spriteA, spriteB]).Perm ([spriteA, spriteB] ++ [spriteC]))
  · decide!
  · decide!
  · decide!

theorem resolvable_iff (rm : ResourceManager) (s : Sprite) :
    resolvable rm s = true ↔
      ∃ t tex, rm.GetTexture s.textureName = some t ∧ t.texture = some tex := by
  unfold resolvable resolveTexture
  cases hg : rm.GetTexture s.textureName with
  | none => simp
  | some t =>
    cases ht : t.texture with
    | none => simp [ht]
    | some tex => simp [ht]

theorem sorted_filter_resolvable (S : StdSort) (rm : ResourceManager) (sprites : List Sprite)
    (hnan : ∀ s ∈ sprites, s.z ≠ CFloat.nan) :
    ((S.sort sprites).filter (resolvable rm)).Pairwise
      (fun d1 d2 => CFloat.ge d1.z d2.z = true) := by
  refine ((S.sorted sprites hnan).imp_of_mem ?_).filter (resolvable rm)
  intro a b ha hb hab
  exact CFloat.ge_of_not_gt a.z b.z (hnan a ((S.perm sprites).subset ha))
    (hnan b ((S.perm sprites).subset hb)) hab

/-! ## The claims -/

/-- C1 as stated fails: the depth `z` is a `float` set from Lua and can be NaN.  With
collected depths 3, 1, NaN, 2, all of a cached texture, every comparison with the NaN
is false, the insertion sort that libstdc++ runs on so short a range moves nothing,
and the sprites are drawn in the order 3, 1, NaN, 2: the sprite of depth 2 is drawn
after the sprite of depth 1, and the drawn sequence is not non-increasing. -/
theorem Draw_back_to_front_fails_with_NaN :
    (drawnSprites (DrawSprites libstdcxxStdSort cacheT1T2 spritesWithNaN)).map (fun d => d.z) =
      [CFloat.val 3, CFloat.val 1, CFloat.nan, CFloat.val 2] ∧
    ¬ (drawnSprites (DrawSprites libstdcxxStdSort cacheT1T2 spritesWithNaN)).Pairwise
      (fun d1 d2 => CFloat.ge d1.z d2.z = true) ∧
    ¬ (∀ (i j : Fin (drawnSprites
          (DrawSprites libstdcxxStdSort cacheT1T2 spritesWithNaN)).length),
        CFloat.gt ((drawnSprites (DrawSprites libstdcxxStdSort cacheT1T2 spritesWithNaN)).get i).z
          ((drawnSprites (DrawSprites libstdcxxStdSort cacheT1T2 spritesWithNaN)).get j).z
          = true → i < j) := by
  have hd : drawnSprites (DrawSprites libstdcxxStdSort cacheT1T2 spritesWithNaN) =
      spritesWithNaN := by decide!
  rw [hd]
  refine ⟨by decide, by decide!, ?_⟩
  intro h
  exact absurd (h ⟨3, by decide⟩ ⟨1, by decide⟩ (by decide!)) (by decide)

/-- C1: for every list of collected sprites none of whose `z` is NaN and
every texture cache, the draw calls of one `Draw` are emitted back to front: the
sequence of drawn sprites is non-increasing in `z`, so a drawn sprite with the
larger `z` always has the earlier draw call.  In the scenario A (z = 0.5),
B (z = 0.1), C (z = 0.9) the draw order is C, A, B, whatever `std::sort` does with
ties. -/
theorem Draw_back_to_front (S : StdSort) (rm : ResourceManager) (sprites : List Sprite)
    (hnan : ∀ s ∈ sprites, s.z ≠ CFloat.nan) :
    (drawnSprites (DrawSprites S rm sprites)).Pairwise
      (fun d1 d2 => CFloat.ge d1.z d2.z = true) ∧
    (∀ (i j : Fin (drawnSprites (DrawSprites S rm sprites)).length),
      CFloat.gt ((drawnSprites (DrawSprites S rm sprites)).get i).z
        ((drawnSprites (DrawSprites S rm sprites)).get j).z = true → i < j) ∧
    drawnSprites (DrawSprites S cacheT1T2 [spriteA, spriteB, spriteC]) =
      [spriteC, spriteA, spriteB] := by
  have hpw : (drawnSprites (DrawSprites S rm sprites)).Pairwise
      (fun d1 d2 => CFloat.ge d1.z d2.z = true) := by
    rw [drawnSprites_DrawSprites]
    exact sorted_filter_resolvable S rm sprites hnan
  refine ⟨hpw, ?_, ?_⟩
  · intro i j hgt
    by_contra hij
    rcases lt_or_eq_of_le (not_lt.1 hij) with hji | hji
    · have := CFloat.not_gt_of_ge _ _ (List.pairwise_iff_get.1 hpw j i hji)
      rw [this] at hgt
      exact Bool.noConfusion hgt
    · rw [hji, CFloat.gt_irrefl] at hgt
      exact Bool.noConfusion hgt
  · rw [drawnSprites_DrawSprites, sort_scenario]
    decide!

/-- The back-to-front order at the scenario, with insertion sort as `std::sort`. -/
theorem Draw_back_to_front_witness :
    (drawnSprites (DrawSprites insertionStdSort cacheT1T2
      [spriteA, spriteB, spriteC])).Pairwise (fun d1 d2 => CFloat.ge d1.z d2.z = true) ∧
    drawnSprites (DrawSprites insertionStdSort cacheT1T2 [spriteA, spriteB, spriteC]) =
      [spriteC, spriteA, spriteB] :=
  ⟨(Draw_back_to_front insertionStdSort cacheT1T2 [spriteA, spriteB, spriteC]
      (by decide)).1,
   (Draw_back_to_front insertionStdSort cacheT1T2 [spriteA, spriteB, spriteC]
      (by decide)).2.2⟩

/-- C2: for every list of collected sprites and every texture cache, the sprites
that get a draw call are, as a multiset, exactly the collected sprites whose
texture name resolves to a cache entry with a non-null handle; a sprite that does
not resolve gets none; there is one draw call per resolvable sprite and each has 4
vertices and 1 instance; the frame is submitted once and presented once. -/
theorem Draw_draws_exactly_resolvable (S : StdSort) (rm : ResourceManager)
    (sprites : List Sprite) :
    (drawnSprites (DrawSprites S rm sprites)).Perm (sprites.filter (resolvable rm)) ∧
    (∀ s, resolvable rm s = false → s ∉ drawnSprites (DrawSprites S rm sprites)) ∧
    (drawCalls (DrawSprites S rm sprites)).length =
      (sprites.filter (resolvable rm)).length ∧
    (∀ c ∈ drawCalls (DrawSprites S rm sprites), c.1 = 4 ∧ c.2.1 = 1) ∧
    (DrawSprites S rm sprites).count Event.queueSubmit = 1 ∧
    (DrawSprites S rm sprites).count Event.surfacePresent = 1 := by
  have hperm : (drawnSprites (DrawSprites S rm sprites)).Perm (sprites.filter (resolvable rm)) := by
    rw [drawnSprites_DrawSprites]
    exact (S.perm sprites).filter _
  refine ⟨hperm, ?_, ?_, ?_, ?_, ?_⟩
  · intro s hs hmem
    have := hperm.subset hmem
    rw [List.mem_filter] at this
    rw [hs] at this
    exact Bool.noConfusion this.2
  · rw [drawCalls_DrawSprites, List.length_map, ← ((S.perm sprites).filter _).length_eq]
    have h : ∀ (l : List Sprite) (i : Nat),
        ((l.enumFrom i).filter (fun p => resolvable rm p.2)).length =
          (l.filter (resolvable rm)).length := by
      intro l
      induction l with
      | nil => intro i; rfl
      | cons a l ih =>
        intro i
        simp only [List.enumFrom_cons, List.filter_cons]
        cases resolvable rm a <;> simp [ih (i + 1)]
    exact h _ 0
  · intro c hc
    rw [drawCalls_DrawSprites, List.mem_map] at hc
    obtain ⟨p, _, rfl⟩ := hc
    exact ⟨rfl, rfl⟩
  · rw [count_DrawSprites_of_not_inLoop S rm sprites Event.queueSubmit rfl]
    split <;> simp [List.count_cons]
  · rw [count_DrawSprites_of_not_inLoop S rm sprites Event.surfacePresent rfl]
    split <;> simp [List.count_cons]

/-- One resolvable and one unresolvable sprite: a single draw call, frame presented. -/
theorem Draw_draws_exactly_resolvable_witness :
    (drawnSprites (DrawSprites insertionStdSort cacheT1T2 [spriteGone (9 / 10), spriteA])).Perm
        ([spriteGone (9 / 10), spriteA].filter (resolvable cacheT1T2)) ∧
    (DrawSprites insertionStdSort cacheT1T2 [spriteGone (9 / 10), spriteA]).count
        Event.surfacePresent = 1 :=
  ⟨(Draw_draws_exactly_resolvable insertionStdSort cacheT1T2 [spriteGone (9 / 10), spriteA]).1,
   (Draw_draws_exactly_resolvable insertionStdSort cacheT1T2
      [spriteGone (9 / 10), spriteA]).2.2.2.2.2⟩

/-- C3: for a texture of positive width `w` and height `h` the corrective aspect
scale of `Draw` is `(1, h / w)` when `w ≥ h` and `(w / h, 1)` when `w < h`; both
components lie in `(0, 1]` and one of them is `1`.  A 2:1 texture gives
`(1, 1/2)`, a 1:2 texture `(1/2, 1)`, a square one `(1, 1)`. -/
theorem aspectScale_normalises_longer_side (t : Texture) (hw : 0 < t.width)
    (hh : 0 < t.height) :
    (t.width ≥ t.height → aspectScale t = ⟨1, (t.height : ℚ) / (t.width : ℚ)⟩) ∧
    (t.width < t.height → aspectScale t = ⟨(t.width : ℚ) / (t.height : ℚ), 1⟩) ∧
    (0 < (aspectScale t).x ∧ (aspectScale t).x ≤ 1) ∧
    (0 < (aspectScale t).y ∧ (aspectScale t).y ≤ 1) ∧
    ((aspectScale t).x = 1 ∨ (aspectScale t).y = 1) ∧
    (t.width = t.height → aspectScale t = ⟨1, 1⟩) := by
  have hwq : (0 : ℚ) < (t.width : ℚ) := by exact_mod_cast hw
  have hhq : (0 : ℚ) < (t.height : ℚ) := by exact_mod_cast hh
  refine ⟨?_, ?_, ?_, ?_, ?_, ?_⟩
  · intro hge
    simp [aspectScale, not_lt.2 hge]
  · intro hlt
    simp [aspectScale, hlt]
  · unfold aspectScale
    split
    · rename_i hlt
      have hltq : (t.width : ℚ) < (t.height : ℚ) := by exact_mod_cast hlt
      exact ⟨div_pos hwq hhq, (div_le_one hhq).2 (le_of_lt hltq)⟩
    · exact ⟨zero_lt_one, le_refl _⟩
  · unfold aspectScale
    split
    · exact ⟨zero_lt_one, le_refl _⟩
    · rename_i hge
      have hgeq : (t.height : ℚ) ≤ (t.width : ℚ) := by exact_mod_cast not_lt.1 hge
      exact ⟨div_pos hhq hwq, (div_le_one hwq).2 hgeq⟩
  · unfold aspectScale
    split
    · exact Or.inr rfl
    · exact Or.inl rfl
  · intro heq
    have hne : (t.width : ℚ) ≠ 0 := ne_of_gt hwq
    simp [aspectScale, heq]
    rw [← heq]
    exact div_self hne

/-- The aspect scales of a 2:1, a 1:2 and a square texture. -/
theorem aspectScale_normalises_longer_side_witness :
    aspectScale ⟨2, 1, some 1⟩ = ⟨1, 1 / 2⟩ ∧
    aspectScale ⟨1, 2, some 2⟩ = ⟨1 / 2, 1⟩ ∧
    aspectScale ⟨3, 3, some 3⟩ = ⟨1, 1⟩ :=
  ⟨((aspectScale_normalises_longer_side ⟨2, 1, some 1⟩ (by decide) (by decide)).1
      (by decide)).trans (by norm_num),
   ((aspectScale_normalises_longer_side ⟨1, 2, some 2⟩ (by decide) (by decide)).2.1
      (by decide)).trans (by norm_num),
   (aspectScale_normalises_longer_side ⟨3, 3, some 3⟩ (by decide) (by decide)).2.2.2.2.2 rfl⟩

/-- C4: the instance-buffer writes of one `Draw` are, in order, one per sprite of
the sorted sequence whose texture resolves to `t`; the record written for the
sprite `s` has translation `(s.position.x, s.position.y, s.z)` and scale
`(s.scale.x * a.x, s.scale.y * a.y)` with `a` the aspect scale of `t`.  Two
sprites that agree on position, scale and `z` get the same record from the same
texture, so the texture name enters only through the texture it resolves to. -/
theorem Draw_instance_records (S : StdSort) (rm : ResourceManager) (sprites : List Sprite) :
    bufferWrites (DrawSprites S rm sprites) =
      ((S.sort sprites).enumFrom 0).filterMap (fun p =>
        (resolveTexture rm p.2.textureName).map (fun r =>
          (p.1 * 20,
           (⟨⟨p.2.position.x, p.2.position.y, p.2.z⟩,
             ⟨p.2.scale.x * (aspectScale r.1).x, p.2.scale.y * (aspectScale r.1).y⟩⟩ :
             InstanceData),
           20))) ∧
    (∀ (s1 s2 : Sprite) (t : Texture), s1.position = s2.position → s1.scale = s2.scale →
      s1.z = s2.z → instanceData s1 t = instanceData s2 t) := by
  refine ⟨?_, ?_⟩
  · rw [bufferWrites_DrawSprites]
    rfl
  · intro s1 s2 t hp hs hz
    simp [instanceData, hp, hs, hz]

/-- The records written in the scenario: C and A use the 2:1 texture, B the 1:2 one. -/
theorem Draw_instance_records_witness :
    bufferWrites (DrawSprites insertionStdSort cacheT1T2 [spriteA, spriteB, spriteC]) =
      [(0, ⟨⟨0, 0, CFloat.val (9 / 10)⟩, ⟨1, 1 / 2⟩⟩, 20), (20, ⟨⟨0, 0, CFloat.val (1 / 2)⟩, ⟨1, 1 / 2⟩⟩, 20),
       (40, ⟨⟨0, 0, CFloat.val (1 / 10)⟩, ⟨1 / 2, 1⟩⟩, 20)] :=
  ((Draw_instance_records insertionStdSort cacheT1T2 [spriteA, spriteB, spriteC]).1).trans
    (by decide!)

theorem enumFrom_filter_of_all (p : Sprite → Bool) (l : List Sprite)
    (h : ∀ s ∈ l, p s = true) (i : Nat) :
    ((l.enumFrom i).filter (fun q => p q.2)).map (fun q => q.1) = List.range' i l.length := by
  induction l generalizing i with
  | nil => rfl
  | cons a l ih =>
    have ha : p a = true := h a (List.mem_cons_self _ _)
    have hl : ∀ s ∈ l, p s = true := fun s hs => h s (List.mem_cons_of_mem _ hs)
    simp [List.enumFrom_cons, List.filter_cons, ha, List.range'_succ, ih hl (i + 1)]

/-- C5, as the code has it: the instance index of a draw call is the position `i`
of the drawn sprite in the depth-sorted sequence of all collected sprites,
resolvable or not, cast to 32 bits.  The indices are `0, 1, 2, ...` when every
collected sprite resolves (and there are at most `2^32` of them). -/
theorem Draw_instance_index_is_sorted_position (S : StdSort) (rm : ResourceManager)
    (sprites : List Sprite) :
    (drawCalls (DrawSprites S rm sprites)).map (fun c => c.2.2.2) =
      (((S.sort sprites).enumFrom 0).filter (fun p => resolvable rm p.2)).map
        (fun p => p.1 % 2 ^ 32) ∧
    ((∀ s ∈ sprites, resolvable rm s = true) → sprites.length ≤ 2 ^ 32 →
      (drawCalls (DrawSprites S rm sprites)).map (fun c => c.2.2.2) =
        List.range sprites.length) := by
  have h1 : (drawCalls (DrawSprites S rm sprites)).map (fun c => c.2.2.2) =
      (((S.sort sprites).enumFrom 0).filter (fun p => resolvable rm p.2)).map
        (fun p => p.1 % 2 ^ 32) := by
    rw [drawCalls_DrawSprites, List.map_map]
    rfl
  refine ⟨h1, ?_⟩
  intro hall hlen
  have hall2 : ∀ s ∈ S.sort sprites, resolvable rm s = true :=
    fun s hs => hall s ((S.perm sprites).subset hs)
  have hfst := enumFrom_filter_of_all (resolvable rm) (S.sort sprites) hall2 0
  have hsl : (S.sort sprites).length = sprites.length := (S.perm sprites).length_eq
  rw [hsl] at hfst
  rw [h1]
  have hmap : (((S.sort sprites).enumFrom 0).filter (fun p => resolvable rm p.2)).map
      (fun p => p.1 % 2 ^ 32) =
      ((((S.sort sprites).enumFrom 0).filter (fun p => resolvable rm p.2)).map
        (fun p => p.1)).map (fun i => i % 2 ^ 32) := by
    rw [List.map_map]
    rfl
  have hid : (List.range' 0 sprites.length).map (fun i => i % 2 ^ 32) =
      (List.range' 0 sprites.length).map id := by
    apply List.map_congr_left
    intro i hi
    rw [List.mem_range'_1] at hi
    exact Nat.mod_eq_of_lt (by omega)
  rw [hmap, hfst, List.range_eq_range', hid, List.map_id]

/-- The scenario, where every sprite resolves: the instance indices are 0, 1, 2. -/
theorem Draw_instance_index_is_sorted_position_witness :
    (drawCalls (DrawSprites insertionStdSort cacheT1T2 [spriteA, spriteB, spriteC])).map
      (fun c => c.2.2.2) = List.range 3 :=
  (Draw_instance_index_is_sorted_position insertionStdSort cacheT1T2
    [spriteA, spriteB, spriteC]).2 (by decide!) (by decide)

/-- C5 as stated fails: with an unresolvable sprite sorted first, the draw call
number 0 is issued with instance index 1. -/
theorem Draw_instance_index_not_dense :
    ∃ k c, (drawCalls (DrawSprites insertionStdSort cacheT1T2
        [spriteGone (9 / 10), spriteA])).get? k = some c ∧ c.2.2.2 ≠ k :=
  ⟨0, (4, 1, 0, 1), by decide!, by decide⟩

/-- C6, as the code has it: `Draw` creates an instance buffer only when at least
one sprite was collected, and its size is `sizeof(InstanceData) = 20` bytes times
the number of all collected sprites, resolvable or not. -/
theorem Draw_instance_buffer_size (S : StdSort) (rm : ResourceManager)
    (sprites : List Sprite) :
    createdBuffers (DrawSprites S rm sprites) =
      if sprites = [] then [] else [20 * sprites.length] := by
  rw [createdBuffers_DrawSprites]
  cases sprites with
  | nil => rfl
  | cons a l => simp [sizeofInstanceData]

/-- C6 as stated fails: with one resolvable and one unresolvable sprite the
buffer has 40 bytes, not 20 times the filtered count 1. -/
theorem Draw_instance_buffer_not_filtered :
    createdBuffers (DrawSprites insertionStdSort cacheT1T2 [spriteGone (9 / 10), spriteA]) =
      [40] ∧
    ([spriteGone (9 / 10), spriteA].filter (resolvable cacheT1T2)).length = 1 ∧
    createdBuffers (DrawSprites insertionStdSort cacheT1T2 [spriteGone (9 / 10), spriteA]) ≠
      [sizeofInstanceData *
        ([spriteGone (9 / 10), spriteA].filter (resolvable cacheT1T2)).length] := by
  decide!

/-! ## Bind groups -/

theorem countRuns_cons (a : String) (rest : List String) :
    countRuns (a :: rest) = 1 + countChanges a rest := by
  induction rest generalizing a with
  | nil => rfl
  | cons b r ih =>
    rw [countRuns, ih b, countChanges]
    by_cases hab : a = b
    · subst hab; simp
    · have hba : ¬ b = a := fun h => hab h.symm
      simp [hab, hba]

theorem countChanges_eq_countRuns (names : List String) (h : ∀ n ∈ names, n ≠ "") :
    countChanges "" names = countRuns names := by
  cases names with
  | nil => rfl
  | cons a rest =>
    have ha : a ≠ "" := h a (List.mem_cons_self _ _)
    rw [countRuns_cons, countChanges]
    simp [ha]

theorem length_splitBy_loop (l : List String) :
    ∀ (ag : String) (g : List String) (gs : List (List String)),
      (List.splitBy.loop (fun a b => a == b) l ag g gs).length =
        gs.length + 1 + countChanges ag l := by
  induction l with
  | nil => intro ag g gs; simp [List.splitBy.loop, countChanges]
  | cons a rest ih =>
    intro ag g gs
    by_cases h : a = ag
    · subst h
      simp [List.splitBy.loop, countChanges, ih]
    · have h2 : (ag == a) = false := by
        simpa using fun e : ag = a => h e.symm
      simp only [List.splitBy.loop, h2, ih, countChanges, h, if_false, List.length_cons]
      omega

theorem countRuns_eq_length_splitBy (names : List String) :
    countRuns names = (names.splitBy (fun a b => a == b)).length := by
  cases names with
  | nil => rfl
  | cons a rest =>
    rw [countRuns_cons, List.splitBy, length_splitBy_loop]
    simp

theorem createdBindGroups_releaseCurrent (bg : Option Nat) :
    createdBindGroups (releaseCurrent bg) = [] := by
  cases bg <;> rfl

theorem boundBindGroups_releaseCurrent (bg : Option Nat) :
    boundBindGroups (releaseCurrent bg) = [] := by
  cases bg <;> rfl

theorem loopBody_resolved_currentTextureName (rm : ResourceManager) (i : Nat) (sprite : Sprite)
    (st : LoopState) (t : Texture) (tex : Nat)
    (h : resolveTexture rm sprite.textureName = some (t, tex)) :
    (loopBody rm i sprite st).2.currentTextureName = sprite.textureName := by
  rw [loopBody_resolved rm i sprite st t tex h]
  split
  · rfl
  · rename_i heq
    exact (not_not.1 heq).symm

theorem length_createdBindGroups_mainDrawLoop (rm : ResourceManager) (l : List Sprite) :
    ∀ (i : Nat) (st : LoopState),
      (createdBindGroups (mainDrawLoop rm i l st).1).length =
        countChanges st.currentTextureName
          ((l.filter (resolvable rm)).map (fun s => s.textureName)) := by
  induction l with
  | nil => intro i st; rfl
  | cons s rest ih =>
    intro i st
    simp only [mainDrawLoop, createdBindGroups, List.filterMap_append, List.length_append]
    have ih2 := ih (i + 1) (loopBody rm i s st).2
    simp only [createdBindGroups] at ih2
    rw [ih2]
    cases hr : resolveTexture rm s.textureName with
    | none =>
      rw [loopBody_unresolved rm i s st hr]
      simp [resolvable, hr]
    | some r =>
      obtain ⟨t, tex⟩ := r
      have hname := loopBody_resolved_currentTextureName rm i s st t tex hr
      rw [hname]
      rw [loopBody_resolved rm i s st t tex hr]
      have hres : resolvable rm s = true := by simp [resolvable, hr]
      have hrel := createdBindGroups_releaseCurrent st.currentBindGroup
      simp only [createdBindGroups] at hrel
      simp only [List.filter_cons, hres, if_true, List.map_cons, countChanges]
      split
      · rename_i hne
        simp only [ne_eq] at hne
        simp [hrel, hne]
      · rename_i heq
        simp [not_not.1 heq]

theorem boundBindGroups_mainDrawLoop (rm : ResourceManager) (l : List Sprite) :
    ∀ (i : Nat) (st : LoopState),
      boundBindGroups (mainDrawLoop rm i l st).1 =
        (createdBindGroups (mainDrawLoop rm i l st).1).map Prod.fst := by
  induction l with
  | nil => intro i st; rfl
  | cons s rest ih =>
    intro i st
    simp only [mainDrawLoop, createdBindGroups, boundBindGroups, List.filterMap_append,
      List.map_append]
    have ih2 := ih (i + 1) (loopBody rm i s st).2
    simp only [createdBindGroups, boundBindGroups] at ih2
    rw [ih2]
    congr 1
    cases hr : resolveTexture rm s.textureName with
    | none =>
      rw [loopBody_unresolved rm i s st hr]
      simp
    | some r =>
      obtain ⟨t, tex⟩ := r
      rw [loopBody_resolved rm i s st t tex hr]
      have hrel := createdBindGroups_releaseCurrent st.currentBindGroup
      have hrel2 := boundBindGroups_releaseCurrent st.currentBindGroup
      simp only [createdBindGroups] at hrel
      simp only [boundBindGroups] at hrel2
      split <;> simp [hrel, hrel2]

theorem createdBindGroups_DrawSprites (S : StdSort) (rm : ResourceManager)
    (sprites : List Sprite) :
    createdBindGroups (DrawSprites S rm sprites) =
      createdBindGroups (mainDrawLoop rm 0 (S.sort sprites) LoopState.init).1 := by
  have hrel := createdBindGroups_releaseCurrent
    (mainDrawLoop rm 0 (S.sort sprites) LoopState.init).2.currentBindGroup
  simp only [createdBindGroups] at hrel
  simp only [DrawSprites, createdBindGroups, List.filterMap_append]
  split
  · simp [hrel]
  · rename_i hlen
    have : S.sort sprites = [] := by
      cases hs : S.sort sprites with
      | nil => rfl
      | cons a l => simp [hs] at hlen
    simp [this, mainDrawLoop]

theorem boundBindGroups_DrawSprites (S : StdSort) (rm : ResourceManager)
    (sprites : List Sprite) :
    boundBindGroups (DrawSprites S rm sprites) =
      boundBindGroups (mainDrawLoop rm 0 (S.sort sprites) LoopState.init).1 := by
  have hrel := boundBindGroups_releaseCurrent
    (mainDrawLoop rm 0 (S.sort sprites) LoopState.init).2.currentBindGroup
  simp only [boundBindGroups] at hrel
  simp only [DrawSprites, boundBindGroups, List.filterMap_append]
  split
  · simp [hrel]
  · rename_i hlen
    have : S.sort sprites = [] := by
      cases hs : S.sort sprites with
      | nil => rfl
      | cons a l => simp [hs] at hlen
    simp [this, mainDrawLoop]

/-- C7: for every list of collected sprites whose texture names are all non-empty
and every texture cache, the number of bind groups one `Draw` creates, each of
which it also binds, is the number of maximal runs of consecutive equal texture
names in the depth-sorted sequence restricted to the resolvable sprites
(`countRuns`, which is the number of groups `List.splitBy` cuts by equality). -/
theorem Draw_bind_groups_count_runs (S : StdSort) (rm : ResourceManager)
    (sprites : List Sprite) (hne : ∀ s ∈ sprites, s.textureName ≠ "") :
    (createdBindGroups (DrawSprites S rm sprites)).length =
      countRuns (((S.sort sprites).filter (resolvable rm)).map (fun s => s.textureName)) ∧
    (createdBindGroups (DrawSprites S rm sprites)).length =
      ((((S.sort sprites).filter (resolvable rm)).map (fun s => s.textureName)).splitBy
        (fun a b => a == b)).length ∧
    boundBindGroups (DrawSprites S rm sprites) =
      (createdBindGroups (DrawSprites S rm sprites)).map Prod.fst := by
  have hruns : (createdBindGroups (DrawSprites S rm sprites)).length =
      countRuns (((S.sort sprites).filter (resolvable rm)).map (fun s => s.textureName)) := by
    rw [createdBindGroups_DrawSprites, length_createdBindGroups_mainDrawLoop]
    apply countChanges_eq_countRuns
    intro n hn
    rw [List.mem_map] at hn
    obtain ⟨s, hs, rfl⟩ := hn
    exact hne s ((S.perm sprites).subset (List.mem_filter.1 hs).1)
  refine ⟨hruns, ?_, ?_⟩
  · rw [hruns, countRuns_eq_length_splitBy]
  · rw [createdBindGroups_DrawSprites, boundBindGroups_DrawSprites,
      boundBindGroups_mainDrawLoop]

/-- An unresolvable sprite sorted between two sprites of texture "t1": the two
still share one bind group. -/
theorem Draw_bind_groups_count_runs_witness :
    (createdBindGroups (DrawSprites insertionStdSort cacheT1T2
      [spriteC, spriteGone (1 / 2), spriteFront])).length = 1 :=
  ((Draw_bind_groups_count_runs insertionStdSort cacheT1T2
    [spriteC, spriteGone (1 / 2), spriteFront] (by decide!)).1).trans (by decide!)

theorem DrawSprites_eq_of_sort_eq (S1 S2 : StdSort) (rm : ResourceManager) (l : List Sprite)
    (h : S1.sort l = S2.sort l) : DrawSprites S1 rm l = DrawSprites S2 rm l := by
  simp only [DrawSprites, h]

/-- C8, as the code has it: in the scenario A ("t1", 0.5), B ("t2", 0.1),
C ("t1", 0.9) with both textures loaded, one `Draw` performs exactly two
bind-group activations: the first, made from texture "t1" (handle 1), covers C
and A, which are adjacent in depth order; the second, made from "t2" (handle 2),
covers B. -/
theorem Draw_scenario_two_activations (S : StdSort) :
    activations (DrawSprites S cacheT1T2 [spriteA, spriteB, spriteC]) =
      [(0, [spriteC, spriteA]), (1, [spriteB])] ∧
    createdBindGroups (DrawSprites S cacheT1T2 [spriteA, spriteB, spriteC]) =
      [(0, 1), (1, 2)] := by
  have h := DrawSprites_eq_of_sort_eq S insertionStdSort cacheT1T2 [spriteA, spriteB, spriteC]
    ((sort_scenario S).trans (sort_scenario insertionStdSort).symm)
  rw [h]
  decide!

/-- C8 as stated fails: the scenario has two activations, not three, and no
activation covers A alone. -/
theorem Draw_scenario_not_three_activations :
    (activations (DrawSprites insertionStdSort cacheT1T2
      [spriteA, spriteB, spriteC])).length ≠ 3 ∧
    (createdBindGroups (DrawSprites insertionStdSort cacheT1T2
      [spriteA, spriteB, spriteC])).length ≠ 3 ∧
    (activations (DrawSprites insertionStdSort cacheT1T2
      [spriteA, spriteB, spriteC])).map Prod.snd ≠ [[spriteC], [spriteB], [spriteA]] := by
  decide!

/-! ## Draw calls and the bind group that is bound -/

theorem drawsBound_mainDrawLoop (rm : ResourceManager) (tail : List Event)
    (htail : ∀ created bound, drawsBound rm tail created bound = true) (l : List Sprite) :
    ∀ (i : Nat) (st : LoopState) (created : List (Nat × Nat)) (bound : Option Nat),
      (∀ s ∈ l, s.textureName ≠ "") →
      (st.currentTextureName ≠ "" → ∃ t tex bg,
        resolveTexture rm st.currentTextureName = some (t, tex) ∧ bound = some bg ∧
          (bg, tex) ∈ created) →
      drawsBound rm ((mainDrawLoop rm i l st).1 ++ tail) created bound = true := by
  induction l with
  | nil =>
    intro i st created bound _ _
    simpa [mainDrawLoop] using htail created bound
  | cons s rest ih =>
    intro i st created bound hne hinv
    have hs : s.textureName ≠ "" := hne s (List.mem_cons_self _ _)
    have hrest : ∀ x ∈ rest, x.textureName ≠ "" := fun x hx => hne x (List.mem_cons_of_mem _ hx)
    simp only [mainDrawLoop, List.append_assoc]
    cases hr : resolveTexture rm s.textureName with
    | none =>
      rw [loopBody_unresolved rm i s st hr]
      simp only [List.cons_append, List.nil_append, drawsBound]
      exact ih (i + 1) st created bound hrest hinv
    | some r =>
      obtain ⟨t, tex⟩ := r
      rw [loopBody_resolved rm i s st t tex hr]
      split
      · have hnew := ih (i + 1) ⟨s.textureName, some st.created, st.created + 1⟩
          ((st.created, tex) :: created) (some st.created) hrest
          (fun _ => ⟨t, tex, st.created, hr, rfl, List.mem_cons_self _ _⟩)
        cases hcur : st.currentBindGroup with
        | none =>
          simp only [releaseCurrent, List.cons_append, List.nil_append, List.append_nil,
            drawsBound, hr]
          simp [hnew]
        | some old =>
          simp only [releaseCurrent, List.cons_append, List.nil_append, List.append_nil,
            drawsBound, hr]
          simp [hnew]
      · rename_i heq
        have heq2 : s.textureName = st.currentTextureName := not_not.1 heq
        have hcurne : st.currentTextureName ≠ "" := heq2 ▸ hs
        obtain ⟨t2, tex2, bg, hres, hb, hmem⟩ := hinv hcurne
        rw [← heq2, hr] at hres
        simp only [Option.some.injEq, Prod.mk.injEq] at hres
        obtain ⟨rfl, rfl⟩ := hres
        have hnext := ih (i + 1) st created bound hrest hinv
        simp only [List.cons_append, List.nil_append, drawsBound, hr, hb]
        rw [hb] at hnext
        simp [hmem, hnext]

/-- The trace of a frame with at least one collected sprite, laid out as header,
loop and tail. -/
theorem DrawSprites_of_pos (S : StdSort) (rm : ResourceManager) (sprites : List Sprite)
    (h : (S.sort sprites).length > 0) :
    DrawSprites S rm sprites =
      [Event.deviceCreateCommandEncoder, Event.surfaceGetCurrentTexture,
       Event.surfaceTextureCreateView, Event.commandEncoderBeginRenderPass,
       Event.deviceCreateBuffer (sizeofInstanceData * (S.sort sprites).length),
       Event.renderPassEncoderSetPipeline,
       Event.renderPassEncoderSetVertexBuffer 0 0 (4 * 4 * 4),
       Event.renderPassEncoderSetVertexBuffer 1 0
         (sizeofInstanceData * (S.sort sprites).length)] ++
      ((mainDrawLoop rm 0 (S.sort sprites) LoopState.init).1 ++
       (releaseCurrent (mainDrawLoop rm 0 (S.sort sprites) LoopState.init).2.currentBindGroup ++
        [Event.bufferRelease, Event.renderPassEncoderEnd, Event.commandEncoderFinish,
         Event.queueSubmit, Event.surfacePresent, Event.surfaceTextureViewRelease,
         Event.surfaceTextureRelease, Event.commandEncoderRelease,
         Event.commandBufferRelease])) := by
  simp [DrawSprites, h]

/-- The trace of a frame with no collected sprite. -/
theorem DrawSprites_of_not_pos (S : StdSort) (rm : ResourceManager) (sprites : List Sprite)
    (h : ¬ (S.sort sprites).length > 0) :
    DrawSprites S rm sprites =
      [Event.deviceCreateCommandEncoder, Event.surfaceGetCurrentTexture,
       Event.surfaceTextureCreateView, Event.commandEncoderBeginRenderPass,
       Event.renderPassEncoderEnd, Event.commandEncoderFinish,
       Event.queueSubmit, Event.surfacePresent, Event.surfaceTextureViewRelease,
       Event.surfaceTextureRelease, Event.commandEncoderRelease,
       Event.commandBufferRelease] := by
  simp [DrawSprites, h]

theorem drawsBound_append_of_neutral (rm : ResourceManager) (a b : List Event)
    (h : ∀ e ∈ a, Event.isBindOrDraw e = false) (created : List (Nat × Nat))
    (bound : Option Nat) :
    drawsBound rm (a ++ b) created bound = drawsBound rm b created bound := by
  induction a with
  | nil => rfl
  | cons e rest ih =>
    have he := h e (List.mem_cons_self _ _)
    have hrest : ∀ x ∈ rest, Event.isBindOrDraw x = false :=
      fun x hx => h x (List.mem_cons_of_mem _ hx)
    rw [List.cons_append]
    cases e <;> first
      | exact Bool.noConfusion he
      | (simp only [drawsBound]; exact ih hrest)

theorem isBindOrDraw_releaseCurrent (bg : Option Nat) :
    ∀ e ∈ releaseCurrent bg, Event.isBindOrDraw e = false := by
  cases bg <;> simp [releaseCurrent, Event.isBindOrDraw]

/-- For texture names that are all non-empty every draw call of one `Draw` finds
bound a bind group created earlier in the pass from the texture of the drawn
sprite. -/
theorem drawsBound_DrawSprites (S : StdSort) (rm : ResourceManager) (sprites : List Sprite)
    (hne : ∀ s ∈ sprites, s.textureName ≠ "") :
    drawsBound rm (DrawSprites S rm sprites) [] none = true := by
  have hne2 : ∀ s ∈ S.sort sprites, s.textureName ≠ "" :=
    fun s hs => hne s ((S.perm sprites).subset hs)
  by_cases hpos : (S.sort sprites).length > 0
  · rw [DrawSprites_of_pos S rm sprites hpos, drawsBound_append_of_neutral]
    · apply drawsBound_mainDrawLoop rm _ _ (S.sort sprites) 0 LoopState.init [] none hne2
      · intro h
        exact absurd rfl h
      · intro created bound
        have h0 := drawsBound_append_of_neutral rm
          (releaseCurrent (mainDrawLoop rm 0 (S.sort sprites) LoopState.init).2.currentBindGroup ++
            [Event.bufferRelease, Event.renderPassEncoderEnd, Event.commandEncoderFinish,
             Event.queueSubmit, Event.surfacePresent, Event.surfaceTextureViewRelease,
             Event.surfaceTextureRelease, Event.commandEncoderRelease,
             Event.commandBufferRelease]) [] ?_ created bound
        · rw [List.append_nil] at h0
          rw [h0]
          rfl
        · intro e he
          rcases List.mem_append.1 he with h1 | h1
          · exact isBindOrDraw_releaseCurrent _ e h1
          · simp only [List.mem_cons, List.mem_singleton, List.not_mem_nil, or_false] at h1
            rcases h1 with h1 | h1 | h1 | h1 | h1 | h1 | h1 | h1 | h1 <;> subst h1 <;> rfl
    · intro e he
      simp only [List.mem_cons, List.mem_singleton, List.not_mem_nil, or_false] at he
      rcases he with he | he | he | he | he | he | he | he <;> subst he <;> rfl
  · rw [DrawSprites_of_not_pos S rm sprites hpos]
    rfl

/-- C9 at its failing input: one sprite whose texture name is the empty string,
with a texture registered under the empty string.  `Draw` issues the draw call
for the sprite, yet creates and binds no bind group at all in the pass. -/
theorem Draw_empty_texture_name_draws_unbound :
    drawnSprites (DrawSprites insertionStdSort cacheNoName [spriteNoName]) = [spriteNoName] ∧
    createdBindGroups (DrawSprites insertionStdSort cacheNoName [spriteNoName]) = [] ∧
    boundBindGroups (DrawSprites insertionStdSort cacheNoName [spriteNoName]) = [] ∧
    drawsBound cacheNoName (DrawSprites insertionStdSort cacheNoName [spriteNoName])
      [] none = false := by
  decide!

/-! ## Live bind groups -/

theorem liveAfter_append (a b : List Event) :
    ∀ live, liveAfter (a ++ b) live =
      match liveAfter a live with
      | none => none
      | some live2 => liveAfter b live2 := by
  induction a with
  | nil => intro live; rfl
  | cons e rest ih =>
    intro live
    simp only [List.cons_append, liveAfter]
    cases liveStep live e with
    | none => rfl
    | some live2 => exact ih live2

theorem liveBounded_append (a b : List Event) :
    ∀ live live2, liveBounded a live = true → liveAfter a live = some live2 →
      liveBounded b live2 = true → liveBounded (a ++ b) live = true := by
  induction a with
  | nil =>
    intro live live2 _ hl hb
    simp only [liveAfter, Option.some.injEq] at hl
    subst hl
    exact hb
  | cons e rest ih =>
    intro live live2 ha hl hb
    simp only [List.cons_append, liveBounded, liveAfter, Bool.and_eq_true] at ha hl ⊢
    refine ⟨ha.1, ?_⟩
    cases hstep : liveStep live e with
    | none => simp [hstep] at hl
    | some live3 =>
      rw [hstep] at hl
      have ha2 := ha.2
      rw [hstep] at ha2
      exact ih live3 live2 ha2 hl hb

theorem liveBounded_take (tr : List Event) :
    ∀ live, liveBounded tr live = true →
      ∀ n, ∃ live2, liveAfter (tr.take n) live = some live2 ∧ live2.length ≤ 1 := by
  induction tr with
  | nil =>
    intro live h n
    refine ⟨live, by simp [liveAfter], ?_⟩
    simpa [liveBounded] using h
  | cons e rest ih =>
    intro live h n
    simp only [liveBounded, Bool.and_eq_true, decide_eq_true_eq] at h
    cases n with
    | zero => exact ⟨live, by simp [liveAfter], h.1⟩
    | succ m =>
      cases hstep : liveStep live e with
      | none => simp [hstep] at h
      | some live3 =>
        have h2 := h.2
        rw [hstep] at h2
        obtain ⟨live2, hl, hlen⟩ := ih live3 h2 m
        exact ⟨live2, by simp [liveAfter, hstep, hl], hlen⟩

theorem live_loopBody (rm : ResourceManager) (i : Nat) (s : Sprite) (st : LoopState) :
    liveBounded (loopBody rm i s st).1 st.currentBindGroup.toList = true ∧
    liveAfter (loopBody rm i s st).1 st.currentBindGroup.toList =
      some (loopBody rm i s st).2.currentBindGroup.toList := by
  cases hr : resolveTexture rm s.textureName with
  | none =>
    rw [loopBody_unresolved rm i s st hr]
    cases st.currentBindGroup <;> simp [liveBounded, liveAfter, liveStep, Option.toList]
  | some r =>
    obtain ⟨t, tex⟩ := r
    rw [loopBody_resolved rm i s st t tex hr]
    split
    · cases st.currentBindGroup <;>
        simp [liveBounded, liveAfter, liveStep, Option.toList, releaseCurrent]
    · cases st.currentBindGroup <;> simp [liveBounded, liveAfter, liveStep, Option.toList]

theorem live_mainDrawLoop (rm : ResourceManager) (l : List Sprite) :
    ∀ (i : Nat) (st : LoopState),
      liveBounded (mainDrawLoop rm i l st).1 st.currentBindGroup.toList = true ∧
      liveAfter (mainDrawLoop rm i l st).1 st.currentBindGroup.toList =
        some (mainDrawLoop rm i l st).2.currentBindGroup.toList := by
  induction l with
  | nil =>
    intro i st
    cases h : st.currentBindGroup <;>
      simp [mainDrawLoop, liveBounded, liveAfter, Option.toList, h]
  | cons s rest ih =>
    intro i st
    obtain ⟨hb1, ha1⟩ := live_loopBody rm i s st
    obtain ⟨hb2, ha2⟩ := ih (i + 1) (loopBody rm i s st).2
    simp only [mainDrawLoop]
    refine ⟨liveBounded_append _ _ _ _ hb1 ha1 hb2, ?_⟩
    rw [liveAfter_append, ha1]
    exact ha2

theorem live_tail (cur : Option Nat) :
    liveBounded (releaseCurrent cur ++
      [Event.bufferRelease, Event.renderPassEncoderEnd, Event.commandEncoderFinish,
       Event.queueSubmit, Event.surfacePresent, Event.surfaceTextureViewRelease,
       Event.surfaceTextureRelease, Event.commandEncoderRelease,
       Event.commandBufferRelease]) cur.toList = true ∧
    liveAfter (releaseCurrent cur ++
      [Event.bufferRelease, Event.renderPassEncoderEnd, Event.commandEncoderFinish,
       Event.queueSubmit, Event.surfacePresent, Event.surfaceTextureViewRelease,
       Event.surfaceTextureRelease, Event.commandEncoderRelease,
       Event.commandBufferRelease]) cur.toList = some [] := by
  cases cur <;> simp [liveBounded, liveAfter, liveStep, Option.toList, releaseCurrent]

theorem live_DrawSprites (S : StdSort) (rm : ResourceManager) (sprites : List Sprite) :
    liveBounded (DrawSprites S rm sprites) [] = true ∧
    liveAfter (DrawSprites S rm sprites) [] = some [] := by
  by_cases hpos : (S.sort sprites).length > 0
  · rw [DrawSprites_of_pos S rm sprites hpos]
    obtain ⟨hb1, ha1⟩ := live_mainDrawLoop rm (S.sort sprites) 0 LoopState.init
    obtain ⟨hb2, ha2⟩ := live_tail
      (mainDrawLoop rm 0 (S.sort sprites) LoopState.init).2.currentBindGroup
    have hinit : LoopState.init.currentBindGroup.toList = [] := rfl
    rw [hinit] at hb1 ha1
    have hb3 := liveBounded_append _ _ _ _ hb1 ha1 hb2
    have ha3 : liveAfter ((mainDrawLoop rm 0 (S.sort sprites) LoopState.init).1 ++
        (releaseCurrent (mainDrawLoop rm 0 (S.sort sprites) LoopState.init).2.currentBindGroup ++
          [Event.bufferRelease, Event.renderPassEncoderEnd, Event.commandEncoderFinish,
           Event.queueSubmit, Event.surfacePresent, Event.surfaceTextureViewRelease,
           Event.surfaceTextureRelease, Event.commandEncoderRelease,
           Event.commandBufferRelease])) [] = some [] := by
      rw [liveAfter_append, ha1]
      exact ha2
    refine ⟨liveBounded_append _ _ [] [] ?_ ?_ hb3, ?_⟩
    · simp [liveBounded, liveStep]
    · simp [liveAfter, liveStep]
    · rw [liveAfter_append]
      simp only [liveAfter, liveStep]
      exact ha3
  · rw [DrawSprites_of_not_pos S rm sprites hpos]
    exact ⟨by simp [liveBounded, liveStep], by simp [liveAfter, liveStep]⟩

theorem releasedBindGroups_releaseCurrent (bg : Option Nat) :
    releasedBindGroups (releaseCurrent bg) = bg.toList := by
  cases bg <;> rfl

theorem released_loopBody (rm : ResourceManager) (i : Nat) (s : Sprite) (st : LoopState) :
    releasedBindGroups (loopBody rm i s st).1 ++ (loopBody rm i s st).2.currentBindGroup.toList =
      st.currentBindGroup.toList ++ (createdBindGroups (loopBody rm i s st).1).map Prod.fst := by
  cases hr : resolveTexture rm s.textureName with
  | none =>
    rw [loopBody_unresolved rm i s st hr]
    simp [releasedBindGroups, createdBindGroups]
  | some r =>
    obtain ⟨t, tex⟩ := r
    rw [loopBody_resolved rm i s st t tex hr]
    have h1 := releasedBindGroups_releaseCurrent st.currentBindGroup
    have h2 := createdBindGroups_releaseCurrent st.currentBindGroup
    simp only [releasedBindGroups] at h1
    simp only [createdBindGroups] at h2
    split
    · simp [releasedBindGroups, createdBindGroups, h1, h2, Option.toList]
    · simp [releasedBindGroups, createdBindGroups]

theorem released_mainDrawLoop (rm : ResourceManager) (l : List Sprite) :
    ∀ (i : Nat) (st : LoopState),
      releasedBindGroups (mainDrawLoop rm i l st).1 ++
          (mainDrawLoop rm i l st).2.currentBindGroup.toList =
        st.currentBindGroup.toList ++
          (createdBindGroups (mainDrawLoop rm i l st).1).map Prod.fst := by
  induction l with
  | nil => intro i st; simp [mainDrawLoop, releasedBindGroups, createdBindGroups]
  | cons s rest ih =>
    intro i st
    have hb := released_loopBody rm i s st
    have hr := ih (i + 1) (loopBody rm i s st).2
    simp only [releasedBindGroups, createdBindGroups] at hb hr
    simp only [mainDrawLoop, releasedBindGroups, createdBindGroups, List.filterMap_append,
      List.map_append, List.append_assoc]
    rw [hr, ← List.append_assoc, hb, List.append_assoc]

theorem created_loopBody (rm : ResourceManager) (i : Nat) (s : Sprite) (st : LoopState) :
    (createdBindGroups (loopBody rm i s st).1).map Prod.fst =
      List.range' st.created ((loopBody rm i s st).2.created - st.created) ∧
    st.created ≤ (loopBody rm i s st).2.created := by
  cases hr : resolveTexture rm s.textureName with
  | none =>
    rw [loopBody_unresolved rm i s st hr]
    simp [createdBindGroups]
  | some r =>
    obtain ⟨t, tex⟩ := r
    rw [loopBody_resolved rm i s st t tex hr]
    have h2 := createdBindGroups_releaseCurrent st.currentBindGroup
    simp only [createdBindGroups] at h2
    split
    · simp [createdBindGroups, h2]
    · simp [createdBindGroups]

theorem created_mainDrawLoop (rm : ResourceManager) (l : List Sprite) :
    ∀ (i : Nat) (st : LoopState),
      (createdBindGroups (mainDrawLoop rm i l st).1).map Prod.fst =
        List.range' st.created ((mainDrawLoop rm i l st).2.created - st.created) ∧
      st.created ≤ (mainDrawLoop rm i l st).2.created := by
  induction l with
  | nil => intro i st; simp [mainDrawLoop, createdBindGroups]
  | cons s rest ih =>
    intro i st
    obtain ⟨hb, hble⟩ := created_loopBody rm i s st
    obtain ⟨hr, hrle⟩ := ih (i + 1) (loopBody rm i s st).2
    simp only [createdBindGroups] at hb hr
    simp only [mainDrawLoop, createdBindGroups, List.filterMap_append, List.map_append]
    refine ⟨?_, le_trans hble hrle⟩
    rw [hb, hr]
    have hsplit : (mainDrawLoop rm (i + 1) rest (loopBody rm i s st).2).2.created - st.created =
        ((mainDrawLoop rm (i + 1) rest (loopBody rm i s st).2).2.created -
            (loopBody rm i s st).2.created) +
          ((loopBody rm i s st).2.created - st.created) := by omega
    rw [hsplit, ← List.range'_append]
    congr 2
    omega

/-- C10: at every point of one `Draw` at most one bind group is live: after every
prefix of the trace the created and not yet released bind groups number at most
one, and no release is of a bind group that is not live.  The handles created
are distinct and the releases are exactly these handles, each once; on return
none is live. -/
theorem Draw_at_most_one_live_bind_group (S : StdSort) (rm : ResourceManager)
    (sprites : List Sprite) :
    (∀ n, ∃ live, liveAfter ((DrawSprites S rm sprites).take n) [] = some live ∧
      live.length ≤ 1) ∧
    liveAfter (DrawSprites S rm sprites) [] = some [] ∧
    ((createdBindGroups (DrawSprites S rm sprites)).map Prod.fst).Nodup ∧
    releasedBindGroups (DrawSprites S rm sprites) =
      (createdBindGroups (DrawSprites S rm sprites)).map Prod.fst := by
  obtain ⟨hb, ha⟩ := live_DrawSprites S rm sprites
  refine ⟨liveBounded_take _ [] hb, ha, ?_, ?_⟩
  · rw [createdBindGroups_DrawSprites,
      (created_mainDrawLoop rm (S.sort sprites) 0 LoopState.init).1]
    exact List.nodup_range' _ _
  · rw [createdBindGroups_DrawSprites]
    have h := released_mainDrawLoop rm (S.sort sprites) 0 LoopState.init
    have hinit : LoopState.init.currentBindGroup.toList = [] := rfl
    rw [hinit, List.nil_append] at h
    rw [← h]
    by_cases hpos : (S.sort sprites).length > 0
    · rw [DrawSprites_of_pos S rm sprites hpos]
      have hrel := releasedBindGroups_releaseCurrent
        (mainDrawLoop rm 0 (S.sort sprites) LoopState.init).2.currentBindGroup
      simp only [releasedBindGroups] at hrel
      simp [releasedBindGroups, hrel]
    · have hnil : S.sort sprites = [] := by
        cases hs : S.sort sprites with
        | nil => rfl
        | cons a l => simp [hs] at hpos
      rw [DrawSprites_of_not_pos S rm sprites hpos, hnil]
      rfl

/-- The scenario: two bind groups, never two live at once, both released. -/
theorem Draw_at_most_one_live_bind_group_witness :
    liveAfter (DrawSprites insertionStdSort cacheT1T2 [spriteA, spriteB, spriteC]) [] =
      some [] ∧
    releasedBindGroups (DrawSprites insertionStdSort cacheT1T2 [spriteA, spriteB, spriteC]) =
      [0, 1] :=
  ⟨(Draw_at_most_one_live_bind_group insertionStdSort cacheT1T2
      [spriteA, spriteB, spriteC]).2.1,
   ((Draw_at_most_one_live_bind_group insertionStdSort cacheT1T2
      [spriteA, spriteB, spriteC]).2.2.2).trans (by decide!)⟩

/-! ## The scheduler: the inner loop in closed form -/

theorem SECONDS_PER_TICK_pos : (0 : ℚ) < SECONDS_PER_TICK := by
  norm_num [SECONDS_PER_TICK]

/-- With fuel for `k` passes, an accumulator that holds exactly `k` whole ticks is
drained by `k` invocations of the callback. -/
theorem drain_of_bounds {σ : Type} (update_callback : σ → σ) (fuel : Nat) :
    ∀ (k : Nat) (acc : ℚ) (w : σ), k ≤ fuel → (k : ℚ) * SECONDS_PER_TICK ≤ acc →
      acc < ((k : ℚ) + 1) * SECONDS_PER_TICK →
      drain update_callback fuel acc w =
        some ⟨acc - (k : ℚ) * SECONDS_PER_TICK, update_callback^[k] w, k⟩ := by
  have hpos := SECONDS_PER_TICK_pos
  induction fuel with
  | zero =>
    intro k acc w hk _ hhi
    have hk0 : k = 0 := Nat.le_zero.1 hk
    subst hk0
    have hlt : ¬ acc ≥ SECONDS_PER_TICK := by
      simp only [Nat.cast_zero, zero_add, one_mul] at hhi
      exact not_le.2 hhi
    simp [drain, hlt]
  | succ fuel ih =>
    intro k acc w hk hlo hhi
    cases k with
    | zero =>
      have hlt : ¬ acc ≥ SECONDS_PER_TICK := by
        simp only [Nat.cast_zero, zero_add, one_mul] at hhi
        exact not_le.2 hhi
      simp [drain, hlt]
    | succ k =>
      have hcast : ((k + 1 : Nat) : ℚ) = (k : ℚ) + 1 := by push_cast; ring
      rw [hcast] at hlo hhi
      have hk0 : (0 : ℚ) ≤ (k : ℚ) := Nat.cast_nonneg k
      have hge : acc ≥ SECONDS_PER_TICK := by nlinarith
      have hrec := ih k (acc - SECONDS_PER_TICK) (update_callback w) (Nat.le_of_succ_le_succ hk)
        (by linarith) (by linarith)
      simp only [drain, hge, if_true, hrec]
      simp only [Function.iterate_succ, Function.comp_apply, hcast]
      congr 2
      ring

/-- The number of whole ticks in a non-negative accumulator. -/
theorem ticks_bounds (acc : ℚ) (h : 0 ≤ acc) :
    ((⌊acc / SECONDS_PER_TICK⌋.toNat : Nat) : ℚ) * SECONDS_PER_TICK ≤ acc ∧
    acc < (((⌊acc / SECONDS_PER_TICK⌋.toNat : Nat) : ℚ) + 1) * SECONDS_PER_TICK := by
  have hpos := SECONDS_PER_TICK_pos
  have hq : 0 ≤ acc / SECONDS_PER_TICK := div_nonneg h (le_of_lt hpos)
  have hfl : 0 ≤ ⌊acc / SECONDS_PER_TICK⌋ := Int.floor_nonneg.2 hq
  have hcast : ((⌊acc / SECONDS_PER_TICK⌋.toNat : Nat) : ℚ) =
      ((⌊acc / SECONDS_PER_TICK⌋ : ℤ) : ℚ) := by
    have := Int.toNat_of_nonneg hfl
    exact_mod_cast this
  rw [hcast]
  constructor
  · have := Int.floor_le (acc / SECONDS_PER_TICK)
    exact (le_div_iff₀ hpos).1 this
  · have := Int.lt_floor_add_one (acc / SECONDS_PER_TICK)
    exact (div_lt_iff₀ hpos).1 this

/-- The inner loop in closed form: with enough fuel it returns, having invoked the
callback once per whole tick of the accumulator. -/
theorem drain_eq {σ : Type} (update_callback : σ → σ) (fuel : Nat) (acc : ℚ) (w : σ)
    (h : 0 ≤ acc) (hfuel : ⌊acc / SECONDS_PER_TICK⌋.toNat ≤ fuel) :
    drain update_callback fuel acc w =
      some ⟨acc - ((⌊acc / SECONDS_PER_TICK⌋.toNat : Nat) : ℚ) * SECONDS_PER_TICK,
        update_callback^[⌊acc / SECONDS_PER_TICK⌋.toNat] w,
        ⌊acc / SECONDS_PER_TICK⌋.toNat⟩ :=
  drain_of_bounds update_callback fuel _ acc w hfuel (ticks_bounds acc h).1
    (ticks_bounds acc h).2

theorem ticks_mono (a b : ℚ) (hab : a ≤ b) :
    ⌊a / SECONDS_PER_TICK⌋.toNat ≤ ⌊b / SECONDS_PER_TICK⌋.toNat := by
  apply Int.toNat_le_toNat
  apply Int.floor_le_floor
  exact div_le_div_of_nonneg_right hab (le_of_lt SECONDS_PER_TICK_pos)

theorem sum_nonneg_of_forall (l : List ℚ) (h : ∀ e ∈ l, 0 ≤ e) : 0 ≤ l.sum := by
  induction l with
  | nil => simp
  | cons a l ih =>
    rw [List.sum_cons]
    exact add_nonneg (h a (List.mem_cons_self _ _))
      (ih (fun e he => h e (List.mem_cons_of_mem _ he)))

/-- The outer loop conserves time: with enough fuel it returns, and the ticks run
plus the accumulator left equal the accumulator at entry plus the elapsed times
of the iterations entered. -/
theorem RunGameLoopFrom_conserves {σ : Type} (P : Platform σ) (update_callback : σ → σ)
    (fuel : Nat) (deltas : List ℚ) :
    ∀ (acc : ℚ) (w : σ), 0 ≤ acc → (∀ e ∈ deltas, 0 ≤ e) →
      ⌊(acc + deltas.sum) / SECONDS_PER_TICK⌋.toNat ≤ fuel →
      ∃ r, RunGameLoopFrom P update_callback fuel deltas acc w = some r ∧
        (r.callbacks : ℚ) * SECONDS_PER_TICK + r.accumulated_time_s =
          acc + (deltas.take r.iterations).sum ∧
        0 ≤ r.accumulated_time_s ∧
        r.iterations ≤ deltas.length ∧
        ((∀ w2, P.ShouldClose w2 = false) → r.iterations = deltas.length) := by
  induction deltas with
  | nil =>
    intro acc w hacc _ _
    exact ⟨_, rfl, by simp, hacc, le_refl _, fun _ => rfl⟩
  | cons d rest ih =>
    intro acc w hacc hnn hfuel
    have hd : 0 ≤ d := hnn d (List.mem_cons_self _ _)
    have hrest : ∀ e ∈ rest, 0 ≤ e := fun e he => hnn e (List.mem_cons_of_mem _ he)
    have hsum : 0 ≤ rest.sum := sum_nonneg_of_forall rest hrest
    by_cases hclose : P.ShouldClose w = true
    · refine ⟨⟨acc, w, 0, 0, true⟩, by simp [RunGameLoopFrom, hclose], by simp, hacc,
        Nat.zero_le _, ?_⟩
      intro hall
      rw [hall w] at hclose
      exact Bool.noConfusion hclose
    · have hacc1 : 0 ≤ acc + d := add_nonneg hacc hd
      have hf1 : ⌊(acc + d) / SECONDS_PER_TICK⌋.toNat ≤ fuel := by
        refine le_trans (ticks_mono _ _ ?_) hfuel
        rw [List.sum_cons]
        linarith
      have hdrain := drain_eq update_callback fuel (acc + d) (P.glfwPollEvents w) hacc1 hf1
      obtain ⟨hlo, hhi⟩ := ticks_bounds (acc + d) hacc1
      have hacc2 : 0 ≤ acc + d -
          ((⌊(acc + d) / SECONDS_PER_TICK⌋.toNat : Nat) : ℚ) * SECONDS_PER_TICK := by
        linarith
      have hf2 : ⌊(acc + d - ((⌊(acc + d) / SECONDS_PER_TICK⌋.toNat : Nat) : ℚ) *
          SECONDS_PER_TICK + rest.sum) / SECONDS_PER_TICK⌋.toNat ≤ fuel := by
        refine le_trans (ticks_mono _ _ ?_) hfuel
        rw [List.sum_cons]
        have : 0 ≤ ((⌊(acc + d) / SECONDS_PER_TICK⌋.toNat : Nat) : ℚ) * SECONDS_PER_TICK :=
          mul_nonneg (Nat.cast_nonneg _) (le_of_lt SECONDS_PER_TICK_pos)
        linarith
      obtain ⟨r, hr, hcons, hnonneg, hit, hall⟩ := ih _
        (update_callback^[⌊(acc + d) / SECONDS_PER_TICK⌋.toNat] (P.glfwPollEvents w))
        hacc2 hrest hf2
      refine ⟨⟨r.accumulated_time_s, r.world,
        ⌊(acc + d) / SECONDS_PER_TICK⌋.toNat + r.callbacks, r.iterations + 1, r.exited⟩,
        ?_, ?_, hnonneg, ?_, ?_⟩
      · simp [RunGameLoopFrom, hclose, hdrain, hr]
      · simp only [List.take_succ_cons, List.sum_cons, Nat.cast_add]
        linarith
      · simp only [List.length_cons]
        omega
      · intro h
        simp only [List.length_cons]
        rw [hall h]

/-- One iteration that is entered: the drain of the accumulator plus the elapsed
time, followed by the rest of the run. -/
theorem RunGameLoopFrom_cons {σ : Type} (P : Platform σ) (update_callback : σ → σ)
    (fuel : Nat) (d : ℚ) (rest : List ℚ) (acc : ℚ) (w : σ) (h : P.ShouldClose w = false)
    (hacc : 0 ≤ acc + d) (hfuel : ⌊(acc + d) / SECONDS_PER_TICK⌋.toNat ≤ fuel) :
    RunGameLoopFrom P update_callback fuel (d :: rest) acc w =
      match RunGameLoopFrom P update_callback fuel rest
        (acc + d - ((⌊(acc + d) / SECONDS_PER_TICK⌋.toNat : Nat) : ℚ) * SECONDS_PER_TICK)
        (update_callback^[⌊(acc + d) / SECONDS_PER_TICK⌋.toNat] (P.glfwPollEvents w)) with
      | none => none
      | some r =>
        some ⟨r.accumulated_time_s, r.world,
          ⌊(acc + d) / SECONDS_PER_TICK⌋.toNat + r.callbacks, r.iterations + 1, r.exited⟩ := by
  have hdrain := drain_eq update_callback fuel (acc + d) (P.glfwPollEvents w) hacc hfuel
  simp [RunGameLoopFrom, h, hdrain]

/-! ## The claims on the scheduler -/

/-- C16: in exact arithmetic, an iteration of `RunGameLoop` entered with
accumulator `a ≥ 0` that observes the elapsed time `e ≥ 0` returns (given fuel
for its passes), having invoked the update callback exactly `⌊(a + e) / step⌋`
times with `step = 1/60`; the accumulator it leaves is
`(a + e) - step * ⌊(a + e) / step⌋`, which lies in `[0, step)`. -/
theorem RunGameLoop_iteration_drains_whole_steps {σ : Type} (P : Platform σ)
    (update_callback : σ → σ) (fuel : Nat) (a e : ℚ) (w : σ)
    (hopen : P.ShouldClose w = false) (ha : 0 ≤ a) (he : 0 ≤ e)
    (hfuel : ⌊(a + e) / SECONDS_PER_TICK⌋.toNat ≤ fuel) :
    ∃ r, RunGameLoopFrom P update_callback fuel [e] a w = some r ∧
      r.iterations = 1 ∧
      (r.callbacks : ℤ) = ⌊(a + e) / (1 / 60 : ℚ)⌋ ∧
      r.world = update_callback^[r.callbacks] (P.glfwPollEvents w) ∧
      r.accumulated_time_s = (a + e) - (1 / 60 : ℚ) * (⌊(a + e) / (1 / 60 : ℚ)⌋ : ℚ) ∧
      0 ≤ r.accumulated_time_s ∧ r.accumulated_time_s < 1 / 60 := by
  have hacc : 0 ≤ a + e := add_nonneg ha he
  have hstep : SECONDS_PER_TICK = (1 / 60 : ℚ) := rfl
  have hfl : 0 ≤ ⌊(a + e) / SECONDS_PER_TICK⌋ :=
    Int.floor_nonneg.2 (div_nonneg hacc (le_of_lt SECONDS_PER_TICK_pos))
  have hcastZ : ((⌊(a + e) / SECONDS_PER_TICK⌋.toNat : Nat) : ℤ) =
      ⌊(a + e) / SECONDS_PER_TICK⌋ := Int.toNat_of_nonneg hfl
  have hcastQ : ((⌊(a + e) / SECONDS_PER_TICK⌋.toNat : Nat) : ℚ) =
      ((⌊(a + e) / SECONDS_PER_TICK⌋ : ℤ) : ℚ) := by exact_mod_cast hcastZ
  obtain ⟨hlo, hhi⟩ := ticks_bounds (a + e) hacc
  refine ⟨⟨a + e - ((⌊(a + e) / SECONDS_PER_TICK⌋.toNat : Nat) : ℚ) * SECONDS_PER_TICK,
    update_callback^[⌊(a + e) / SECONDS_PER_TICK⌋.toNat] (P.glfwPollEvents w),
    ⌊(a + e) / SECONDS_PER_TICK⌋.toNat + 0, 0 + 1,
    P.ShouldClose (update_callback^[⌊(a + e) / SECONDS_PER_TICK⌋.toNat]
      (P.glfwPollEvents w))⟩, ?_, rfl, ?_, ?_, ?_, ?_, ?_⟩
  · rw [RunGameLoopFrom_cons P update_callback fuel e [] a w hopen hacc hfuel]
    rfl
  · rw [← hstep]
    simpa using hcastZ
  · simp
  · rw [← hstep, ← hcastQ]
    ring
  · show 0 ≤ a + e - ((⌊(a + e) / SECONDS_PER_TICK⌋.toNat : Nat) : ℚ) * SECONDS_PER_TICK
    linarith
  · show a + e - ((⌊(a + e) / SECONDS_PER_TICK⌋.toNat : Nat) : ℚ) * SECONDS_PER_TICK < 1 / 60
    rw [← hstep]
    linarith

/-- An iteration of the demo entered with accumulator 1/120 that observes 1/24 s:
three whole steps, and exactly zero is left. -/
theorem RunGameLoop_iteration_drains_whole_steps_witness :
    ∃ r, RunGameLoopFrom demoPlatform (demoCallback (fun _ => false)) 3 [1 / 24] (1 / 120)
        demoStart = some r ∧
      r.iterations = 1 ∧
      (r.callbacks : ℤ) = ⌊((1 / 120 : ℚ) + 1 / 24) / (1 / 60 : ℚ)⌋ ∧
      r.world = (demoCallback (fun _ => false))^[r.callbacks]
        (demoPlatform.glfwPollEvents demoStart) ∧
      r.accumulated_time_s = ((1 / 120 : ℚ) + 1 / 24) -
        (1 / 60 : ℚ) * (⌊((1 / 120 : ℚ) + 1 / 24) / (1 / 60 : ℚ)⌋ : ℚ) ∧
      0 ≤ r.accumulated_time_s ∧ r.accumulated_time_s < 1 / 60 :=
  RunGameLoop_iteration_drains_whole_steps demoPlatform (demoCallback (fun _ => false)) 3
    (1 / 120) (1 / 24) demoStart rfl (by norm_num) (by norm_num)
    (by
      have h : ⌊((1 / 120 : ℚ) + 1 / 24) / SECONDS_PER_TICK⌋ = 3 := by
        rw [Int.floor_eq_iff]
        norm_num [SECONDS_PER_TICK]
      rw [h]
      decide)

/-- C17: no simulated time is lost or counted twice.  In exact arithmetic, for
elapsed times `e_1, e_2, ... ≥ 0` and accumulator 0 at entry, `RunGameLoop`
returns (given fuel for its passes) and the number of callback invocations times
1/60 plus the final accumulator is the sum of the elapsed times of the
iterations that ran; these are all the elapsed times when the loop is never
asked to close. -/
theorem RunGameLoop_conserves_time {σ : Type} (P : Platform σ) (update_callback : σ → σ)
    (fuel : Nat) (deltas : List ℚ) (w : σ) (hnonneg : ∀ e ∈ deltas, 0 ≤ e)
    (hfuel : ⌊deltas.sum / SECONDS_PER_TICK⌋.toNat ≤ fuel) :
    ∃ r, RunGameLoop P update_callback fuel deltas w = some r ∧
      (r.callbacks : ℚ) * (1 / 60) + r.accumulated_time_s =
        (deltas.take r.iterations).sum ∧
      ((∀ w2, P.ShouldClose w2 = false) →
        (r.callbacks : ℚ) * (1 / 60) + r.accumulated_time_s = deltas.sum) := by
  have hfuel2 : ⌊(0 + deltas.sum) / SECONDS_PER_TICK⌋.toNat ≤ fuel := by
    rw [zero_add]
    exact hfuel
  obtain ⟨r, hr, hcons, _, _, hall⟩ :=
    RunGameLoopFrom_conserves P update_callback fuel deltas 0 w (le_refl _) hnonneg hfuel2
  have hstep : SECONDS_PER_TICK = (1 / 60 : ℚ) := rfl
  rw [zero_add, hstep] at hcons
  refine ⟨r, hr, hcons, ?_⟩
  intro h
  rw [hcons, hall h, List.take_length]

/-- Three iterations of the demo that observe 1/100, 1/50 and 1/25 s: 7/100 s in
all, which is four steps and 1/300 s left. -/
theorem RunGameLoop_conserves_time_witness :
    RunGameLoop demoPlatform (demoCallback (fun _ => false)) 4
        [1 / 100, 1 / 50, 1 / 25] demoStart =
      some ⟨1 / 300, ⟨some false, 4, 4⟩, 4, 3, false⟩ ∧
    ∃ r, RunGameLoop demoPlatform (demoCallback (fun _ => false)) 4
        [1 / 100, 1 / 50, 1 / 25] demoStart = some r ∧
      (r.callbacks : ℚ) * (1 / 60) + r.accumulated_time_s =
        (([1 / 100, 1 / 50, 1 / 25] : List ℚ).take r.iterations).sum ∧
      ((∀ w2, demoPlatform.ShouldClose w2 = false) →
        (r.callbacks : ℚ) * (1 / 60) + r.accumulated_time_s =
          ([1 / 100, 1 / 50, 1 / 25] : List ℚ).sum) :=
  ⟨by decide!, RunGameLoop_conserves_time demoPlatform (demoCallback (fun _ => false)) 4
    [1 / 100, 1 / 50, 1 / 25] demoStart
    (by
      intro e he
      simp only [List.mem_cons, List.mem_singleton, List.not_mem_nil, or_false] at he
      rcases he with he | he | he <;> subst he <;> norm_num)
    (by
      have h : ⌊([1 / 100, 1 / 50, 1 / 25] : List ℚ).sum / SECONDS_PER_TICK⌋ = 4 := by
        rw [Int.floor_eq_iff]
        norm_num [SECONDS_PER_TICK]
      rw [h]
      decide)⟩

theorem StdSort.sort_nil (S : StdSort) : S.sort [] = [] :=
  List.Perm.eq_nil (S.perm [])

theorem filterMap_mainDrawLoop_eq_nil {α : Type} (f : Event → Option α)
    (hf : ∀ e, Event.inLoop e = true → f e = none) (rm : ResourceManager) (l : List Sprite)
    (i : Nat) (st : LoopState) : (mainDrawLoop rm i l st).1.filterMap f = [] := by
  rw [List.filterMap_eq_nil_iff]
  intro e he
  exact hf e (inLoop_mainDrawLoop rm l i st e he)

theorem boundInstanceBuffers_DrawSprites (S : StdSort) (rm : ResourceManager)
    (sprites : List Sprite) :
    boundInstanceBuffers (DrawSprites S rm sprites) =
      if sprites = [] then [] else [20 * sprites.length] := by
  have hlen : (S.sort sprites).length = sprites.length := (S.perm sprites).length_eq
  by_cases hpos : (S.sort sprites).length > 0
  · have hne : sprites ≠ [] := by
      intro h
      rw [hlen, h] at hpos
      exact absurd hpos (by decide)
    rw [DrawSprites_of_pos S rm sprites hpos]
    have hloop := filterMap_mainDrawLoop_eq_nil
      (fun e => match e with
        | Event.renderPassEncoderSetVertexBuffer 1 _ size => some size
        | _ => none)
      (by intro e he; cases e <;> first | rfl | exact Bool.noConfusion he)
      rm (S.sort sprites) 0 LoopState.init
    simp only [boundInstanceBuffers, List.filterMap_append, hloop]
    cases (mainDrawLoop rm 0 (S.sort sprites) LoopState.init).2.currentBindGroup <;>
      simp [releaseCurrent, hne, hlen, sizeofInstanceData]
  · have hnil : sprites = [] := by
      cases sprites with
      | nil => rfl
      | cons a l => simp [hlen] at hpos
    rw [DrawSprites_of_not_pos S rm sprites hpos]
    simp [boundInstanceBuffers, hnil]

theorem createdBindGroups_eq_nil_of_unresolvable (S : StdSort) (rm : ResourceManager)
    (sprites : List Sprite) (h : ∀ s ∈ sprites, resolvable rm s = false) :
    createdBindGroups (DrawSprites S rm sprites) = [] := by
  have hfilter : (S.sort sprites).filter (resolvable rm) = [] := by
    rw [List.filter_eq_nil_iff]
    intro a ha
    rw [h a ((S.perm sprites).subset ha)]
    exact Bool.false_ne_true
  have hlen := length_createdBindGroups_mainDrawLoop rm (S.sort sprites) 0 LoopState.init
  rw [hfilter] at hlen
  rw [createdBindGroups_DrawSprites]
  exact List.eq_nil_of_length_eq_zero hlen

/-- The statement of C12, where the query is available and yields no sprite. -/
theorem Draw_of_no_sprite (S : StdSort) (gm : GraphicsManager) (sm : ScriptManager)
    (ids : List Int) (hsm : gm.m_scriptManager = some sm) (hfe : sm.ecsForEach = some ids)
    (hnone : collectSprites sm ids = []) :
    Draw S gm =
      [Event.deviceCreateCommandEncoder, Event.surfaceGetCurrentTexture,
       Event.surfaceTextureCreateView, Event.commandEncoderBeginRenderPass,
       Event.renderPassEncoderEnd, Event.commandEncoderFinish,
       Event.queueSubmit, Event.surfacePresent, Event.surfaceTextureViewRelease,
       Event.surfaceTextureRelease, Event.commandEncoderRelease,
       Event.commandBufferRelease] := by
  rw [Draw_eq_DrawSprites S gm sm ids hsm hfe, hnone]
  apply DrawSprites_of_not_pos
  rw [StdSort.sort_nil]
  exact Nat.lt_irrefl 0

/-- C12: when the entity query is available and yields no sprite, one `Draw`
creates no instance buffer, writes no instance record, creates no bind group and
issues no draw call, and still begins one clearing render pass, submits one
command buffer and presents the surface once. -/
theorem Draw_no_sprite_still_clears_and_presents (S : StdSort) (gm : GraphicsManager)
    (sm : ScriptManager) (ids : List Int) (hsm : gm.m_scriptManager = some sm)
    (hfe : sm.ecsForEach = some ids) (hnone : collectSprites sm ids = []) :
    createdBuffers (Draw S gm) = [] ∧
    bufferWrites (Draw S gm) = [] ∧
    createdBindGroups (Draw S gm) = [] ∧
    drawCalls (Draw S gm) = [] ∧
    (Draw S gm).count Event.commandEncoderBeginRenderPass = 1 ∧
    (Draw S gm).count Event.queueSubmit = 1 ∧
    (Draw S gm).count Event.surfacePresent = 1 := by
  rw [Draw_of_no_sprite S gm sm ids hsm hfe hnone]
  decide

/-- Two frames with no sprite: the query visits no entity, or it visits two
entities without a sprite component. -/
theorem Draw_no_sprite_still_clears_and_presents_witness :
    (drawCalls (Draw insertionStdSort ⟨some scriptNoEntity, cacheT1T2⟩) = [] ∧
      (Draw insertionStdSort ⟨some scriptNoEntity, cacheT1T2⟩).count
        Event.surfacePresent = 1) ∧
    (createdBuffers (Draw insertionStdSort ⟨some scriptNoSprite, cacheT1T2⟩) = [] ∧
      (Draw insertionStdSort ⟨some scriptNoSprite, cacheT1T2⟩).count
        Event.commandEncoderBeginRenderPass = 1) :=
  ⟨⟨(Draw_no_sprite_still_clears_and_presents insertionStdSort
        ⟨some scriptNoEntity, cacheT1T2⟩ scriptNoEntity [] rfl rfl rfl).2.2.2.1,
     (Draw_no_sprite_still_clears_and_presents insertionStdSort
        ⟨some scriptNoEntity, cacheT1T2⟩ scriptNoEntity [] rfl rfl rfl).2.2.2.2.2.2⟩,
   ⟨(Draw_no_sprite_still_clears_and_presents insertionStdSort
        ⟨some scriptNoSprite, cacheT1T2⟩ scriptNoSprite [1, 2] rfl rfl rfl).1,
     (Draw_no_sprite_still_clears_and_presents insertionStdSort
        ⟨some scriptNoSprite, cacheT1T2⟩ scriptNoSprite [1, 2] rfl rfl rfl).2.2.2.2.1⟩⟩

/-- C13, as the code has it: for sprites none of whose texture resolves, `Draw`
writes no instance record, creates no bind group and issues no draw call, and
executes the clear/present cycle once.  It creates and binds no instance buffer
only when no sprite at all was collected; otherwise it creates an instance buffer
of 20 bytes per collected sprite and binds it. -/
theorem Draw_unresolvable_sprites (S : StdSort) (rm : ResourceManager)
    (sprites : List Sprite) (h : ∀ s ∈ sprites, resolvable rm s = false) :
    createdBuffers (DrawSprites S rm sprites) =
      (if sprites = [] then [] else [20 * sprites.length]) ∧
    boundInstanceBuffers (DrawSprites S rm sprites) =
      (if sprites = [] then [] else [20 * sprites.length]) ∧
    bufferWrites (DrawSprites S rm sprites) = [] ∧
    createdBindGroups (DrawSprites S rm sprites) = [] ∧
    drawCalls (DrawSprites S rm sprites) = [] ∧
    (DrawSprites S rm sprites).count Event.commandEncoderBeginRenderPass = 1 ∧
    (DrawSprites S rm sprites).count Event.queueSubmit = 1 ∧
    (DrawSprites S rm sprites).count Event.surfacePresent = 1 := by
  have hsorted : ∀ s ∈ S.sort sprites, resolvable rm s = false :=
    fun s hs => h s ((S.perm sprites).subset hs)
  refine ⟨?_, boundInstanceBuffers_DrawSprites S rm sprites, ?_,
    createdBindGroups_eq_nil_of_unresolvable S rm sprites h, ?_, ?_, ?_, ?_⟩
  · rw [createdBuffers_DrawSprites]
    cases sprites with
    | nil => rfl
    | cons a l => simp [sizeofInstanceData]
  · rw [bufferWrites_DrawSprites, List.filterMap_eq_nil_iff]
    intro p hp
    have hmem : p.2 ∈ S.sort sprites := by
      have := List.mem_map_of_mem Prod.snd hp
      rwa [List.enumFrom_map_snd] at this
    have hres := hsorted p.2 hmem
    unfold resolvable at hres
    cases hr : resolveTexture rm p.2.textureName with
    | none => rfl
    | some r => simp [hr] at hres
  · rw [drawCalls_DrawSprites]
    have : ((S.sort sprites).enumFrom 0).filter (fun p => resolvable rm p.2) = [] := by
      rw [List.filter_eq_nil_iff]
      intro p hp
      have hmem : p.2 ∈ S.sort sprites := by
        have := List.mem_map_of_mem Prod.snd hp
        rwa [List.enumFrom_map_snd] at this
      rw [hsorted p.2 hmem]
      exact Bool.false_ne_true
    rw [this]
    rfl
  · rw [count_DrawSprites_of_not_inLoop S rm sprites Event.commandEncoderBeginRenderPass rfl]
    split <;> simp [List.count_cons]
  · rw [count_DrawSprites_of_not_inLoop S rm sprites Event.queueSubmit rfl]
    split <;> simp [List.count_cons]
  · rw [count_DrawSprites_of_not_inLoop S rm sprites Event.surfacePresent rfl]
    split <;> simp [List.count_cons]

/-- Two sprites of a texture that is not loaded: a 40-byte buffer, no draw call. -/
theorem Draw_unresolvable_sprites_witness :
    createdBuffers (DrawSprites insertionStdSort cacheT1T2
      [spriteGone (1 / 2), spriteGone (1 / 4)]) = [40] ∧
    drawCalls (DrawSprites insertionStdSort cacheT1T2
      [spriteGone (1 / 2), spriteGone (1 / 4)]) = [] :=
  ⟨(Draw_unresolvable_sprites insertionStdSort cacheT1T2
      [spriteGone (1 / 2), spriteGone (1 / 4)] (by decide!)).1.trans (by decide),
   (Draw_unresolvable_sprites insertionStdSort cacheT1T2
      [spriteGone (1 / 2), spriteGone (1 / 4)] (by decide!)).2.2.2.2.1⟩

/-- C13 as stated fails: one collected sprite whose texture does not resolve, so
that the filtered count is zero, and `Draw` creates a 20-byte instance buffer and
binds it. -/
theorem Draw_unresolvable_sprite_gets_buffer :
    ([spriteGone (1 / 2)].filter (resolvable cacheT1T2)).length = 0 ∧
    createdBuffers (DrawSprites insertionStdSort cacheT1T2 [spriteGone (1 / 2)]) = [20] ∧
    boundInstanceBuffers (DrawSprites insertionStdSort cacheT1T2 [spriteGone (1 / 2)]) =
      [20] := by
  decide!

/-- C14, as the code has it: when the entity query is unavailable, because no
`ScriptManager` is attached or because `ECS.ForEach` is not a valid Lua function,
`Draw` logs one warning and returns at once.  It issues no draw call, and it
does not begin a render pass, submit a command buffer or present the surface. -/
theorem Draw_without_query_only_warns (S : StdSort) (gm : GraphicsManager)
    (h : gm.m_scriptManager = none ∨
      ∃ sm, gm.m_scriptManager = some sm ∧ sm.ecsForEach = none) :
    (Draw S gm = [Event.warnNoScriptManager] ∨ Draw S gm = [Event.warnNoForEach]) ∧
    drawCalls (Draw S gm) = [] ∧
    (Draw S gm).count Event.commandEncoderBeginRenderPass = 0 ∧
    (Draw S gm).count Event.queueSubmit = 0 ∧
    (Draw S gm).count Event.surfacePresent = 0 := by
  rcases h with h | ⟨sm, hsm, hfe⟩
  · have : Draw S gm = [Event.warnNoScriptManager] := by simp [Draw, h]
    rw [this]
    exact ⟨Or.inl rfl, by decide⟩
  · have : Draw S gm = [Event.warnNoForEach] := by simp [Draw, hsm, hfe]
    rw [this]
    exact ⟨Or.inr rfl, by decide⟩

/-- The two ways the query can be unavailable. -/
theorem Draw_without_query_only_warns_witness :
    (Draw insertionStdSort ⟨none, cacheT1T2⟩).count Event.surfacePresent = 0 ∧
    (Draw insertionStdSort ⟨some scriptNoForEach, cacheT1T2⟩).count Event.surfacePresent = 0 :=
  ⟨(Draw_without_query_only_warns insertionStdSort ⟨none, cacheT1T2⟩ (Or.inl rfl)).2.2.2.2,
   (Draw_without_query_only_warns insertionStdSort ⟨some scriptNoForEach, cacheT1T2⟩
      (Or.inr ⟨scriptNoForEach, rfl, rfl⟩)).2.2.2.2⟩

/-- C14 as stated fails: with no `ScriptManager` attached, and with `ECS.ForEach`
invalid, the trace of `Draw` is a single warning; the clearing render pass is not
begun and nothing is submitted or presented. -/
theorem Draw_without_query_does_not_clear :
    Draw insertionStdSort ⟨none, cacheT1T2⟩ = [Event.warnNoScriptManager] ∧
    (Draw insertionStdSort ⟨none, cacheT1T2⟩).count Event.commandEncoderBeginRenderPass ≠ 1 ∧
    Draw insertionStdSort ⟨some scriptNoForEach, cacheT1T2⟩ = [Event.warnNoForEach] ∧
    (Draw insertionStdSort ⟨some scriptNoForEach, cacheT1T2⟩).count
      Event.surfacePresent ≠ 1 := by
  decide

theorem naiveLoopBody_resolved (rm : ResourceManager) (i : Nat) (sprite : Sprite)
    (st : LoopState) (t : Texture) (tex : Nat)
    (h : resolveTexture rm sprite.textureName = some (t, tex)) :
    naiveLoopBody rm i sprite st =
      ([Event.queueWriteBuffer (i * sizeofInstanceData) (instanceData sprite t)
          sizeofInstanceData] ++ releaseCurrent st.currentBindGroup ++
        [Event.renderPipelineGetBindGroupLayout, Event.textureCreateView tex,
         Event.deviceCreateBindGroup st.created tex, Event.textureViewRelease tex,
         Event.bindGroupLayoutRelease, Event.renderPassEncoderSetBindGroup st.created,
         Event.renderPassEncoderDraw sprite 4 1 0 (i % 2 ^ 32)],
       ⟨sprite.textureName, some st.created, st.created + 1⟩) := by
  unfold resolveTexture at h
  unfold naiveLoopBody
  cases hg : rm.GetTexture sprite.textureName with
  | none => simp [hg] at h
  | some t0 =>
    rw [hg] at h
    cases ht : t0.texture with
    | none => simp [ht] at h
    | some tex0 =>
      simp only [ht, Option.some.injEq, Prod.mk.injEq] at h
      obtain ⟨rfl, rfl⟩ := h
      simp [ht]

theorem DrawSpritesNaive_of_pos (S : StdSort) (rm : ResourceManager) (sprites : List Sprite)
    (h : (S.sort sprites).length > 0) :
    DrawSpritesNaive S rm sprites =
      [Event.deviceCreateCommandEncoder, Event.surfaceGetCurrentTexture,
       Event.surfaceTextureCreateView, Event.commandEncoderBeginRenderPass,
       Event.deviceCreateBuffer (sizeofInstanceData * (S.sort sprites).length),
       Event.renderPassEncoderSetPipeline,
       Event.renderPassEncoderSetVertexBuffer 0 0 (4 * 4 * 4),
       Event.renderPassEncoderSetVertexBuffer 1 0
         (sizeofInstanceData * (S.sort sprites).length)] ++
      ((naiveDrawLoop rm 0 (S.sort sprites) LoopState.init).1 ++
       (releaseCurrent (naiveDrawLoop rm 0 (S.sort sprites) LoopState.init).2.currentBindGroup ++
        [Event.bufferRelease, Event.renderPassEncoderEnd, Event.commandEncoderFinish,
         Event.queueSubmit, Event.surfacePresent, Event.surfaceTextureViewRelease,
         Event.surfaceTextureRelease, Event.commandEncoderRelease,
         Event.commandBufferRelease])) := by
  simp [DrawSpritesNaive, h]

theorem DrawSpritesNaive_of_not_pos (S : StdSort) (rm : ResourceManager)
    (sprites : List Sprite) (h : ¬ (S.sort sprites).length > 0) :
    DrawSpritesNaive S rm sprites = DrawSprites S rm sprites := by
  simp [DrawSpritesNaive, DrawSprites, h]

theorem observeDraws_append_of_unobserved (a b : List Event)
    (h : ∀ e ∈ a, Event.isObserved e = false) (written : List (Nat × InstanceData))
    (created : List (Nat × Nat)) (bound : Option Nat) :
    observeDraws (a ++ b) written created bound = observeDraws b written created bound := by
  induction a with
  | nil => rfl
  | cons e rest ih =>
    have he := h e (List.mem_cons_self _ _)
    have hrest : ∀ x ∈ rest, Event.isObserved x = false :=
      fun x hx => h x (List.mem_cons_of_mem _ hx)
    rw [List.cons_append]
    cases e <;> first
      | exact Bool.noConfusion he
      | (simp only [observeDraws]; exact ih hrest)

theorem observeDraws_tail (cur : Option Nat) (written : List (Nat × InstanceData))
    (created : List (Nat × Nat)) (bound : Option Nat) :
    observeDraws (releaseCurrent cur ++
      [Event.bufferRelease, Event.renderPassEncoderEnd, Event.commandEncoderFinish,
       Event.queueSubmit, Event.surfacePresent, Event.surfaceTextureViewRelease,
       Event.surfaceTextureRelease, Event.commandEncoderRelease,
       Event.commandBufferRelease]) written created bound = [] := by
  cases cur <;> simp [releaseCurrent, observeDraws]

/-- Once the bind group of the common texture is bound, the draw loop and the
naive loop are observed alike on sprites that all name that texture. -/
theorem observeDraws_steady (rm : ResourceManager) (name : String) (t : Texture) (tex : Nat)
    (hres : resolveTexture rm name = some (t, tex)) (tailR tailN : List Event)
    (htR : ∀ written created bound, observeDraws tailR written created bound = [])
    (htN : ∀ written created bound, observeDraws tailN written created bound = [])
    (l : List Sprite) :
    ∀ (i : Nat) (stR stN : LoopState) (written : List (Nat × InstanceData))
      (cR cN : List (Nat × Nat)) (bgR : Nat) (bN : Option Nat),
      (∀ s ∈ l, s.textureName = name) → stR.currentTextureName = name →
      cR.lookup bgR = some tex →
      observeDraws ((mainDrawLoop rm i l stR).1 ++ tailR) written cR (some bgR) =
        observeDraws ((naiveDrawLoop rm i l stN).1 ++ tailN) written cN bN := by
  induction l with
  | nil =>
    intro i stR stN written cR cN bgR bN _ _ _
    simp [mainDrawLoop, naiveDrawLoop, htR, htN]
  | cons s rest ih =>
    intro i stR stN written cR cN bgR bN hall hcur hlook
    have hs : s.textureName = name := hall s (List.mem_cons_self _ _)
    have hrest : ∀ x ∈ rest, x.textureName = name :=
      fun x hx => hall x (List.mem_cons_of_mem _ hx)
    have hres2 : resolveTexture rm s.textureName = some (t, tex) := by rw [hs]; exact hres
    have hsame : ¬ s.textureName ≠ stR.currentTextureName := by
      rw [hs, hcur]
      exact not_not.2 rfl
    have hnext := ih (i + 1) stR ⟨s.textureName, some stN.created, stN.created + 1⟩
      ((i * sizeofInstanceData, instanceData s t) :: written) cR
      ((stN.created, tex) :: cN) bgR (some stN.created) hrest hcur hlook
    simp only [mainDrawLoop, naiveDrawLoop, List.append_assoc]
    rw [loopBody_resolved rm i s stR t tex hres2, naiveLoopBody_resolved rm i s stN t tex hres2,
      if_neg hsame]
    cases hcN : stN.currentBindGroup with
    | none =>
      simp only [releaseCurrent, List.cons_append, List.nil_append, List.append_nil,
        observeDraws]
      simp only [List.append_eq, List.nil_append]
      rw [hnext]
      simp [hlook]
    | some old =>
      simp only [releaseCurrent, List.cons_append, List.nil_append, List.append_nil,
        observeDraws]
      simp only [List.append_eq, List.nil_append]
      rw [hnext]
      simp [hlook]

theorem observeDraws_loops (rm : ResourceManager) (name : String) (t : Texture) (tex : Nat)
    (hname : name ≠ "") (hres : resolveTexture rm name = some (t, tex))
    (tailR tailN : List Event)
    (htR : ∀ written created bound, observeDraws tailR written created bound = [])
    (htN : ∀ written created bound, observeDraws tailN written created bound = [])
    (l : List Sprite) (hall : ∀ s ∈ l, s.textureName = name) :
    observeDraws ((mainDrawLoop rm 0 l LoopState.init).1 ++ tailR) [] [] none =
      observeDraws ((naiveDrawLoop rm 0 l LoopState.init).1 ++ tailN) [] [] none := by
  cases l with
  | nil => simp [mainDrawLoop, naiveDrawLoop, htR, htN]
  | cons s rest =>
    have hs : s.textureName = name := hall s (List.mem_cons_self _ _)
    have hrest : ∀ x ∈ rest, x.textureName = name :=
      fun x hx => hall x (List.mem_cons_of_mem _ hx)
    have hres2 : resolveTexture rm s.textureName = some (t, tex) := by rw [hs]; exact hres
    have hchange : s.textureName ≠ LoopState.init.currentTextureName := by
      rw [hs]
      exact hname
    have hsteady := observeDraws_steady rm name t tex hres tailR tailN htR htN rest 1
      ⟨s.textureName, some 0, 1⟩ ⟨s.textureName, some 0, 1⟩
      [(0 * sizeofInstanceData, instanceData s t)] [(0, tex)] [(0, tex)] 0 (some 0) hrest hs
      (by simp)
    simp only [mainDrawLoop, naiveDrawLoop, List.append_assoc]
    rw [loopBody_resolved rm 0 s LoopState.init t tex hres2,
      naiveLoopBody_resolved rm 0 s LoopState.init t tex hres2, if_pos hchange]
    simp only [LoopState.init, releaseCurrent, List.cons_append, List.nil_append,
      List.append_nil, observeDraws]
    simp only [List.append_eq, List.nil_append]
    rw [hsteady]

theorem countChanges_const (c : String) (l : List String) (h : ∀ n ∈ l, n = c) :
    countChanges c l = 0 := by
  induction l with
  | nil => rfl
  | cons a rest ih =>
    have ha : a = c := h a (List.mem_cons_self _ _)
    subst ha
    simp [countChanges, ih (fun n hn => h n (List.mem_cons_of_mem _ hn))]

/-- The refinement C11 asks for, for a texture name that is not the empty string:
on sprites that all name one resolvable texture, `Draw` and the naive algorithm
are observed alike, draw call by draw call (same four arguments, same instance
record in the slot drawn, same texture bound), and `Draw` creates exactly one
bind group when there is a sprite. -/
theorem reuse_observed_as_naive (S : StdSort) (rm : ResourceManager) (sprites : List Sprite)
    (name : String) (t : Texture) (tex : Nat) (hname : name ≠ "")
    (hall : ∀ s ∈ sprites, s.textureName = name)
    (hres : resolveTexture rm name = some (t, tex)) :
    observeDraws (DrawSprites S rm sprites) [] [] none =
      observeDraws (DrawSpritesNaive S rm sprites) [] [] none ∧
    (sprites ≠ [] → (createdBindGroups (DrawSprites S rm sprites)).length = 1) := by
  have hall2 : ∀ s ∈ S.sort sprites, s.textureName = name :=
    fun s hs => hall s ((S.perm sprites).subset hs)
  refine ⟨?_, ?_⟩
  · by_cases hpos : (S.sort sprites).length > 0
    · have hhdr : ∀ e ∈ [Event.deviceCreateCommandEncoder, Event.surfaceGetCurrentTexture,
          Event.surfaceTextureCreateView, Event.commandEncoderBeginRenderPass,
          Event.deviceCreateBuffer (sizeofInstanceData * (S.sort sprites).length),
          Event.renderPassEncoderSetPipeline,
          Event.renderPassEncoderSetVertexBuffer 0 0 (4 * 4 * 4),
          Event.renderPassEncoderSetVertexBuffer 1 0
            (sizeofInstanceData * (S.sort sprites).length)], Event.isObserved e = false := by
        intro e he
        simp only [List.mem_cons, List.mem_singleton, List.not_mem_nil, or_false] at he
        rcases he with he | he | he | he | he | he | he | he <;> subst he <;> rfl
      rw [DrawSprites_of_pos S rm sprites hpos, DrawSpritesNaive_of_pos S rm sprites hpos,
        observeDraws_append_of_unobserved _ _ hhdr, observeDraws_append_of_unobserved _ _ hhdr]
      exact observeDraws_loops rm name t tex hname hres _ _
        (observeDraws_tail _) (observeDraws_tail _) (S.sort sprites) hall2
    · rw [DrawSpritesNaive_of_not_pos S rm sprites hpos]
  · intro hne
    rw [createdBindGroups_DrawSprites, length_createdBindGroups_mainDrawLoop]
    have hfilter : (S.sort sprites).filter (resolvable rm) = S.sort sprites := by
      rw [List.filter_eq_self]
      intro s hs
      simp [resolvable, hall2 s hs, hres]
    rw [hfilter]
    cases hsort : S.sort sprites with
    | nil =>
      have := (S.perm sprites).length_eq
      rw [hsort] at this
      exact absurd (List.eq_nil_of_length_eq_zero this.symm) hne
    | cons a rest =>
      rw [hsort] at hall2
      have ha : a.textureName = name := hall2 a (List.mem_cons_self _ _)
      have hrest : ∀ n ∈ rest.map (fun s => s.textureName), n = a.textureName := by
        intro n hn
        rw [List.mem_map] at hn
        obtain ⟨x, hx, rfl⟩ := hn
        rw [ha]
        exact hall2 x (List.mem_cons_of_mem _ hx)
      have hne2 : ¬ a.textureName = LoopState.init.currentTextureName := by
        rw [ha]
        exact hname
      simp only [List.map_cons, countChanges, hne2, if_false]
      rw [countChanges_const _ _ hrest]

/-- The refinement at the scenario's texture "t1": two sprites, one bind group in
`Draw`, two in the naive algorithm, the same observations. -/
theorem reuse_observed_as_naive_at_t1 :
    observeDraws (DrawSprites insertionStdSort cacheT1T2 [spriteC, spriteA]) [] [] none =
      observeDraws (DrawSpritesNaive insertionStdSort cacheT1T2 [spriteC, spriteA])
        [] [] none ∧
    (createdBindGroups (DrawSprites insertionStdSort cacheT1T2 [spriteC, spriteA])).length =
      1 ∧
    (createdBindGroups (DrawSpritesNaive insertionStdSort cacheT1T2
      [spriteC, spriteA])).length = 2 :=
  ⟨(reuse_observed_as_naive insertionStdSort cacheT1T2 [spriteC, spriteA] "t1" ⟨2, 1, some 1⟩ 1
      (by decide) (by decide!) (by decide!)).1,
   (reuse_observed_as_naive insertionStdSort cacheT1T2 [spriteC, spriteA] "t1" ⟨2, 1, some 1⟩ 1
      (by decide) (by decide!) (by decide!)).2 (by decide!),
   by decide!⟩

/-- C11 at its failing input: one sprite, then two sprites, whose texture name is
the empty string, with a texture registered under the empty string.  The naive
algorithm draws with a bind group of that texture (handle 7) bound; `Draw` issues
the same draw calls with no bind group bound, and creates no bind group instead
of exactly one. -/
theorem Draw_reuse_differs_from_naive_for_empty_name :
    observeDraws (DrawSpritesNaive insertionStdSort cacheNoName [spriteNoName]) [] [] none =
      [⟨4, 1, 0, 0, some ⟨⟨0, 0, CFloat.val 0⟩, ⟨1, 1⟩⟩, some 7⟩] ∧
    observeDraws (DrawSprites insertionStdSort cacheNoName [spriteNoName]) [] [] none =
      [⟨4, 1, 0, 0, some ⟨⟨0, 0, CFloat.val 0⟩, ⟨1, 1⟩⟩, none⟩] ∧
    (createdBindGroups (DrawSprites insertionStdSort cacheNoName [spriteNoName])).length = 0 ∧
    observeDraws (DrawSprites insertionStdSort cacheNoName [spriteNoName, spriteNoName])
        [] [] none ≠
      observeDraws (DrawSpritesNaive insertionStdSort cacheNoName [spriteNoName, spriteNoName])
        [] [] none ∧
    (createdBindGroups (DrawSprites insertionStdSort cacheNoName
      [spriteNoName, spriteNoName])).length ≠ 1 := by
  decide!

/-! ## Writes before draws, and writes inside the buffer -/

theorem drawnAt_releaseCurrent (bg : Option Nat) : drawnAt (releaseCurrent bg) = [] := by
  cases bg <;> rfl

theorem drawnAt_mainDrawLoop (rm : ResourceManager) (l : List Sprite) :
    ∀ (i : Nat) (st : LoopState),
      drawnAt (mainDrawLoop rm i l st).1 =
        ((l.enumFrom i).filter (fun p => resolvable rm p.2)).map
          (fun p => (p.2, p.1 % 2 ^ 32)) := by
  induction l with
  | nil => intro i st; rfl
  | cons s rest ih =>
    intro i st
    simp only [mainDrawLoop, drawnAt, List.filterMap_append, List.enumFrom_cons]
    have ih2 := ih (i + 1) (loopBody rm i s st).2
    simp only [drawnAt] at ih2
    rw [ih2]
    cases hr : resolveTexture rm s.textureName with
    | none =>
      rw [loopBody_unresolved rm i s st hr]
      simp [resolvable, hr]
    | some r =>
      obtain ⟨t, tex⟩ := r
      rw [loopBody_resolved rm i s st t tex hr]
      have hres : resolvable rm s = true := by simp [resolvable, hr]
      have hrel := drawnAt_releaseCurrent st.currentBindGroup
      simp only [drawnAt] at hrel
      split <;> simp [hres, hrel]

theorem drawnAt_DrawSprites (S : StdSort) (rm : ResourceManager) (sprites : List Sprite) :
    drawnAt (DrawSprites S rm sprites) =
      (((S.sort sprites).enumFrom 0).filter (fun p => resolvable rm p.2)).map
        (fun p => (p.2, p.1 % 2 ^ 32)) := by
  have hloop := drawnAt_mainDrawLoop rm (S.sort sprites) 0 LoopState.init
  have hrel := drawnAt_releaseCurrent
    (mainDrawLoop rm 0 (S.sort sprites) LoopState.init).2.currentBindGroup
  simp only [drawnAt] at hloop hrel
  simp only [DrawSprites, drawnAt, List.filterMap_append]
  split
  · simp [hloop, hrel]
  · rename_i hlen
    have : S.sort sprites = [] := by
      cases hs : S.sort sprites with
      | nil => rfl
      | cons a l => simp [hs] at hlen
    simp [this]

theorem frameOrdered_append_of_neutral (rm : ResourceManager) (a b : List Event)
    (h : ∀ e ∈ a, Event.isOrdered e = false) (begun submitted : Bool)
    (written : List (Nat × InstanceData)) :
    frameOrdered rm (a ++ b) begun submitted written =
      frameOrdered rm b begun submitted written := by
  induction a with
  | nil => rfl
  | cons e rest ih =>
    have he := h e (List.mem_cons_self _ _)
    have hrest : ∀ x ∈ rest, Event.isOrdered x = false :=
      fun x hx => h x (List.mem_cons_of_mem _ hx)
    rw [List.cons_append]
    cases e <;> first
      | exact Bool.noConfusion he
      | (simp only [frameOrdered]; exact ih hrest)

theorem recordsRead_append_of_neutral (a b : List Event)
    (h : ∀ e ∈ a, Event.isOrdered e = false) (written : List (Nat × InstanceData)) :
    recordsRead (a ++ b) written = recordsRead b written := by
  induction a with
  | nil => rfl
  | cons e rest ih =>
    have he := h e (List.mem_cons_self _ _)
    have hrest : ∀ x ∈ rest, Event.isOrdered x = false :=
      fun x hx => h x (List.mem_cons_of_mem _ hx)
    rw [List.cons_append]
    cases e <;> first
      | exact Bool.noConfusion he
      | (simp only [recordsRead]; exact ih hrest)

theorem isOrdered_releaseCurrent (bg : Option Nat) :
    ∀ e ∈ releaseCurrent bg, Event.isOrdered e = false := by
  cases bg <;> simp [releaseCurrent, Event.isOrdered]

theorem isOwnWrite_head (s : Sprite) (t : Texture) (i : Nat) :
    isOwnWrite s t (i % 2 ^ 32) (i * sizeofInstanceData, instanceData s t) = true := by
  simp [isOwnWrite, sizeofInstanceData]

/-- The binding events of an iteration that changes the texture are not read by
the order check. -/
theorem isOrdered_bindEvents (cur : Option Nat) (tex bg : Nat) :
    ∀ e ∈ releaseCurrent cur ++
      [Event.renderPipelineGetBindGroupLayout, Event.textureCreateView tex,
       Event.deviceCreateBindGroup bg tex, Event.textureViewRelease tex,
       Event.bindGroupLayoutRelease, Event.renderPassEncoderSetBindGroup bg],
      Event.isOrdered e = false := by
  intro e he
  rcases List.mem_append.1 he with h1 | h1
  · exact isOrdered_releaseCurrent _ e h1
  · simp only [List.mem_cons, List.mem_singleton, List.not_mem_nil, or_false] at h1
    rcases h1 with h1 | h1 | h1 | h1 | h1 | h1 <;> subst h1 <;> rfl

/-- The trace of a resolved iteration: the write, binding events that the order
check does not read, the draw call. -/
theorem loopBody_resolved_shape (rm : ResourceManager) (i : Nat) (s : Sprite) (st : LoopState)
    (t : Texture) (tex : Nat) (h : resolveTexture rm s.textureName = some (t, tex)) :
    ∃ mid, (∀ e ∈ mid, Event.isOrdered e = false) ∧
      (loopBody rm i s st).1 =
        Event.queueWriteBuffer (i * sizeofInstanceData) (instanceData s t) sizeofInstanceData ::
          (mid ++ [Event.renderPassEncoderDraw s 4 1 0 (i % 2 ^ 32)]) := by
  rw [loopBody_resolved rm i s st t tex h]
  split
  · exact ⟨_, isOrdered_bindEvents st.currentBindGroup tex st.created, by simp⟩
  · exact ⟨[], by simp, by simp⟩

theorem frameOrdered_mainDrawLoop (rm : ResourceManager) (tail : List Event)
    (htail : ∀ written, frameOrdered rm tail true false written = true) (l : List Sprite) :
    ∀ (i : Nat) (st : LoopState) (written : List (Nat × InstanceData)),
      frameOrdered rm ((mainDrawLoop rm i l st).1 ++ tail) true false written = true := by
  induction l with
  | nil =>
    intro i st written
    simpa [mainDrawLoop] using htail written
  | cons s rest ih =>
    intro i st written
    simp only [mainDrawLoop, List.append_assoc]
    cases hr : resolveTexture rm s.textureName with
    | none =>
      rw [loopBody_unresolved rm i s st hr]
      simp only [List.cons_append, List.nil_append, frameOrdered]
      exact ih (i + 1) st written
    | some r =>
      obtain ⟨t, tex⟩ := r
      obtain ⟨mid, hmid, hshape⟩ := loopBody_resolved_shape rm i s st t tex hr
      rw [hshape]
      simp only [List.cons_append, List.append_assoc, frameOrdered, Bool.not_false,
        Bool.true_and]
      simp only [List.append_eq, List.append_assoc]
      rw [frameOrdered_append_of_neutral rm mid _ hmid]
      simp only [List.cons_append, List.nil_append, frameOrdered, hr, Bool.true_and,
        List.any_cons, isOwnWrite_head, Bool.true_or]
      simp only [List.append_eq, List.nil_append]
      exact ih (i + 1) _ _

theorem recordsRead_mainDrawLoop (rm : ResourceManager) (tail : List Event)
    (htail : ∀ written, recordsRead tail written = []) (l : List Sprite) :
    ∀ (i : Nat) (st : LoopState) (written : List (Nat × InstanceData)),
      i + l.length ≤ 2 ^ 32 →
      recordsRead ((mainDrawLoop rm i l st).1 ++ tail) written =
        l.filterMap (fun s =>
          (resolveTexture rm s.textureName).map (fun r => (s, some (instanceData s r.1)))) := by
  induction l with
  | nil =>
    intro i st written _
    simpa [mainDrawLoop] using htail written
  | cons s rest ih =>
    intro i st written hlen
    have hi : i < 2 ^ 32 := by
      simp only [List.length_cons] at hlen
      omega
    have hlen2 : i + 1 + rest.length ≤ 2 ^ 32 := by
      simp only [List.length_cons] at hlen
      omega
    simp only [mainDrawLoop, List.append_assoc]
    cases hr : resolveTexture rm s.textureName with
    | none =>
      rw [loopBody_unresolved rm i s st hr]
      simp only [List.cons_append, List.nil_append, recordsRead, List.filterMap_cons, hr,
        Option.map_none']
      exact ih (i + 1) st written hlen2
    | some r =>
      obtain ⟨t, tex⟩ := r
      obtain ⟨mid, hmid, hshape⟩ := loopBody_resolved_shape rm i s st t tex hr
      rw [hshape]
      simp only [List.cons_append, List.append_assoc, recordsRead]
      simp only [List.append_eq, List.append_assoc]
      rw [recordsRead_append_of_neutral mid _ hmid]
      simp only [List.cons_append, List.nil_append, recordsRead, List.filterMap_cons, hr,
        Option.map_some', Nat.mod_eq_of_lt hi, List.lookup_cons, beq_self_eq_true]
      simp only [List.append_eq, List.nil_append]
      rw [ih (i + 1) _ _ hlen2]

theorem isOrdered_tail (cur : Option Nat) :
    ∀ e ∈ releaseCurrent cur ++ [Event.bufferRelease, Event.renderPassEncoderEnd,
      Event.commandEncoderFinish], Event.isOrdered e = false := by
  intro e he
  rcases List.mem_append.1 he with h1 | h1
  · exact isOrdered_releaseCurrent _ e h1
  · simp only [List.mem_cons, List.mem_singleton, List.not_mem_nil, or_false] at h1
    rcases h1 with h1 | h1 | h1 <;> subst h1 <;> rfl

/-- The frame of `DrawSprites_of_pos` cut where the order check reads it: the
events up to the beginning of the render pass, the binding of the buffers, the
loop, the events up to the submission, the rest. -/
theorem DrawSprites_of_pos_cut (S : StdSort) (rm : ResourceManager) (sprites : List Sprite)
    (h : (S.sort sprites).length > 0) :
    DrawSprites S rm sprites =
      [Event.deviceCreateCommandEncoder, Event.surfaceGetCurrentTexture,
       Event.surfaceTextureCreateView] ++
      (Event.commandEncoderBeginRenderPass ::
       ([Event.deviceCreateBuffer (sizeofInstanceData * (S.sort sprites).length),
         Event.renderPassEncoderSetPipeline,
         Event.renderPassEncoderSetVertexBuffer 0 0 (4 * 4 * 4),
         Event.renderPassEncoderSetVertexBuffer 1 0
           (sizeofInstanceData * (S.sort sprites).length)] ++
        ((mainDrawLoop rm 0 (S.sort sprites) LoopState.init).1 ++
         ((releaseCurrent
             (mainDrawLoop rm 0 (S.sort sprites) LoopState.init).2.currentBindGroup ++
           [Event.bufferRelease, Event.renderPassEncoderEnd, Event.commandEncoderFinish]) ++
          (Event.queueSubmit ::
           [Event.surfacePresent, Event.surfaceTextureViewRelease,
            Event.surfaceTextureRelease, Event.commandEncoderRelease,
            Event.commandBufferRelease]))))) := by
  rw [DrawSprites_of_pos S rm sprites h]
  simp

theorem frameOrdered_DrawSprites (S : StdSort) (rm : ResourceManager) (sprites : List Sprite) :
    frameOrdered rm (DrawSprites S rm sprites) false false [] = true := by
  by_cases hpos : (S.sort sprites).length > 0
  · rw [DrawSprites_of_pos_cut S rm sprites hpos,
      frameOrdered_append_of_neutral rm _ _ (by decide)]
    simp only [frameOrdered, List.cons_append, List.nil_append]
    simp only [List.append_eq, List.nil_append]
    apply frameOrdered_mainDrawLoop
    intro written
    rw [frameOrdered_append_of_neutral rm _ _ (isOrdered_tail _)]
    rfl
  · rw [DrawSprites_of_not_pos S rm sprites hpos]
    rfl

theorem recordsRead_DrawSprites (S : StdSort) (rm : ResourceManager) (sprites : List Sprite)
    (hlen : sprites.length ≤ 2 ^ 32) :
    recordsRead (DrawSprites S rm sprites) [] =
      (S.sort sprites).filterMap (fun s =>
        (resolveTexture rm s.textureName).map (fun r => (s, some (instanceData s r.1)))) := by
  have hsl : (S.sort sprites).length = sprites.length := (S.perm sprites).length_eq
  by_cases hpos : (S.sort sprites).length > 0
  · rw [DrawSprites_of_pos_cut S rm sprites hpos,
      recordsRead_append_of_neutral _ _ (by decide)]
    simp only [recordsRead, List.cons_append, List.nil_append]
    simp only [List.append_eq, List.nil_append]
    apply recordsRead_mainDrawLoop
    · intro written
      rw [recordsRead_append_of_neutral _ _ (isOrdered_tail _)]
      rfl
    · rw [hsl]
      omega
  · have hnil : S.sort sprites = [] := by
      cases hs : S.sort sprites with
      | nil => rfl
      | cons a l => simp [hs] at hpos
    rw [DrawSprites_of_not_pos S rm sprites hpos, hnil]
    rfl

/-- C21: in the trace of one `Draw`, every instance write comes before the
submission of the command buffer, and every draw call comes after the beginning
of the clearing render pass and after a write of the record of the sprite it
draws, made to the slot `i * sizeof(InstanceData)` of its loop index `i`, which
the call passes as instance index (cast to 32 bits).  For at most `2^32` collected
sprites, where the cast changes nothing, the record that the instance buffer
holds in the slot of the instance index at the time of each draw call is the
record of the sprite drawn. -/
theorem Draw_writes_before_draws (S : StdSort) (rm : ResourceManager)
    (sprites : List Sprite) :
    frameOrdered rm (DrawSprites S rm sprites) false false [] = true ∧
    (sprites.length ≤ 2 ^ 32 →
      recordsRead (DrawSprites S rm sprites) [] =
        (S.sort sprites).filterMap (fun s =>
          (resolveTexture rm s.textureName).map (fun r => (s, some (instanceData s r.1)))) ∧
      drawnAt (DrawSprites S rm sprites) =
        (((S.sort sprites).enumFrom 0).filter (fun p => resolvable rm p.2)).map
          (fun p => (p.2, p.1))) := by
  refine ⟨frameOrdered_DrawSprites S rm sprites, ?_⟩
  intro hlen
  refine ⟨recordsRead_DrawSprites S rm sprites hlen, ?_⟩
  rw [drawnAt_DrawSprites]
  apply List.map_congr_left
  intro p hp
  have hp2 := List.fst_lt_add_of_mem_enumFrom (List.mem_of_mem_filter hp)
  have hsl : (S.sort sprites).length = sprites.length := (S.perm sprites).length_eq
  rw [Nat.mod_eq_of_lt (by omega)]

/-- The scenario: each of the three draw calls reads the record of its own sprite,
and the trace is in order. -/
theorem Draw_writes_before_draws_witness :
    frameOrdered cacheT1T2 (DrawSprites insertionStdSort cacheT1T2
      [spriteA, spriteB, spriteC]) false false [] = true ∧
    recordsRead (DrawSprites insertionStdSort cacheT1T2 [spriteA, spriteB, spriteC]) [] =
      [(spriteC, some ⟨⟨0, 0, CFloat.val (9 / 10)⟩, ⟨1, 1 / 2⟩⟩), (spriteA, some ⟨⟨0, 0, CFloat.val (1 / 2)⟩, ⟨1, 1 / 2⟩⟩),
       (spriteB, some ⟨⟨0, 0, CFloat.val (1 / 10)⟩, ⟨1 / 2, 1⟩⟩)] :=
  ⟨(Draw_writes_before_draws insertionStdSort cacheT1T2 [spriteA, spriteB, spriteC]).1,
   (((Draw_writes_before_draws insertionStdSort cacheT1T2 [spriteA, spriteB, spriteC]).2
      (by decide)).1).trans (by decide!)⟩

/-- C26: every instance-buffer write of one `Draw` lies inside the buffer it
created.  For `n` collected sprites the buffer has `n * sizeof(InstanceData)`
bytes; every write is of `sizeof(InstanceData)` bytes at offset
`i * sizeof(InstanceData)` for a loop index `i < n`, so it ends at or before the
end of the buffer; every draw call has an instance index `< n`, and it draws the
sprite at a position `i < n` of the sorted vector. -/
theorem Draw_writes_inside_buffer (S : StdSort) (rm : ResourceManager)
    (sprites : List Sprite) :
    (sprites.length > 0 →
      createdBuffers (DrawSprites S rm sprites) = [sprites.length * sizeofInstanceData]) ∧
    (∀ w ∈ bufferWrites (DrawSprites S rm sprites),
      ∃ i, i < sprites.length ∧ w.1 = i * sizeofInstanceData ∧ w.2.2 = sizeofInstanceData ∧
        i * sizeofInstanceData + sizeofInstanceData ≤ sprites.length * sizeofInstanceData) ∧
    (∀ d ∈ drawnAt (DrawSprites S rm sprites),
      d.2 < sprites.length ∧
      ∃ i, i < sprites.length ∧ (S.sort sprites).get? i = some d.1 ∧ d.2 = i % 2 ^ 32) := by
  have hsl : (S.sort sprites).length = sprites.length := (S.perm sprites).length_eq
  refine ⟨?_, ?_, ?_⟩
  · intro hpos
    rw [createdBuffers_DrawSprites, if_pos hpos, Nat.mul_comm]
  · intro w hw
    rw [bufferWrites_DrawSprites, List.mem_filterMap] at hw
    obtain ⟨p, hp, hw2⟩ := hw
    have hp2 := List.fst_lt_add_of_mem_enumFrom hp
    rw [hsl, Nat.zero_add] at hp2
    cases hr : resolveTexture rm p.2.textureName with
    | none => simp [hr] at hw2
    | some r =>
      simp only [hr, Option.map_some', Option.some.injEq] at hw2
      subst hw2
      refine ⟨p.1, hp2, rfl, rfl, ?_⟩
      have : (p.1 + 1) * sizeofInstanceData ≤ sprites.length * sizeofInstanceData :=
        Nat.mul_le_mul_right _ hp2
      rw [Nat.add_mul, Nat.one_mul] at this
      exact this
  · intro d hd
    rw [drawnAt_DrawSprites, List.mem_map] at hd
    obtain ⟨p, hp, rfl⟩ := hd
    have hmem := List.mem_of_mem_filter hp
    have hp2 := List.fst_lt_add_of_mem_enumFrom hmem
    rw [hsl, Nat.zero_add] at hp2
    have hget : (S.sort sprites).get? p.1 = some p.2 := by
      have := (List.mk_mem_enumFrom_iff_le_and_getElem?_sub
        (n := 0) (i := p.1) (x := p.2) (l := S.sort sprites)).1 hmem
      simpa using this.2
    exact ⟨lt_of_le_of_lt (Nat.mod_le _ _) hp2, p.1, hp2, hget, rfl⟩

/-- The scenario: a 60-byte buffer, writes at 0, 20 and 40. -/
theorem Draw_writes_inside_buffer_witness :
    createdBuffers (DrawSprites insertionStdSort cacheT1T2 [spriteA, spriteB, spriteC]) =
      [60] ∧
    (bufferWrites (DrawSprites insertionStdSort cacheT1T2 [spriteA, spriteB, spriteC])).map
      (fun w => w.1) = [0, 20, 40] :=
  ⟨((Draw_writes_inside_buffer insertionStdSort cacheT1T2 [spriteA, spriteB, spriteC]).1
      (by decide)).trans (by decide),
   by decide!⟩

/-! ## Rounding to `double` -/

theorem drainDouble_done {σ : Type} (update_callback : σ → σ) (fuel : Nat) (a : ℚ) (w : σ)
    (h : a < SECONDS_PER_TICK_double) :
    drainDouble update_callback fuel a w = ⟨a, w, 0, true⟩ := by
  have hn : ¬ a ≥ SECONDS_PER_TICK_double := not_le.2 h
  cases fuel with
  | zero => simp [drainDouble, hn]
  | succ n => simp [drainDouble, hn]

theorem drainDouble_pass {σ : Type} (update_callback : σ → σ) (fuel : Nat) (a : ℚ) (w : σ)
    (h : SECONDS_PER_TICK_double ≤ a) :
    drainDouble update_callback (fuel + 1) a w =
      ⟨(drainDouble update_callback fuel (roundToDouble (a - SECONDS_PER_TICK_double))
          (update_callback w)).accumulated_time_s,
        (drainDouble update_callback fuel (roundToDouble (a - SECONDS_PER_TICK_double))
          (update_callback w)).world,
        (drainDouble update_callback fuel (roundToDouble (a - SECONDS_PER_TICK_double))
          (update_callback w)).callbacks + 1,
        (drainDouble update_callback fuel (roundToDouble (a - SECONDS_PER_TICK_double))
          (update_callback w)).finished⟩ := by
  have hge : a ≥ SECONDS_PER_TICK_double := h
  simp only [drainDouble, hge, if_true]

/-- C18 as stated fails: in the arithmetic of the code the iteration that observes
0.05 s does not leave the accumulator 0 but `2^(-57)` s, about 6.9e-18; and the
third pass does not depend on the comparison being `>=`: it runs on the accumulator
`4803839602528531 / 2^58`, which is above one tick. -/
theorem RunGameLoopDouble_scenario_leaves_remainder :
    RunGameLoopDouble demoPlatform (demoCallback (fun _ => false)) 3 [roundToDouble (1 / 20)]
        demoStart =
      some ⟨1 / 144115188075855872, ⟨some false, 3, 3⟩, 3, 1, false⟩ ∧
    (1 / 144115188075855872 : ℚ) ≠ 0 ∧
    roundToDouble (roundToDouble (roundToDouble (1 / 20) - SECONDS_PER_TICK_double) -
        SECONDS_PER_TICK_double) = 4803839602528531 / 288230376151711744 ∧
    roundToDouble (roundToDouble (roundToDouble (1 / 20) - SECONDS_PER_TICK_double) -
        SECONDS_PER_TICK_double) > SECONDS_PER_TICK_double := by
  decide!

/-- C18: in `double` arithmetic, with the tick the double nearest to 1/60 and
accumulator 0, an iteration that observes the double nearest to 0.05 s invokes the
callback exactly three times and leaves the accumulator `2^(-57)` s, which is positive
and below 1e-17.  The accumulators the three passes run on are above one tick, so
each pass would also run if the comparison were `>`. -/
theorem RunGameLoopDouble_scenario_three_steps {σ : Type} (P : Platform σ)
    (update_callback : σ → σ) (fuel : Nat) (w : σ) (hopen : P.ShouldClose w = false)
    (hfuel : 3 ≤ fuel) :
    RunGameLoopDouble P update_callback fuel [roundToDouble (1 / 20)] w =
      some ⟨1 / 144115188075855872,
        update_callback (update_callback (update_callback (P.glfwPollEvents w))), 3, 1,
        P.ShouldClose
          (update_callback (update_callback (update_callback (P.glfwPollEvents w))))⟩ ∧
    (1 / 144115188075855872 : ℚ) = 1 / 2 ^ 57 ∧
    (0 : ℚ) < 1 / 144115188075855872 ∧
    (1 / 144115188075855872 : ℚ) < 1 / 100000000000000000 ∧
    roundToDouble (0 + roundToDouble (1 / 20)) > SECONDS_PER_TICK_double ∧
    roundToDouble (roundToDouble (0 + roundToDouble (1 / 20)) - SECONDS_PER_TICK_double) >
      SECONDS_PER_TICK_double ∧
    roundToDouble (roundToDouble (roundToDouble (0 + roundToDouble (1 / 20)) -
        SECONDS_PER_TICK_double) - SECONDS_PER_TICK_double) > SECONDS_PER_TICK_double := by
  obtain ⟨k, rfl⟩ : ∃ k, fuel = k + 3 := ⟨fuel - 3, by omega⟩
  have e0 : roundToDouble (0 + roundToDouble (1 / 20)) =
      3602879701896397 / 72057594037927936 := by decide!
  have e1 : roundToDouble (3602879701896397 / 72057594037927936 - SECONDS_PER_TICK_double) =
      2401919801264265 / 72057594037927936 := by decide!
  have e2 : roundToDouble (2401919801264265 / 72057594037927936 - SECONDS_PER_TICK_double) =
      4803839602528531 / 288230376151711744 := by decide!
  have e3 : roundToDouble (4803839602528531 / 288230376151711744 - SECONDS_PER_TICK_double) =
      1 / 144115188075855872 := by decide!
  have g0 : SECONDS_PER_TICK_double < 3602879701896397 / 72057594037927936 := by decide!
  have g1 : SECONDS_PER_TICK_double < 2401919801264265 / 72057594037927936 := by decide!
  have g2 : SECONDS_PER_TICK_double < 4803839602528531 / 288230376151711744 := by decide!
  have g3 : (1 / 144115188075855872 : ℚ) < SECONDS_PER_TICK_double := by decide!
  refine ⟨?_, by norm_num, by norm_num, by norm_num, ?_, ?_, ?_⟩
  · simp only [RunGameLoopDouble, RunGameLoopFromDouble, hopen, e0]
    rw [drainDouble_pass _ _ _ _ (le_of_lt g0), e1, drainDouble_pass _ _ _ _ (le_of_lt g1), e2,
      drainDouble_pass _ _ _ _ (le_of_lt g2), e3, drainDouble_done _ _ _ _ g3]
    simp
  · rw [e0]
    exact g0
  · rw [e0, e1]
    exact g1
  · rw [e0, e1, e2]
    exact g2

/-- The scenario run by the demo. -/
theorem RunGameLoopDouble_scenario_three_steps_witness :
    RunGameLoopDouble demoPlatform (demoCallback (fun _ => false)) 3 [roundToDouble (1 / 20)]
        demoStart =
      some ⟨1 / 144115188075855872, ⟨some false, 3, 3⟩, 3, 1, false⟩ :=
  (RunGameLoopDouble_scenario_three_steps demoPlatform (demoCallback (fun _ => false)) 3
    demoStart rfl (le_refl 3)).1

/-- What a call of `LoadTexture` does to the resource manager: nothing, or, for a
name that was not cached, the insertion of the decoded image. -/
theorem LoadTexture_rm (gm : Option GraphicsState) (env : LoadEnv) (rm : ResourceManager)
    (name partialPath : String) :
    ((LoadTexture gm env rm name partialPath).rm = rm ∧
      ((LoadTexture gm env rm name partialPath).ok = true →
        (rm.GetTexture name).isSome = true)) ∨
    ((LoadTexture gm env rm name partialPath).ok = true ∧ rm.GetTexture name = none ∧
      ∃ w h tex, env.stbi_load (env.ResolvePath partialPath) = some (w, h) ∧
        env.createTexture = some tex ∧
        (LoadTexture gm env rm name partialPath).rm =
          ⟨(name, ⟨w, h, some tex⟩) :: rm.m_textures⟩) := by
  unfold LoadTexture
  cases gm with
  | none => exact Or.inl ⟨rfl, fun h => Bool.noConfusion h⟩
  | some g =>
    simp only
    by_cases hctx : (g.m_device.isNone || g.m_queue.isNone) = true
    · rw [if_pos hctx]
      exact Or.inl ⟨rfl, fun h => Bool.noConfusion h⟩
    · rw [if_neg hctx]
      by_cases hc : (rm.m_textures.lookup name).isSome = true
      · rw [if_pos hc]
        exact Or.inl ⟨rfl, fun _ => hc⟩
      · rw [if_neg hc]
        have hnone : rm.GetTexture name = none := by
          unfold ResourceManager.GetTexture
          cases hl : rm.m_textures.lookup name with
          | none => rfl
          | some v => simp [hl] at hc
        cases hs : env.stbi_load (env.ResolvePath partialPath) with
        | none => exact Or.inl ⟨rfl, fun h => Bool.noConfusion h⟩
        | some wh =>
          obtain ⟨w, h⟩ := wh
          cases ht : env.createTexture with
          | none => exact Or.inl ⟨rfl, fun h => Bool.noConfusion h⟩
          | some tex =>
            cases hv : env.createView with
            | none => exact Or.inl ⟨rfl, fun h => Bool.noConfusion h⟩
            | some v => exact Or.inr ⟨rfl, hnone, w, h, tex, rfl, rfl, rfl⟩

theorem GetTexture_cons (rm : ResourceManager) (name n : String) (t : Texture) :
    ResourceManager.GetTexture ⟨(name, t) :: rm.m_textures⟩ n =
      if n = name then some t else rm.GetTexture n := by
  unfold ResourceManager.GetTexture
  by_cases h : n = name
  · subst h
    simp [List.lookup_cons]
  · have hb : (n == name) = false := by simpa using h
    simp [List.lookup_cons, hb, h]

/-- No call of `LoadTexture` removes or changes an entry of the cache. -/
theorem LoadTexture_keeps (gm : Option GraphicsState) (env : LoadEnv) (rm : ResourceManager)
    (name partialPath n : String) (t : Texture) (h : rm.GetTexture n = some t) :
    (LoadTexture gm env rm name partialPath).rm.GetTexture n = some t := by
  rcases LoadTexture_rm gm env rm name partialPath with ⟨hrm, _⟩ | ⟨_, hnone, w, hh, tex, _, _, hrm⟩
  · rw [hrm]
    exact h
  · rw [hrm, GetTexture_cons]
    by_cases hn : n = name
    · subst hn
      rw [hnone] at h
      exact Option.noConfusion h
    · rw [if_neg hn]
      exact h

theorem CacheOp.apply_keeps (rm : ResourceManager) (op : CacheOp) (n : String) (t : Texture)
    (h : rm.GetTexture n = some t) : (op.apply rm).GetTexture n = some t := by
  cases op with
  | load gm env name partialPath => exact LoadTexture_keeps gm env rm name partialPath n t h
  | get name => exact h
  | draw S sm => exact h

theorem runOps_keeps (ops : List CacheOp) :
    ∀ (rm : ResourceManager) (n : String) (t : Texture), rm.GetTexture n = some t →
      (runOps ops rm).GetTexture n = some t := by
  induction ops with
  | nil => intro rm n t h; exact h
  | cons op rest ih =>
    intro rm n t h
    exact ih _ n t (CacheOp.apply_keeps rm op n t h)

theorem runOps_append (a b : List CacheOp) :
    ∀ rm, runOps (a ++ b) rm = runOps b (runOps a rm) := by
  induction a with
  | nil => intro rm; rfl
  | cons op rest ih => intro rm; exact ih _

/-- An entry of the cache got there by a `LoadTexture` of its name that found the
name absent, returned true, and stored the size of the image it decoded. -/
theorem runOps_GetTexture_iff (ops : List CacheOp) :
    ∀ (rm0 : ResourceManager) (n : String) (t : Texture),
      (runOps ops rm0).GetTexture n = some t ↔
        rm0.GetTexture n = some t ∨
        ∃ pre gm env partialPath post, ops = pre ++ CacheOp.load gm env n partialPath :: post ∧
          (runOps pre rm0).GetTexture n = none ∧
          (LoadTexture gm env (runOps pre rm0) n partialPath).ok = true ∧
          ∃ w h tex, env.stbi_load (env.ResolvePath partialPath) = some (w, h) ∧
            env.createTexture = some tex ∧ t = ⟨w, h, some tex⟩ := by
  induction ops with
  | nil =>
    intro rm0 n t
    constructor
    · intro h
      exact Or.inl h
    · rintro (h | ⟨pre, gm, env, pp, post, hops, _⟩)
      · exact h
      · exact absurd hops (by simp)
  | cons op rest ih =>
    intro rm0 n t
    rw [show runOps (op :: rest) rm0 = runOps rest (op.apply rm0) from rfl, ih]
    constructor
    · rintro (h | ⟨pre, gm, env, pp, post, hops, hnone, hok, hdec⟩)
      · by_cases h0 : rm0.GetTexture n = some t
        · exact Or.inl h0
        · right
          cases op with
          | get name => exact absurd h h0
          | draw S sm => exact absurd h h0
          | load gm env name partialPath =>
            simp only [CacheOp.apply] at h
            rcases LoadTexture_rm gm env rm0 name partialPath with
              ⟨hrm, _⟩ | ⟨hok, hnone, w, hh, tex, hdec, htex, hrm⟩
            · rw [hrm] at h
              exact absurd h h0
            · rw [hrm, GetTexture_cons] at h
              by_cases hn : n = name
              · subst hn
                rw [if_pos rfl] at h
                exact ⟨[], gm, env, partialPath, rest, rfl, hnone, hok, w, hh, tex, hdec,
                  htex, (Option.some.inj h).symm⟩
              · rw [if_neg hn] at h
                exact absurd h h0
      · right
        refine ⟨op :: pre, gm, env, pp, post, by rw [hops]; rfl, hnone, hok, hdec⟩
    · rintro (h | ⟨pre, gm, env, pp, post, hops, hnone, hok, hdec⟩)
      · exact Or.inl (CacheOp.apply_keeps rm0 op n t h)
      · cases pre with
        | nil =>
          simp only [List.nil_append, List.cons.injEq] at hops
          obtain ⟨hop, hrest⟩ := hops
          subst hop
          left
          simp only [runOps] at hnone hok
          simp only [CacheOp.apply]
          obtain ⟨w, hh, tex, hdec1, htex1, ht⟩ := hdec
          rcases LoadTexture_rm gm env rm0 n pp with
            ⟨_, hcached⟩ | ⟨_, _, w2, h2, tex2, hdec2, htex2, hrm⟩
          · have := hcached hok
            rw [hnone] at this
            exact Bool.noConfusion this
          · rw [hrm, GetTexture_cons, if_pos rfl, ht]
            rw [hdec1] at hdec2
            simp only [Option.some.injEq, Prod.mk.injEq] at hdec2
            obtain ⟨rfl, rfl⟩ := hdec2
            rw [htex1] at htex2
            rw [Option.some.inj htex2]
        | cons p pre2 =>
          simp only [List.cons_append, List.cons.injEq] at hops
          obtain ⟨hop, hrest⟩ := hops
          subst hop
          right
          exact ⟨pre2, gm, env, pp, post, hrest, hnone, hok, hdec⟩

/-- C22: over every sequence of `LoadTexture`, `GetTexture` and `Draw` operations on
an empty cache, `GetTexture name` returns a texture exactly when an earlier
`LoadTexture name _` found the name absent and returned true, and the texture has
the width and height that load decoded; no operation removes or changes an entry,
and `Draw` leaves the whole cache as it was. -/
theorem cache_entry_iff_first_successful_load (ops : List CacheOp) (name : String)
    (t : Texture) :
    ((runOps ops ⟨[]⟩).GetTexture name = some t ↔
      ∃ pre gm env partialPath post,
        ops = pre ++ CacheOp.load gm env name partialPath :: post ∧
        (runOps pre ⟨[]⟩).GetTexture name = none ∧
        (LoadTexture gm env (runOps pre ⟨[]⟩) name partialPath).ok = true ∧
        ∃ w h tex, env.stbi_load (env.ResolvePath partialPath) = some (w, h) ∧
          env.createTexture = some tex ∧ t = ⟨w, h, some tex⟩) ∧
    (∀ (rm : ResourceManager) (op : CacheOp) (later : List CacheOp) (n : String)
        (t0 : Texture), rm.GetTexture n = some t0 →
      (op.apply rm).GetTexture n = some t0 ∧ (runOps later rm).GetTexture n = some t0) ∧
    (∀ (rm : ResourceManager) (S : StdSort) (sm : Option ScriptManager),
      (CacheOp.draw S sm).apply rm = rm) ∧
    (∀ (rm : ResourceManager) (n : String), (CacheOp.get n).apply rm = rm) := by
  refine ⟨?_, ?_, fun _ _ _ => rfl, fun _ _ => rfl⟩
  · rw [runOps_GetTexture_iff]
    constructor
    · rintro (h | h)
      · exact Option.noConfusion h
      · exact h
    · intro h
      exact Or.inr h
  · intro rm op later n t0 h
    exact ⟨CacheOp.apply_keeps rm op n t0 h, runOps_keeps later rm n t0 h⟩

/-- C28: with a device and a queue, `LoadTexture` of a name that is already cached
returns true and leaves the cache unchanged: the entry keeps its width, height and
handle, the number of entries is the same, no image file is read, and the outcome
does not depend on the path or on what the file system and the GPU would answer. -/
theorem LoadTexture_first_load_wins (g : GraphicsState) (env : LoadEnv)
    (rm : ResourceManager) (name partialPath : String) (t : Texture)
    (hd : g.m_device ≠ none) (hq : g.m_queue ≠ none) (hc : rm.GetTexture name = some t) :
    (LoadTexture (some g) env rm name partialPath).ok = true ∧
    (LoadTexture (some g) env rm name partialPath).rm = rm ∧
    (LoadTexture (some g) env rm name partialPath).rm.GetTexture name = some t ∧
    (LoadTexture (some g) env rm name partialPath).rm.m_textures.length =
      rm.m_textures.length ∧
    (LoadTexture (some g) env rm name partialPath).events =
      [LoadEvent.warnAlreadyLoaded name] ∧
    (∀ p, LoadEvent.stbiLoad p ∉ (LoadTexture (some g) env rm name partialPath).events) ∧
    (∀ env2 path2, LoadTexture (some g) env2 rm name path2 =
      LoadTexture (some g) env rm name partialPath) := by
  have hctx : (g.m_device.isNone || g.m_queue.isNone) = false := by
    cases hdv : g.m_device with
    | none => exact absurd hdv hd
    | some d =>
      cases hqv : g.m_queue with
      | none => exact absurd hqv hq
      | some q => rfl
  have hl : (rm.m_textures.lookup name).isSome = true := by
    unfold ResourceManager.GetTexture at hc
    rw [hc]
    rfl
  have key : ∀ env2 path2, LoadTexture (some g) env2 rm name path2 =
      ⟨true, rm, [LoadEvent.warnAlreadyLoaded name]⟩ := by
    intro env2 path2
    unfold LoadTexture
    simp only [hctx, hl, if_true, Bool.false_eq_true, if_false]
  rw [key env partialPath]
  refine ⟨rfl, rfl, hc, rfl, rfl, ?_, fun env2 path2 => key env2 path2⟩
  intro p hp
  simp at hp

theorem LoadTexture_first_load_wins_witness :
    (LoadTexture (some graphicsReady) envFiles cacheT1T2 "t1" "a.png").ok = true ∧
    (LoadTexture (some graphicsReady) envFiles cacheT1T2 "t1" "a.png").rm = cacheT1T2 ∧
    (LoadTexture (some graphicsReady) envFiles cacheT1T2 "t1" "a.png").rm.GetTexture "t1" =
      some ⟨2, 1, some 1⟩ ∧
    (LoadTexture (some graphicsReady) envFiles cacheT1T2 "t1" "a.png").rm.m_textures.length =
      cacheT1T2.m_textures.length ∧
    (LoadTexture (some graphicsReady) envFiles cacheT1T2 "t1" "a.png").events =
      [LoadEvent.warnAlreadyLoaded "t1"] ∧
    (∀ p, LoadEvent.stbiLoad p ∉
      (LoadTexture (some graphicsReady) envFiles cacheT1T2 "t1" "a.png").events) ∧
    (∀ env2 path2, LoadTexture (some graphicsReady) env2 cacheT1T2 "t1" path2 =
      LoadTexture (some graphicsReady) envFiles cacheT1T2 "t1" "a.png") :=
  LoadTexture_first_load_wins graphicsReady envFiles cacheT1T2 "t1" "a.png" ⟨2, 1, some 1⟩
    (by decide) (by decide) (by decide)

/-- C29: `LoadTexture` returns false exactly when the graphics manager, the device or
the queue is missing, or the name is not cached and the image cannot be decoded or
the GPU texture or its view cannot be created; whenever it returns false the cache is
as it was, so `GetTexture` answers the same for every name; and whenever it returns
true for a name that was not cached, `GetTexture name` afterwards yields the width
and height of the decoded image. -/
theorem LoadTexture_atomic_on_failure (gm : Option GraphicsState) (env : LoadEnv)
    (rm : ResourceManager) (name partialPath : String) :
    ((LoadTexture gm env rm name partialPath).ok = false ↔
      (gm = none ∨ (∃ g, gm = some g ∧ (g.m_device = none ∨ g.m_queue = none)) ∨
        (rm.GetTexture name = none ∧
          (env.stbi_load (env.ResolvePath partialPath) = none ∨ env.createTexture = none ∨
            env.createView = none)))) ∧
    ((LoadTexture gm env rm name partialPath).ok = false →
      (LoadTexture gm env rm name partialPath).rm = rm ∧
      ∀ n, (LoadTexture gm env rm name partialPath).rm.GetTexture n = rm.GetTexture n) ∧
    ((LoadTexture gm env rm name partialPath).ok = true → rm.GetTexture name = none →
      ∃ w h, env.stbi_load (env.ResolvePath partialPath) = some (w, h) ∧
        ∃ t, (LoadTexture gm env rm name partialPath).rm.GetTexture name = some t ∧
          t.width = w ∧ t.height = h) := by
  refine ⟨?_, ?_, ?_⟩
  · unfold LoadTexture ResourceManager.GetTexture
    cases gm with
    | none => simp
    | some g =>
      cases hdv : g.m_device with
      | none => simp [hdv]
      | some d =>
        cases hqv : g.m_queue with
        | none => simp [hdv, hqv]
        | some q =>
          cases hl : rm.m_textures.lookup name with
          | some v => simp [hdv, hqv, hl]
          | none =>
            cases hs : env.stbi_load (env.ResolvePath partialPath) with
            | none => simp [hdv, hqv, hl, hs]
            | some wh =>
              cases ht : env.createTexture with
              | none => simp [hdv, hqv, hl, hs, ht]
              | some tex =>
                cases hv : env.createView with
                | none => simp [hdv, hqv, hl, hs, ht, hv]
                | some v => simp [hdv, hqv, hl, hs, ht, hv]
  · intro hf
    rcases LoadTexture_rm gm env rm name partialPath with ⟨hrm, _⟩ | ⟨hok, _⟩
    · exact ⟨hrm, fun n => by rw [hrm]⟩
    · rw [hok] at hf
      exact Bool.noConfusion hf
  · intro hok hnone
    rcases LoadTexture_rm gm env rm name partialPath with
      ⟨_, hcached⟩ | ⟨_, _, w, h, tex, hdec, _, hrm⟩
    · have := hcached hok
      rw [hnone] at this
      exact Bool.noConfusion this
    · refine ⟨w, h, hdec, ⟨w, h, some tex⟩, ?_, rfl, rfl⟩
      rw [hrm, GetTexture_cons, if_pos rfl]

theorem LoadTexture_atomic_on_failure_witness :
    (LoadTexture (some graphicsReady) envNoView cacheT1T2 "hero" "a.png").ok = false ∧
    (LoadTexture (some graphicsReady) envNoView cacheT1T2 "hero" "a.png").rm = cacheT1T2 ∧
    (LoadTexture (some graphicsReady) envFiles cacheT1T2 "hero" "a.png").ok = true ∧
    ∃ w h, envFiles.stbi_load (envFiles.ResolvePath "a.png") = some (w, h) ∧
      ∃ t, (LoadTexture (some graphicsReady) envFiles cacheT1T2 "hero" "a.png").rm.GetTexture
          "hero" = some t ∧ t.width = w ∧ t.height = h :=
  ⟨by decide,
    ((LoadTexture_atomic_on_failure (some graphicsReady) envNoView cacheT1T2 "hero"
      "a.png").2.1 (by decide)).1,
    by decide,
    (LoadTexture_atomic_on_failure (some graphicsReady) envFiles cacheT1T2 "hero"
      "a.png").2.2 (by decide) (by decide)⟩

theorem cache_entry_iff_first_successful_load_witness :
    (runOps opsSession ⟨[]⟩).GetTexture "hero" = some ⟨64, 32, some 11⟩ ∧
    (runOps opsSession ⟨[]⟩).GetTexture "ghost" = none ∧
    ∃ pre gm env partialPath post,
      opsSession = pre ++ CacheOp.load gm env "hero" partialPath :: post ∧
      (runOps pre ⟨[]⟩).GetTexture "hero" = none ∧
      (LoadTexture gm env (runOps pre ⟨[]⟩) "hero" partialPath).ok = true ∧
      ∃ w h tex, env.stbi_load (env.ResolvePath partialPath) = some (w, h) ∧
        env.createTexture = some tex ∧ (⟨64, 32, some 11⟩ : Texture) = ⟨w, h, some tex⟩ :=
  ⟨by decide, by decide,
    (cache_entry_iff_first_successful_load opsSession "hero" ⟨64, 32, some 11⟩).1.mp
      (by decide)⟩


/-! ## Start-up: the waits -/

theorem count_processEvents_requestCallback (success : Bool) (what : String) :
    (requestCallback success what).count StartupEvent.wgpuInstanceProcessEvents = 0 := by
  cases success
  · simp [requestCallback]
  · simp [requestCallback]

theorem uploaded_requestCallback (success : Bool) (what : String) :
    (requestCallback success what).filterMap StartupEvent.uploaded = [] := by
  cases success <;> rfl

theorem afterDevice_requestCallback (success : Bool) (what : String) :
    ∀ e ∈ requestCallback success what, e.afterDevice = false := by
  cases success
  · intro e he
    simp only [requestCallback, Bool.false_eq_true, if_false, List.mem_cons,
      List.mem_singleton, List.not_mem_nil, or_false] at he
    rcases he with rfl | rfl <;> rfl
  · intro e he
    simp [requestCallback] at he

/-- A wait for a handle that the callback leaves null never ends: whatever the fuel,
the handle is still null, and each unit of fuel went into one more call of
`wgpuInstanceProcessEvents`. -/
theorem spinWait_none (onFire : List StartupEvent)
    (hcb : onFire.count StartupEvent.wgpuInstanceProcessEvents = 0)
    (hafter : ∀ e ∈ onFire, e.afterDevice = false) :
    ∀ (fuel : Nat) (pending : Option Nat),
      (spinWait onFire none fuel none pending).handle = none ∧
      (spinWait onFire none fuel none pending).events.count
        StartupEvent.wgpuInstanceProcessEvents = fuel ∧
      ∀ e ∈ (spinWait onFire none fuel none pending).events, e.afterDevice = false := by
  intro fuel
  induction fuel with
  | zero =>
    intro pending
    exact ⟨rfl, rfl, fun e he => by simp [spinWait] at he⟩
  | succ n ih =>
    intro pending
    match pending with
    | none =>
      obtain ⟨h1, h2, h3⟩ := ih none
      refine ⟨h1, ?_, ?_⟩
      · simp only [spinWait, List.count_cons_self, h2]
      · intro e he
        simp only [spinWait, List.mem_cons] at he
        rcases he with rfl | he
        · rfl
        · exact h3 e he
    | some 0 =>
      obtain ⟨h1, h2, h3⟩ := ih none
      refine ⟨h1, ?_, ?_⟩
      · simp only [spinWait, List.count_cons_self, List.count_append, hcb, h2, Nat.zero_add]
      · intro e he
        simp only [spinWait, List.mem_cons, List.mem_append] at he
        rcases he with rfl | he | he
        · rfl
        · exact hafter e he
        · exact h3 e he
    | some (k + 1) =>
      obtain ⟨h1, h2, h3⟩ := ih (some k)
      refine ⟨h1, ?_, ?_⟩
      · simp only [spinWait, List.count_cons_self, h2]
      · intro e he
        simp only [spinWait, List.mem_cons] at he
        rcases he with rfl | he
        · rfl
        · exact h3 e he

/-- A wait for a handle the callback delivers ends after the calls of
`wgpuInstanceProcessEvents` it takes for the callback to fire. -/
theorem spinWait_some (onFire : List StartupEvent) (h : Nat) :
    ∀ (k fuel : Nat), k < fuel →
      spinWait onFire (some h) fuel none (some k) =
        ⟨List.replicate (k + 1) StartupEvent.wgpuInstanceProcessEvents ++ onFire, some h⟩ := by
  intro k
  induction k with
  | zero =>
    intro fuel hf
    obtain ⟨n, rfl⟩ : ∃ n, fuel = n + 1 := ⟨fuel - 1, by omega⟩
    simp [spinWait]
  | succ k ih =>
    intro fuel hf
    obtain ⟨n, rfl⟩ : ∃ n, fuel = n + 1 := ⟨fuel - 1, by omega⟩
    have := ih n (by omega)
    simp only [spinWait, this]
    simp [List.replicate_succ]

/-- While the callback has not fired, the wait uses up its fuel. -/
theorem spinWait_short (onFire : List StartupEvent) (delivered : Option Nat) :
    ∀ (fuel k : Nat), fuel ≤ k →
      spinWait onFire delivered fuel none (some k) =
        ⟨List.replicate fuel StartupEvent.wgpuInstanceProcessEvents, none⟩ := by
  intro fuel
  induction fuel with
  | zero =>
    intro k _
    rfl
  | succ n ih =>
    intro k hk
    obtain ⟨j, rfl⟩ : ∃ j, k = j + 1 := ⟨k - 1, by omega⟩
    simp only [spinWait, ih j (by omega), List.replicate_succ]

theorem requestAndWait_short (request : StartupEvent) (success : Bool) (what : String)
    (delivered : Option Nat) (k fuel : Nat) (hf : fuel ≤ k) :
    requestAndWait request success what delivered (k + 1) fuel =
      ⟨request :: List.replicate fuel StartupEvent.wgpuInstanceProcessEvents, none⟩ := by
  simp only [requestAndWait, spinWait_short _ _ fuel k hf]

theorem requestAndWait_some (request : StartupEvent) (success : Bool) (what : String)
    (h polls fuel : Nat) (hf : polls ≤ fuel) :
    requestAndWait request success what (some h) polls fuel =
      ⟨request :: (List.replicate polls StartupEvent.wgpuInstanceProcessEvents ++
        requestCallback success what), some h⟩ := by
  cases polls with
  | zero => simp [requestAndWait, spinWait]
  | succ k =>
    simp only [requestAndWait]
    rw [spinWait_some _ h k fuel (by omega)]

theorem requestAndWait_none (request : StartupEvent) (success : Bool) (what : String)
    (polls fuel : Nat) (hreq : request ≠ StartupEvent.wgpuInstanceProcessEvents)
    (hreq2 : request.afterDevice = false) :
    (requestAndWait request success what none polls fuel).handle = none ∧
    (requestAndWait request success what none polls fuel).events.count
      StartupEvent.wgpuInstanceProcessEvents = fuel ∧
    ∀ e ∈ (requestAndWait request success what none polls fuel).events,
      e.afterDevice = false := by
  have hcb := count_processEvents_requestCallback success what
  have haf := afterDevice_requestCallback success what
  cases polls with
  | zero =>
    obtain ⟨h1, h2, h3⟩ := spinWait_none (requestCallback success what) hcb haf fuel none
    refine ⟨h1, ?_, ?_⟩
    · simp only [requestAndWait, List.count_cons_of_ne hreq.symm, List.count_append, hcb, h2,
        Nat.zero_add]
    · intro e he
      simp only [requestAndWait, List.mem_cons, List.mem_append] at he
      rcases he with rfl | he | he
      · exact hreq2
      · exact haf e he
      · exact h3 e he
  | succ k =>
    obtain ⟨h1, h2, h3⟩ := spinWait_none (requestCallback success what) hcb haf fuel (some k)
    refine ⟨h1, ?_, ?_⟩
    · simp only [requestAndWait, List.count_cons_of_ne hreq.symm, h2]
    · intro e he
      simp only [requestAndWait, List.mem_cons] at he
      rcases he with rfl | he
      · exact hreq2
      · exact h3 e he

/-- With every handle delivered and fuel for both waits, `Startup` runs to its end. -/
theorem Startup_complete (fuel : Nat) (env : GraphicsEnv) (width height : Int)
    (fullscreen : Bool) (window inst surface adapter device : Nat)
    (hinit : env.glfwInit = true) (hw : env.glfwCreateWindow = some window)
    (hi : env.wgpuCreateInstance = some inst)
    (hs : env.glfwCreateWindowWGPUSurface = some surface)
    (ha : env.adapter = some adapter) (hd : env.device = some device)
    (hfa : env.adapterPolls ≤ fuel) (hfd : env.devicePolls ≤ fuel) :
    GraphicsManager.Startup fuel env width height fullscreen =
      ⟨startupPrefix width height fullscreen ++
        (StartupEvent.wgpuInstanceRequestAdapter ::
          (List.replicate env.adapterPolls StartupEvent.wgpuInstanceProcessEvents ++
            requestCallback env.adapterSuccess "Failed to get a WebGPU adapter: ")) ++
        (StartupEvent.wgpuAdapterRequestDevice ::
          (List.replicate env.devicePolls StartupEvent.wgpuInstanceProcessEvents ++
            requestCallback env.deviceSuccess "Failed to get a WebGPU device: ")) ++
        startupTail env,
      { m_window := some window, m_instance := some inst, m_surface := some surface,
        m_adapter := some adapter, m_device := some device,
        m_queue := env.wgpuDeviceGetQueue, m_uniformBuffer := env.uniformBuffer,
        m_sampler := some env.sampler, m_vertexBuffer := env.vertexBuffer,
        m_renderPipeline := env.renderPipeline },
      true⟩ := by
  unfold GraphicsManager.Startup
  simp only [hinit, hw, hi, hs, ha, hd, Bool.not_true, Bool.false_eq_true, if_false,
    requestAndWait_some _ _ _ _ _ _ hfa, requestAndWait_some _ _ _ _ _ _ hfd]

/-! ## Start-up: failures, script order, projection -/

theorem Startup_no_window (fuel : Nat) (env : GraphicsEnv) (width height : Int)
    (fullscreen : Bool) (hw : env.glfwCreateWindow = none) :
    (GraphicsManager.Startup fuel env width height fullscreen).returned = true ∧
    (GraphicsManager.Startup fuel env width height fullscreen).state = GraphicsState.init ∧
    ∀ e ∈ (GraphicsManager.Startup fuel env width height fullscreen).events,
      e.createsWebGPU = false := by
  cases hinit : env.glfwInit
  · have key : GraphicsManager.Startup fuel env width height fullscreen =
        ⟨[StartupEvent.glfwInit, StartupEvent.logError "Failed to initialize GLFW."],
          GraphicsState.init, true⟩ := by
      unfold GraphicsManager.Startup
      simp only [hinit, Bool.not_false, if_true]
    rw [key]
    refine ⟨rfl, rfl, ?_⟩
    intro e he
    simp only [List.mem_cons, List.mem_singleton, List.not_mem_nil, or_false] at he
    rcases he with rfl | rfl <;> rfl
  · have key : GraphicsManager.Startup fuel env width height fullscreen =
        ⟨[StartupEvent.glfwInit, StartupEvent.glfwWindowHints,
          StartupEvent.glfwCreateWindow width height fullscreen,
          StartupEvent.logError "Failed to create a window.", StartupEvent.glfwTerminate],
          GraphicsState.init, true⟩ := by
      unfold GraphicsManager.Startup
      simp only [hinit, hw, Bool.not_true, Bool.false_eq_true, if_false]
    rw [key]
    refine ⟨rfl, rfl, ?_⟩
    intro e he
    simp only [List.mem_cons, List.mem_singleton, List.not_mem_nil, or_false] at he
    rcases he with rfl | rfl | rfl | rfl | rfl <;> rfl

theorem chunksRun_graphics (events : List StartupEvent) :
    chunksRun (events.map EngineEvent.graphics) = [] := by
  unfold chunksRun
  rw [List.filterMap_map, List.filterMap_eq_nil_iff]
  intro e _
  rfl

theorem isScript_graphics (events : List StartupEvent) :
    ∀ e ∈ events.map EngineEvent.graphics, e.isScript = false := by
  intro e he
  rw [List.mem_map] at he
  obtain ⟨a, _, rfl⟩ := he
  rfl

/-- C23: when `glfwCreateWindow` fails, `GraphicsManager::Startup` returns with every
handle still null and without any call that creates a WebGPU object, and
`Engine::Startup` returns with `m_inputManager` and `m_scriptManager` null and without
loading or running a script. -/
theorem Startup_window_failure_halts (fuel : Nat) (env : EngineEnv) (width height : Int)
    (fullscreen : Bool) (hw : env.graphics.glfwCreateWindow = none) :
    (GraphicsManager.Startup fuel env.graphics width height fullscreen).returned = true ∧
    (GraphicsManager.Startup fuel env.graphics width height fullscreen).state =
      GraphicsState.init ∧
    (∀ e ∈ (GraphicsManager.Startup fuel env.graphics width height fullscreen).events,
      e.createsWebGPU = false) ∧
    (Engine.Startup fuel env).returned = true ∧
    (Engine.Startup fuel env).state.m_inputManager = none ∧
    (Engine.Startup fuel env).state.m_scriptManager = none ∧
    (∀ e ∈ (Engine.Startup fuel env).events, e.isScript = false) ∧
    chunksRun (Engine.Startup fuel env).events = [] := by
  obtain ⟨h1, h2, h3⟩ := Startup_no_window fuel env.graphics width height fullscreen hw
  obtain ⟨g1, g2, _⟩ := Startup_no_window fuel env.graphics 1280 720 false hw
  have hwin : (GraphicsManager.Startup fuel env.graphics 1280 720 false).state.m_window = none := by
    rw [g2]
    rfl
  have key : Engine.Startup fuel env =
      ⟨(GraphicsManager.Startup fuel env.graphics 1280 720 false).events.map
          EngineEvent.graphics ++
        [EngineEvent.setAssetRoot "../../../engine/assets", EngineEvent.soundManagerStartup,
          EngineEvent.setResourceManager] ++
        [EngineEvent.logError
          "GraphicsManager failed to create a window, InputManager will be unusable.",
          EngineEvent.stm_setup, EngineEvent.logInfo "Engine started up."],
        ⟨(GraphicsManager.Startup fuel env.graphics 1280 720 false).state, none, none, true⟩,
        true⟩ := by
    unfold Engine.Startup
    simp only [g1, hwin, Bool.not_true, Bool.false_eq_true, if_false]
  refine ⟨h1, h2, h3, ?_, ?_, ?_, ?_, ?_⟩
  · rw [key]
  · rw [key]
  · rw [key]
  · rw [key]
    intro e he
    simp only [List.mem_append, List.mem_cons, List.mem_singleton, List.not_mem_nil,
      or_false] at he
    rcases he with (he | rfl | rfl | rfl) | rfl | rfl | rfl
    · exact isScript_graphics _ e he
    all_goals rfl
  · rw [key]
    simp only [chunksRun, List.filterMap_append]
    have := chunksRun_graphics (GraphicsManager.Startup fuel env.graphics 1280 720 false).events
    unfold chunksRun at this
    rw [this]
    rfl

theorem Startup_window_failure_halts_witness :
    (GraphicsManager.Startup 3 envNoWindow 1280 720 false).returned = true ∧
    (GraphicsManager.Startup 3 envNoWindow 1280 720 false).state = GraphicsState.init ∧
    (∀ e ∈ (GraphicsManager.Startup 3 envNoWindow 1280 720 false).events,
      e.createsWebGPU = false) ∧
    (Engine.Startup 3 (envEngine envNoWindow)).returned = true ∧
    (Engine.Startup 3 (envEngine envNoWindow)).state.m_inputManager = none ∧
    (Engine.Startup 3 (envEngine envNoWindow)).state.m_scriptManager = none ∧
    (∀ e ∈ (Engine.Startup 3 (envEngine envNoWindow)).events, e.isScript = false) ∧
    chunksRun (Engine.Startup 3 (envEngine envNoWindow)).events = [] :=
  Startup_window_failure_halts 3 (envEngine envNoWindow) 1280 720 false (by decide)

/-- C24, as the code behaves: when the adapter callback stores a null adapter, as it
does on a status other than success, `Startup` does not return. For every amount of
fuel the wait `while (!m_adapter)` is still running, having called
`wgpuInstanceProcessEvents` once per unit of fuel; the same holds for the device wait
once the adapter has arrived. No queue, buffer, sampler or pipeline is created, but
the method keeps waiting instead of returning. -/
theorem Startup_acquisition_failure_never_returns (env : GraphicsEnv) (width height : Int)
    (fullscreen : Bool) (window inst surface : Nat)
    (hinit : env.glfwInit = true) (hw : env.glfwCreateWindow = some window)
    (hi : env.wgpuCreateInstance = some inst)
    (hs : env.glfwCreateWindowWGPUSurface = some surface) :
    (env.adapter = none → ∀ fuel,
      (GraphicsManager.Startup fuel env width height fullscreen).returned = false ∧
      (GraphicsManager.Startup fuel env width height fullscreen).events.count
        StartupEvent.wgpuInstanceProcessEvents = fuel ∧
      ∀ e ∈ (GraphicsManager.Startup fuel env width height fullscreen).events,
        e.afterDevice = false) ∧
    (∀ adapter, env.adapter = some adapter → env.device = none → ∀ fuel,
      (GraphicsManager.Startup fuel env width height fullscreen).returned = false ∧
      fuel ≤ (GraphicsManager.Startup fuel env width height fullscreen).events.count
        StartupEvent.wgpuInstanceProcessEvents ∧
      ∀ e ∈ (GraphicsManager.Startup fuel env width height fullscreen).events,
        e.afterDevice = false) := by
  have hpre : ∀ e ∈ startupPrefix width height fullscreen, e.afterDevice = false := by
    intro e he
    simp only [startupPrefix, List.mem_cons, List.mem_singleton, List.not_mem_nil,
      or_false] at he
    rcases he with rfl | rfl | rfl | rfl | rfl | rfl | rfl <;> rfl
  have hprec : (startupPrefix width height fullscreen).count
      StartupEvent.wgpuInstanceProcessEvents = 0 := by
    simp [startupPrefix]
  constructor
  · intro ha fuel
    obtain ⟨w1, w2, w3⟩ := requestAndWait_none StartupEvent.wgpuInstanceRequestAdapter
      env.adapterSuccess "Failed to get a WebGPU adapter: " env.adapterPolls fuel
      (by decide) rfl
    have key : GraphicsManager.Startup fuel env width height fullscreen =
        ⟨startupPrefix width height fullscreen ++
          (requestAndWait StartupEvent.wgpuInstanceRequestAdapter env.adapterSuccess
            "Failed to get a WebGPU adapter: " none env.adapterPolls fuel).events,
          { GraphicsState.init with
            m_window := some window, m_instance := some inst, m_surface := some surface },
          false⟩ := by
      unfold GraphicsManager.Startup
      simp only [hinit, hw, hi, hs, ha, w1, Bool.not_true, Bool.false_eq_true, if_false]
    rw [key]
    refine ⟨rfl, ?_, ?_⟩
    · simp only [List.count_append, hprec, w2, Nat.zero_add]
    · intro e he
      rw [List.mem_append] at he
      rcases he with he | he
      · exact hpre e he
      · exact w3 e he
  · intro adapter ha hd fuel
    by_cases hfa : env.adapterPolls ≤ fuel
    · obtain ⟨w1, w2, w3⟩ := requestAndWait_none StartupEvent.wgpuAdapterRequestDevice
        env.deviceSuccess "Failed to get a WebGPU device: " env.devicePolls fuel
        (by decide) rfl
      have key : GraphicsManager.Startup fuel env width height fullscreen =
          ⟨startupPrefix width height fullscreen ++
            (StartupEvent.wgpuInstanceRequestAdapter ::
              (List.replicate env.adapterPolls StartupEvent.wgpuInstanceProcessEvents ++
                requestCallback env.adapterSuccess "Failed to get a WebGPU adapter: ")) ++
            (requestAndWait StartupEvent.wgpuAdapterRequestDevice env.deviceSuccess
              "Failed to get a WebGPU device: " none env.devicePolls fuel).events,
            { GraphicsState.init with
              m_window := some window, m_instance := some inst, m_surface := some surface,
              m_adapter := some adapter },
            false⟩ := by
        unfold GraphicsManager.Startup
        simp only [hinit, hw, hi, hs, ha, hd, w1, Bool.not_true, Bool.false_eq_true, if_false,
          requestAndWait_some _ _ _ _ _ _ hfa]
      rw [key]
      refine ⟨rfl, ?_, ?_⟩
      · simp only [List.count_append, w2]
        omega
      · intro e he
        simp only [List.mem_append, List.mem_cons, List.mem_replicate] at he
        rcases he with (he | rfl | ⟨_, rfl⟩ | he) | he
        · exact hpre e he
        · rfl
        · rfl
        · exact afterDevice_requestCallback _ _ e he
        · exact w3 e he
    · obtain ⟨k, hk⟩ : ∃ k, env.adapterPolls = k + 1 := ⟨env.adapterPolls - 1, by omega⟩
      have hshort := requestAndWait_short StartupEvent.wgpuInstanceRequestAdapter
        env.adapterSuccess "Failed to get a WebGPU adapter: " (some adapter) k fuel (by omega)
      have key : GraphicsManager.Startup fuel env width height fullscreen =
          ⟨startupPrefix width height fullscreen ++
            (StartupEvent.wgpuInstanceRequestAdapter ::
              List.replicate fuel StartupEvent.wgpuInstanceProcessEvents),
            { GraphicsState.init with
              m_window := some window, m_instance := some inst, m_surface := some surface },
            false⟩ := by
        unfold GraphicsManager.Startup
        simp only [hinit, hw, hi, hs, ha, hk, hshort, Bool.not_true, Bool.false_eq_true,
          if_false]
      rw [key]
      refine ⟨rfl, ?_, ?_⟩
      · simp [List.count_append, hprec]
      · intro e he
        simp only [List.mem_append, List.mem_cons, List.mem_replicate] at he
        rcases he with he | rfl | ⟨_, rfl⟩
        · exact hpre e he
        · rfl
        · rfl

theorem Startup_acquisition_failure_never_returns_witness :
    ((GraphicsManager.Startup 100 envAdapterFails 1280 720 false).returned = false ∧
      (GraphicsManager.Startup 100 envAdapterFails 1280 720 false).events.count
        StartupEvent.wgpuInstanceProcessEvents = 100 ∧
      ∀ e ∈ (GraphicsManager.Startup 100 envAdapterFails 1280 720 false).events,
        e.afterDevice = false) ∧
    ((GraphicsManager.Startup 100 envDeviceFails 1280 720 false).returned = false ∧
      100 ≤ (GraphicsManager.Startup 100 envDeviceFails 1280 720 false).events.count
        StartupEvent.wgpuInstanceProcessEvents ∧
      ∀ e ∈ (GraphicsManager.Startup 100 envDeviceFails 1280 720 false).events,
        e.afterDevice = false) :=
  ⟨(Startup_acquisition_failure_never_returns envAdapterFails 1280 720 false 1 2 3
      rfl rfl rfl rfl).1 rfl 100,
    (Startup_acquisition_failure_never_returns envDeviceFails 1280 720 false 1 2 3
      rfl rfl rfl rfl).2 4 rfl rfl 100⟩

/-- The script chunks `Engine::Startup` runs, in order. -/
theorem chunksRun_Startup (fuel : Nat) (env : EngineEnv) :
    chunksRun (Engine.Startup fuel env).events =
      if (GraphicsManager.Startup fuel env.graphics 1280 720 false).returned = true ∧
          (GraphicsManager.Startup fuel env.graphics 1280 720 false).state.m_window.isSome
            = true ∧
          env.load_file (env.ResolvePath "scripts/main_script.lua") = true ∧
          env.load_file (env.ResolvePath "scripts/ecs.lua") = true then
        if env.ecsValid = true then ["ECS", "main_script"] else ["ECS"]
      else [] := by
  have hg := chunksRun_graphics (GraphicsManager.Startup fuel env.graphics 1280 720 false).events
  unfold chunksRun at hg
  cases hret : (GraphicsManager.Startup fuel env.graphics 1280 720 false).returned
  · simp [Engine.Startup, chunksRun, hg, hret]
  · cases hwin : (GraphicsManager.Startup fuel env.graphics 1280 720 false).state.m_window with
    | none => simp [Engine.Startup, chunksRun, hg, hret, hwin, EngineEvent.chunk]
    | some window =>
      cases hlm : env.load_file (env.ResolvePath "scripts/main_script.lua") <;>
      cases hle : env.load_file (env.ResolvePath "scripts/ecs.lua") <;>
      cases hev : env.ecsValid <;>
      cases hmv : env.mainValid <;>
      simp [Engine.Startup, chunksRun, hg, hret, hwin, EngineEvent.chunk,
        ScriptManager.LoadScript, ScriptManager.GetScript, hlm, hle, hev, hmv]

/-- C25: the chunks `Engine::Startup` executes are, in order, none, the ECS chunk
alone, or the ECS chunk followed by the main chunk; both load and the ECS chunk is
valid whenever the main chunk runs; if either script fails to load no chunk runs; if
the ECS chunk returns an invalid result the main chunk is not called; and when the
graphics start-up returns with a window and both scripts load, the ECS chunk does
run. -/
theorem Startup_runs_ECS_before_main (fuel : Nat) (env : EngineEnv) :
    (chunksRun (Engine.Startup fuel env).events = [] ∨
      chunksRun (Engine.Startup fuel env).events = ["ECS"] ∨
      chunksRun (Engine.Startup fuel env).events = ["ECS", "main_script"]) ∧
    ("main_script" ∈ chunksRun (Engine.Startup fuel env).events →
      chunksRun (Engine.Startup fuel env).events = ["ECS", "main_script"] ∧
      env.ecsValid = true ∧
      env.load_file (env.ResolvePath "scripts/main_script.lua") = true ∧
      env.load_file (env.ResolvePath "scripts/ecs.lua") = true) ∧
    ((env.load_file (env.ResolvePath "scripts/main_script.lua") = false ∨
        env.load_file (env.ResolvePath "scripts/ecs.lua") = false) →
      chunksRun (Engine.Startup fuel env).events = []) ∧
    (env.ecsValid = false → "main_script" ∉ chunksRun (Engine.Startup fuel env).events) ∧
    ((GraphicsManager.Startup fuel env.graphics 1280 720 false).returned = true →
      (GraphicsManager.Startup fuel env.graphics 1280 720 false).state.m_window.isSome = true →
      env.load_file (env.ResolvePath "scripts/main_script.lua") = true →
      env.load_file (env.ResolvePath "scripts/ecs.lua") = true →
      chunksRun (Engine.Startup fuel env).events =
        if env.ecsValid = true then ["ECS", "main_script"] else ["ECS"]) := by
  rw [chunksRun_Startup]
  refine ⟨?_, ?_, ?_, ?_, ?_⟩
  · split
    · split
      · exact Or.inr (Or.inr rfl)
      · exact Or.inr (Or.inl rfl)
    · exact Or.inl rfl
  · intro hmem
    split at hmem
    · rename_i hc
      split at hmem
      · rename_i hv
        rw [if_pos hc, if_pos hv]
        exact ⟨rfl, hv, hc.2.2.1, hc.2.2.2⟩
      · simp at hmem
    · simp at hmem
  · intro hl
    rw [if_neg]
    rintro ⟨_, _, h1, h2⟩
    rcases hl with hl | hl
    · rw [h1] at hl
      exact Bool.noConfusion hl
    · rw [h2] at hl
      exact Bool.noConfusion hl
  · intro hv hmem
    split at hmem
    · rw [if_neg (by rw [hv]; exact Bool.false_ne_true)] at hmem
      simp at hmem
    · simp at hmem
  · intro h1 h2 h3 h4
    rw [if_pos ⟨h1, h2, h3, h4⟩]

theorem Startup_runs_ECS_before_main_witness :
    chunksRun (Engine.Startup 5 (envEngine (envGraphicsOk 1280 720))).events =
      ["ECS", "main_script"] ∧
    (envEngine (envGraphicsOk 1280 720)).ecsValid = true :=
  ⟨by decide,
    ((Startup_runs_ECS_before_main 5 (envEngine (envGraphicsOk 1280 720))).2.1
      (by decide)).2.1⟩

/-- The projection of `Startup` in closed form, for a framebuffer with positive
sides. -/
theorem projectionMatrix_eq (W H : Int) (hW : 0 < W) (hH : 0 < H) :
    projectionMatrix W H =
      ⟨⟨(1 / 100) * min 1 ((H : ℚ) / (W : ℚ)), 0, 0, 0⟩,
       ⟨0, (1 / 100) * min 1 ((W : ℚ) / (H : ℚ)), 0, 0⟩,
       ⟨0, 0, 1, 0⟩, ⟨0, 0, 0, 1⟩⟩ := by
  have hWq : (0 : ℚ) < (W : ℚ) := by exact_mod_cast hW
  have hHq : (0 : ℚ) < (H : ℚ) := by exact_mod_cast hH
  unfold projectionMatrix
  by_cases hlt : W < H
  · have hltq : (W : ℚ) < (H : ℚ) := by exact_mod_cast hlt
    have h1 : min 1 ((H : ℚ) / (W : ℚ)) = 1 :=
      min_eq_left ((one_le_div hWq).2 hltq.le)
    have h2 : min 1 ((W : ℚ) / (H : ℚ)) = (W : ℚ) / (H : ℚ) :=
      min_eq_right ((div_le_one hHq).2 hltq.le)
    rw [if_pos hlt, h1, h2]
    simp [Mat4.identity]
  · have hle : (H : ℚ) ≤ (W : ℚ) := by exact_mod_cast not_lt.1 hlt
    have h1 : min 1 ((H : ℚ) / (W : ℚ)) = (H : ℚ) / (W : ℚ) :=
      min_eq_right ((div_le_one hWq).2 hle)
    have h2 : min 1 ((W : ℚ) / (H : ℚ)) = 1 :=
      min_eq_left ((one_le_div hHq).2 hle)
    rw [if_neg hlt, h1, h2]
    simp [Mat4.identity]

theorem uploaded_startupPrefix (width height : Int) (fullscreen : Bool) :
    (startupPrefix width height fullscreen).filterMap StartupEvent.uploaded = [] := rfl

theorem uploaded_replicate (n : Nat) :
    (List.replicate n StartupEvent.wgpuInstanceProcessEvents).filterMap
      StartupEvent.uploaded = [] := by
  rw [List.filterMap_eq_nil_iff]
  intro e he
  rw [List.eq_of_mem_replicate he]
  rfl

theorem uploaded_startupTail (env : GraphicsEnv) :
    (startupTail env).filterMap StartupEvent.uploaded =
      [projectionMatrix env.framebufferSize.1 env.framebufferSize.2] := by
  unfold startupTail
  cases env.vertexBuffer <;> rfl

/-- C30: for a framebuffer of positive width W and height H, a start-up in which
every handle arrives returns after uploading one projection matrix: the identity
except for the first two diagonal entries, (1/100) min(1, H/W) for x and
(1/100) min(1, W/H) for y. The entry of the shorter side is 1/100, and x W = y H. -/
theorem Startup_projection (fuel : Nat) (env : GraphicsEnv) (width height : Int)
    (fullscreen : Bool) (window inst surface adapter device : Nat) (W H : Int)
    (hinit : env.glfwInit = true) (hw : env.glfwCreateWindow = some window)
    (hi : env.wgpuCreateInstance = some inst)
    (hs : env.glfwCreateWindowWGPUSurface = some surface)
    (ha : env.adapter = some adapter) (hd : env.device = some device)
    (hfa : env.adapterPolls ≤ fuel) (hfd : env.devicePolls ≤ fuel)
    (hfb : env.framebufferSize = (W, H)) (hW : 0 < W) (hH : 0 < H) :
    (GraphicsManager.Startup fuel env width height fullscreen).returned = true ∧
    uploadedProjections (GraphicsManager.Startup fuel env width height fullscreen).events =
      [⟨⟨(1 / 100) * min 1 ((H : ℚ) / (W : ℚ)), 0, 0, 0⟩,
        ⟨0, (1 / 100) * min 1 ((W : ℚ) / (H : ℚ)), 0, 0⟩,
        ⟨0, 0, 1, 0⟩, ⟨0, 0, 0, 1⟩⟩] ∧
    (1 / 100) * min 1 ((H : ℚ) / (W : ℚ)) * (W : ℚ) =
      (1 / 100) * min 1 ((W : ℚ) / (H : ℚ)) * (H : ℚ) ∧
    (W ≤ H → (1 / 100) * min 1 ((H : ℚ) / (W : ℚ)) = 1 / 100) ∧
    (H ≤ W → (1 / 100) * min 1 ((W : ℚ) / (H : ℚ)) = 1 / 100) := by
  have hWq : (0 : ℚ) < (W : ℚ) := by exact_mod_cast hW
  have hHq : (0 : ℚ) < (H : ℚ) := by exact_mod_cast hH
  rw [Startup_complete fuel env width height fullscreen window inst surface adapter device
    hinit hw hi hs ha hd hfa hfd]
  refine ⟨rfl, ?_, ?_, ?_, ?_⟩
  · simp only [uploadedProjections, List.filterMap_append, List.filterMap_cons,
      uploaded_startupPrefix, uploaded_replicate, uploaded_requestCallback,
      uploaded_startupTail, StartupEvent.uploaded, List.nil_append, hfb]
    rw [projectionMatrix_eq W H hW hH]
  · rcases le_total W H with h | h
    · have hq : (W : ℚ) ≤ (H : ℚ) := by exact_mod_cast h
      rw [min_eq_left ((one_le_div hWq).2 hq), min_eq_right ((div_le_one hHq).2 hq)]
      field_simp
      ring
    · have hq : (H : ℚ) ≤ (W : ℚ) := by exact_mod_cast h
      rw [min_eq_right ((div_le_one hWq).2 hq), min_eq_left ((one_le_div hHq).2 hq)]
      field_simp
      ring
  · intro h
    have hq : (W : ℚ) ≤ (H : ℚ) := by exact_mod_cast h
    rw [min_eq_left ((one_le_div hWq).2 hq)]
    ring
  · intro h
    have hq : (H : ℚ) ≤ (W : ℚ) := by exact_mod_cast h
    rw [min_eq_left ((one_le_div hHq).2 hq)]
    ring

theorem Startup_projection_witness :
    (GraphicsManager.Startup 2 (envGraphicsOk 1280 720) 1280 720 false).returned = true ∧
    uploadedProjections
        (GraphicsManager.Startup 2 (envGraphicsOk 1280 720) 1280 720 false).events =
      [⟨⟨9 / 1600, 0, 0, 0⟩, ⟨0, 1 / 100, 0, 0⟩, ⟨0, 0, 1, 0⟩, ⟨0, 0, 0, 1⟩⟩] ∧
    ((9 : ℚ) / 1600) * 1280 = (1 / 100) * 720 := by
  have h := Startup_projection 2 (envGraphicsOk 1280 720) 1280 720 false 1 2 3 4 5 1280 720
    rfl rfl rfl rfl rfl rfl (by decide) (by decide) rfl (by decide) (by decide)
  have hx : (1 / 100 : ℚ) * min 1 (((720 : Int) : ℚ) / ((1280 : Int) : ℚ)) = 9 / 1600 := by
    rw [min_eq_right (by norm_num)]
    norm_num
  have hy : (1 / 100 : ℚ) * min 1 (((1280 : Int) : ℚ) / ((720 : Int) : ℚ)) = 1 / 100 := by
    rw [min_eq_left (by norm_num)]
    norm_num
  rw [hx, hy] at h
  exact ⟨h.1, h.2.1, by norm_num⟩

end enDjinn
